import Mathlib

/-! # User profile management API: a shallow embedding

The development follows the repository's layers:

* `src/models/User.js`: the user schema, its setters and validators, the
  pre-save password hook, `findByEmail`, `getPublicProfile`,
  `getPaginatedUsers`;
* `src/middleware/validation.js`: the three body schemas and `validate`;
* `src/middleware/auth.js`: `authenticate`, `authorizeAdmin`,
  `authorizeProfileAccess`;
* `src/controllers/authController.js`, `src/controllers/userController.js`:
  the handlers;
* `src/routes/auth.js`, `src/routes/users.js`: the middleware chains.

The collection is a list of documents in insertion order; every handler is a
function from the collection to a response and a new collection.  What the
code obtains from its libraries (password hashing, token signing, the registry
of top-level domains, the clock, fresh identifiers) is passed in explicitly,
and so is what the platform does with a string that has a character outside
ASCII (its lowercase form, the verdict of the email rule on it); strings in
ASCII are lowered and checked by the definitions below.  The `length` of a
string counts UTF-16 code units.
-/

set_option autoImplicit false

namespace UserApi

/-! ## Strings as the code uses them -/

/-- Whether every character of a string is in ASCII. -/
def isAscii (s : String) : Bool := s.data.all (fun c => c.toNat < 128)

/-- The letters A-Z folded to lowercase: the value of
`String.prototype.toLowerCase` on a string in ASCII. -/
def lowerAscii (s : String) : String := ⟨s.data.map Char.toLower⟩

/-- Code points removed by `String.prototype.trim`. -/
def isTrimChar (c : Char) : Bool :=
  [9, 10, 11, 12, 13, 32, 160, 5760, 8192, 8193, 8194, 8195, 8196, 8197, 8198,
    8199, 8200, 8201, 8202, 8232, 8233, 8239, 8287, 12288, 65279].contains c.toNat

/-- Model of `String.prototype.trim`. -/
def trim (s : String) : String :=
  ⟨((s.data.dropWhile isTrimChar).reverse.dropWhile isTrimChar).reverse⟩

/-- Number of UTF-16 code units of a character: two outside the Basic
Multilingual Plane. -/
def codeUnits (c : Char) : Nat := if c.toNat < 65536 then 1 else 2

/-- Model of the `length` property of a string, which counts UTF-16 code
units; the validation library and the validators of the schema measure a
string by it. -/
def strLength (s : String) : Nat := (s.data.map codeUnits).sum

/-- JavaScript truthiness of a value that is a string or `undefined`. -/
def truthy : Option String → Bool
  | some s => s != ""
  | none => false

/-- Model of `String.prototype.startsWith`. -/
def startsWith (s p : String) : Bool := p.data.isPrefixOf s.data

/-- Model of `String.prototype.substring(n)`. -/
def substring (s : String) (n : Nat) : String := ⟨s.data.drop n⟩

/-- Model of `String.prototype.split` on a one-character separator. -/
def splitOn (sep : Char) : List Char → List (List Char)
  | [] => [[]]
  | c :: cs =>
    if c == sep then [] :: splitOn sep cs
    else
      match splitOn sep cs with
      | [] => [[c]]
      | seg :: segs => (c :: seg) :: segs

/-- Word characters, the class `\w` of a regular expression. -/
def isWordChar (c : Char) : Bool :=
  let n := c.toNat
  (48 ≤ n && n ≤ 57) || (65 ≤ n && n ≤ 90) || (97 ≤ n && n ≤ 122) || n == 95

/-! ## Regular expressions (for the `match` validator of the email path) -/

/-- Regular expressions over characters. -/
inductive Rx where
  | none : Rx
  | eps : Rx
  | cls : (Char → Bool) → Rx
  | seq : Rx → Rx → Rx
  | alt : Rx → Rx → Rx
  | star : Rx → Rx

namespace Rx

/-- Whether the expression accepts the empty string. -/
def nullable : Rx → Bool
  | none => false
  | eps => true
  | cls _ => false
  | seq a b => a.nullable && b.nullable
  | alt a b => a.nullable || b.nullable
  | star _ => true

/-- The derivative of an expression by one character. -/
def deriv (c : Char) : Rx → Rx
  | none => none
  | eps => none
  | cls p => if p c then eps else none
  | seq a b =>
    if a.nullable then alt (seq (a.deriv c) b) (b.deriv c) else seq (a.deriv c) b
  | alt a b => alt (a.deriv c) (b.deriv c)
  | star a => seq (a.deriv c) (star a)

/-- Anchored matching, as `RegExp.prototype.test` with `^...$`. -/
def test (r : Rx) : List Char → Bool
  | [] => r.nullable
  | c :: cs => (r.deriv c).test cs

/-- One or more repetitions. -/
def plus (r : Rx) : Rx := seq r (star r)

/-- Zero or one occurrence. -/
def opt (r : Rx) : Rx := alt r eps

end Rx

/-- The pattern of the email path of the schema:
`/^\w+([.-]?\w+)*@\w+([.-]?\w+)*(\.\w{2,3})+$/`. -/
def emailPattern : Rx :=
  let w := Rx.cls isWordChar
  let sep := Rx.cls (fun c => c == '.' || c == '-')
  let part := Rx.seq (Rx.plus w) (Rx.star (Rx.seq (Rx.opt sep) (Rx.plus w)))
  let tld := Rx.seq (Rx.cls (fun c => c == '.')) (Rx.seq w (Rx.seq w (Rx.opt w)))
  Rx.seq part (Rx.seq (Rx.cls (fun c => c == '@')) (Rx.seq part (Rx.plus tld)))

/-- The `match` validator of the email path. -/
def emailMatch (s : String) : Bool := emailPattern.test s.data

/-! ## Identifiers -/

/-- An ObjectId, held as its 24 lowercase hexadecimal digits. -/
structure ObjectId where
  hex : String
deriving DecidableEq, Repr

/-- Hexadecimal digits of either case. -/
def isHexChar (c : Char) : Bool :=
  let n := c.toNat
  (48 ≤ n && n ≤ 57) || (65 ≤ n && n ≤ 70) || (97 ≤ n && n ≤ 102)

/-- Model of `ObjectId.prototype.toString`. -/
def ObjectId.toString (o : ObjectId) : String := o.hex

/-- How the object-document mapper casts a string to an ObjectId: 24
hexadecimal digits of either case are accepted and denote the identifier
whose `toString` is their lowercase form; `none` stands for a `CastError`.
(Releases of the driver that also read a string of 12 characters as the 12
bytes of an identifier are not modelled.) -/
def castObjectId (s : String) : Option ObjectId :=
  if s.data.length == 24 && s.data.all isHexChar then some ⟨lowerAscii s⟩ else none

/-! ## Documents -/

/-- A user document.  `password` is `none` only in a document read with the
projection `-password`. -/
structure User where
  _id : ObjectId
  firstName : String
  middleName : Option String
  lastName : String
  email : String
  password : Option String
  department : Option String
  role : String
  createdAt : Nat
  updatedAt : Nat
deriving DecidableEq, Repr

/-- The collection of users, in insertion order. -/
abbrev Db := List User

/-- A scalar of a serialised document. -/
inductive Val where
  | str : String → Val
  | num : Nat → Val
deriving DecidableEq, Repr

/-- A serialised document: its keys with their values. -/
abbrev Obj := List (String × Val)

/-- Value of a key of a serialised document. -/
def Obj.get (o : Obj) (k : String) : Option Val := (o.find? (fun kv => kv.1 == k)).map Prod.snd

/-- The `delete` operator on a serialised document. -/
def Obj.delete (o : Obj) (k : String) : Obj := o.filter (fun kv => kv.1 != k)

/-- The virtual `fullName`. -/
def fullName (u : User) : String :=
  if truthy u.middleName then
    u.firstName ++ " " ++ u.middleName.getD "" ++ " " ++ u.lastName
  else
    u.firstName ++ " " ++ u.lastName

/-- An optional key of a serialised document. -/
def optKey (k : String) : Option String → Obj
  | some v => [(k, Val.str v)]
  | none => []

/-- Model of `toObject()` with the schema option `virtuals: true`. -/
def User.toObject (u : User) : Obj :=
  [("_id", Val.str u._id.toString), ("firstName", Val.str u.firstName)]
    ++ optKey "middleName" u.middleName
    ++ [("lastName", Val.str u.lastName), ("email", Val.str u.email)]
    ++ optKey "password" u.password
    ++ optKey "department" u.department
    ++ [("role", Val.str u.role), ("createdAt", Val.num u.createdAt),
        ("updatedAt", Val.num u.updatedAt), ("fullName", Val.str (fullName u)),
        ("id", Val.str u._id.toString)]

/-- The instance method `getPublicProfile`. -/
def getPublicProfile (u : User) : Obj := (u.toObject).delete "password"

/-- The projection `-password` of a query. -/
def selectNoPassword (u : User) : User := { u with password := none }

/-! ## What the code obtains from its libraries and its environment -/

/-- Outcome of `jwt.verify`: the decoded `userId`, or the error thrown. -/
inductive JwtResult where
  | ok : String → JwtResult
  | jsonWebTokenError : JwtResult
  | tokenExpiredError : JwtResult
  | otherError : JwtResult
deriving DecidableEq, Repr

/-- The library functions the code calls, with the configuration they read
(`JWT_SECRET`, `JWT_EXPIRES_IN`) fixed.
`hash p salt` is `bcrypt.hash(p, 12)` for the salt drawn in that call,
`compare p h` is `bcrypt.compare(p, h)`, `sign userId now` is `jwt.sign` of
the payload with that `userId` at time `now`, `verify token now` is
`jwt.verify` at time `now`, `tlds` is the registry of top-level domains the
validation library checks an email address against.
Two functions carry what the platform and the validation library do with a
string that has a character outside ASCII, for which they consult the Unicode
tables: `lowerUnicode s` is `s.toLowerCase()` for such a string, and
`emailUnicode s` is the verdict of the rule `email()` on such a string (the
library normalises it to NFC and converts its domain with the URL parser of
the platform before it looks at the segments). -/
structure Lib where
  hash : String → String → String
  compare : String → String → Bool
  sign : String → Nat → String
  verify : String → Nat → JwtResult
  tlds : List String
  lowerUnicode : String → String
  emailUnicode : String → Bool

/-- Model of `String.prototype.toLowerCase`: in a string in ASCII the letters
A-Z are folded; for any other string the result is the platform's. -/
def toLowerCase (lib : Lib) (s : String) : String :=
  if isAscii s then lowerAscii s else lib.lowerUnicode s

/-- What one request draws from its environment: the clock, the identifier
generated for a new document, the salt of a hashing call. -/
structure Env where
  now : Nat
  newId : ObjectId
  salt : String
deriving DecidableEq, Repr

/-! ## Request bodies and responses -/

/-- A JSON request body over the keys of the schemas; an absent key is `none`.
(A body with another key, or with a value that is not a string, is rejected by
every schema.) -/
structure Body where
  firstName : Option String := none
  middleName : Option String := none
  lastName : Option String := none
  email : Option String := none
  password : Option String := none
  department : Option String := none
  role : Option String := none
deriving DecidableEq, Repr

/-- The object returned by `getPaginatedUsers`. -/
structure PageResult where
  users : List Obj
  totalPages : Int
  currentPage : Int
  totalUsers : Nat
  hasNextPage : Bool
  hasPrevPage : Bool
deriving DecidableEq, Repr

/-- The `data` member of a response body. -/
inductive Data where
  | userToken : Obj → String → Data
  | user : Obj → Data
  | token : String → Data
  | page : PageResult → Data
deriving DecidableEq, Repr

/-- A response: the HTTP status and the members of the JSON body.  (The
`error` member is `undefined`, hence not serialised, outside development
mode; it is left out.) -/
structure Response where
  code : Nat
  status : String
  message : Option String
  data : Option Data
deriving DecidableEq, Repr

/-- An error response `{status: 'error', message}`. -/
def errorResponse (code : Nat) (message : String) : Response :=
  { code := code, status := "error", message := some message, data := none }

/-- The user objects a response carries. -/
def Response.users (r : Response) : List Obj :=
  match r.data with
  | some (Data.userToken u _) => [u]
  | some (Data.user u) => [u]
  | some (Data.page p) => p.users
  | some (Data.token _) => []
  | none => []

/-- The token a response carries. -/
def Response.token (r : Response) : Option String :=
  match r.data with
  | some (Data.userToken _ t) => some t
  | some (Data.token t) => some t
  | _ => none

/-! ## The validation middleware (`src/middleware/validation.js`) -/

/-- Characters allowed in a segment of the local part of an address in ASCII:
the word characters and the marks of the class `atext`. -/
def isAtext (c : Char) : Bool :=
  isWordChar c
    || [33, 35, 36, 37, 38, 39, 42, 43, 45, 47, 61, 63, 94, 96, 123, 124, 125, 126].contains c.toNat

/-- Letters and digits. -/
def isAlnum (c : Char) : Bool :=
  let n := c.toNat
  (48 ≤ n && n ≤ 57) || (65 ≤ n && n ≤ 90) || (97 ≤ n && n ≤ 122)

/-- A segment of a domain: letters, digits and inner hyphens, at most 63. -/
def domainSegmentOk (seg : List Char) : Bool :=
  seg.length ≤ 63 && seg.all (fun c => isAlnum c || c == '-')
    && (seg.head?.map isAlnum).getD false && (seg.getLast?.map isAlnum).getD false

/-- The rule `email()` of the validation library, with its default options,
on a string in ASCII: one `@`, a local part of at most 64 characters made of
non-empty dot-separated segments, a domain of at least two segments whose last
one starts with a letter and is a registered top-level domain, at most 254
characters in all. -/
def joiEmailAscii (tlds : List String) (s : String) : Bool :=
  decide (s.data.length ≤ 254) &&
    match splitOn '@' s.data with
    | [loc, dom] =>
      loc != [] && decide (loc.length ≤ 64)
        && (splitOn '.' loc).all (fun seg => seg != [] && seg.all isAtext)
        && decide (2 ≤ (splitOn '.' dom).length)
        && (splitOn '.' dom).all domainSegmentOk
        && (((splitOn '.' dom).getLast?).map (fun t =>
              (t.head?.map (fun c => isAlnum c && !(48 ≤ c.toNat && c.toNat ≤ 57))).getD false
                && tlds.contains (lowerAscii ⟨t⟩))).getD false
    | _ => false

/-- Model of the rule `email()` of the validation library with its default
options: `joiEmailAscii` on a string in ASCII, the library's verdict on any
other string. -/
def joiEmail (lib : Lib) (s : String) : Bool :=
  if isAscii s then joiEmailAscii lib.tlds s else lib.emailUnicode s

/-- The message of `any.required` for a key. -/
def requiredMessage (label : String) : String := "\"" ++ label ++ "\" is required"

/-- The default message of `string.empty` for a key. -/
def emptyMessage (label : String) : String := "\"" ++ label ++ "\" is not allowed to be empty"

/-- Violations of `Joi.string().trim().min(1).max(n)` (or, with `allowEmpty`,
of `Joi.string().trim().max(n).allow('')`), required or optional. -/
def textErrors (label emptyMsg maxMsg : String) (max : Nat) (required allowEmpty : Bool)
    (v : Option String) : List String :=
  match v with
  | none => if required then [requiredMessage label] else []
  | some s =>
    if trim s == "" then (if allowEmpty then [] else [emptyMsg])
    else if max < strLength (trim s) then [maxMsg] else []

/-- Violations of `Joi.string().email().lowercase()`, required or optional. -/
def emailErrors (lib : Lib) (emptyMsg : String) (required : Bool)
    (v : Option String) : List String :=
  match v with
  | none => if required then [requiredMessage "email"] else []
  | some s =>
    if s == "" then [emptyMsg]
    else if joiEmail lib s then [] else ["Please enter a valid email address"]

/-- Violations of `Joi.string().min(n)` (no minimum when `min` is 0),
required or optional. -/
def passwordErrors (emptyMsg : String) (min : Nat) (required : Bool)
    (v : Option String) : List String :=
  match v with
  | none => if required then [requiredMessage "password"] else []
  | some s =>
    if s == "" then [emptyMsg]
    else if strLength s < min then ["Password must be at least 6 characters long"] else []

/-- Violations of `Joi.string().valid('admin', 'user').optional()`. -/
def roleErrors (v : Option String) : List String :=
  match v with
  | none => []
  | some s => if s == "admin" || s == "user" then [] else ["Role must be either admin or user"]

/-- Violation of a schema without the key. -/
def unknownErrors (label : String) (v : Option String) : List String :=
  match v with
  | none => []
  | some _ => ["\"" ++ label ++ "\" is not allowed"]

/-- Violations of `userRegistrationSchema`, in the order of its keys. -/
def userRegistrationSchema (lib : Lib) (b : Body) : List String :=
  textErrors "firstName" "First name is required" "First name cannot exceed 50 characters"
      50 true false b.firstName
    ++ textErrors "middleName" "" "Middle name cannot exceed 50 characters" 50 false true
      b.middleName
    ++ textErrors "lastName" "Last name is required" "Last name cannot exceed 50 characters"
      50 true false b.lastName
    ++ emailErrors lib "Email is required" true b.email
    ++ passwordErrors "Password is required" 6 true b.password
    ++ textErrors "department" "" "Department cannot exceed 100 characters" 100 false true
      b.department
    ++ roleErrors b.role

/-- Violations of `userUpdateSchema`, in the order of its keys. -/
def userUpdateSchema (lib : Lib) (b : Body) : List String :=
  textErrors "firstName" "First name cannot be empty" "First name cannot exceed 50 characters"
      50 false false b.firstName
    ++ textErrors "middleName" "" "Middle name cannot exceed 50 characters" 50 false true
      b.middleName
    ++ textErrors "lastName" "Last name cannot be empty" "Last name cannot exceed 50 characters"
      50 false false b.lastName
    ++ emailErrors lib (emptyMessage "email") false b.email
    ++ passwordErrors (emptyMessage "password") 6 false b.password
    ++ textErrors "department" "" "Department cannot exceed 100 characters" 100 false true
      b.department
    ++ roleErrors b.role

/-- Violations of `loginSchema`, in the order of its keys; the other keys are
unknown to it. -/
def loginSchema (lib : Lib) (b : Body) : List String :=
  emailErrors lib "Email is required" true b.email
    ++ passwordErrors "Password is required" 0 true b.password
    ++ unknownErrors "firstName" b.firstName
    ++ unknownErrors "middleName" b.middleName
    ++ unknownErrors "lastName" b.lastName
    ++ unknownErrors "department" b.department
    ++ unknownErrors "role" b.role

/-- The `error.details` of `schema.validate(req.body)`: with the library's
default `abortEarly`, validation stops at the first violation. -/
def details (violations : List String) : List String := violations.take 1

/-- The middleware `validate(schema)`: `some` response when it answers itself,
`none` when it calls `next()`.  The body is passed on as received (the
converted value of the validation is not used). -/
def validate (schema : Body → List String) (b : Body) : Option Response :=
  match details (schema b) with
  | [] => none
  | ds => some (errorResponse 400 (", ".intercalate ds))

/-! ## The model (`src/models/User.js`) over the collection -/

/-- Errors thrown by the store layer; every handler answers them with 500. -/
inductive StoreError where
  | castError : StoreError
  | validationError : StoreError
  | duplicateKey : StoreError
  | badValue : StoreError
  | typeError : StoreError
deriving DecidableEq, Repr

/-- The setters of the schema (`trim: true`, `lowercase: true`), applied to
the paths that are present. -/
def applySetters (lib : Lib) (b : Body) : Body :=
  { firstName := b.firstName.map trim
    middleName := b.middleName.map trim
    lastName := b.lastName.map trim
    email := b.email.map (toLowerCase lib)
    password := b.password
    department := b.department.map trim
    role := b.role }

/-- The validator `required` of a string path. -/
def requiredOk : Option String → Bool
  | some s => s != ""
  | none => false

/-- The validator `maxlength`. -/
def maxlengthOk (n : Nat) : Option String → Bool
  | some s => decide (strLength s ≤ n)
  | none => true

/-- The validator `minlength`. -/
def minlengthOk (n : Nat) : Option String → Bool
  | some s => decide (n ≤ strLength s)
  | none => true

/-- The validator `match` of the email path (an empty value is left to
`required`). -/
def matchOk : Option String → Bool
  | some s => s == "" || emailMatch s
  | none => true

/-- The validator `enum` of the role path. -/
def enumOk : Option String → Bool
  | some s => s == "admin" || s == "user"
  | none => true

/-- Validation of a whole document before it is saved. -/
def validateDocument (b : Body) : Bool :=
  requiredOk b.firstName && maxlengthOk 50 b.firstName
    && maxlengthOk 50 b.middleName
    && requiredOk b.lastName && maxlengthOk 50 b.lastName
    && requiredOk b.email && matchOk b.email
    && requiredOk b.password && minlengthOk 6 b.password
    && maxlengthOk 100 b.department
    && requiredOk b.role && enumOk b.role

/-- Validators of one path of an update: run only when the path is set. -/
def pathOk (required : Bool) (check : Option String → Bool) (v : Option String) : Bool :=
  match v with
  | none => true
  | some _ => (!required || requiredOk v) && check v

/-- Update validators (`runValidators: true`): the validators of the paths the
update sets. -/
def validateUpdate (b : Body) : Bool :=
  pathOk true (maxlengthOk 50) b.firstName
    && pathOk false (maxlengthOk 50) b.middleName
    && pathOk true (maxlengthOk 50) b.lastName
    && pathOk true matchOk b.email
    && pathOk true (minlengthOk 6) b.password
    && pathOk false (maxlengthOk 100) b.department
    && pathOk true enumOk b.role

/-- Model of `User.create(userData)`: setters and the default of `role`, validation of
the document, the pre-save hook hashing the (new) password, then the insert,
which the unique indexes on `_id` and `email` may refuse. -/
def create (lib : Lib) (env : Env) (db : Db) (data : Body) : Except StoreError (User × Db) :=
  let d := applySetters lib { data with role := some (data.role.getD "user") }
  if !validateDocument d then Except.error StoreError.validationError
  else
    match d.firstName, d.lastName, d.email, d.password, d.role with
    | some f, some l, some e, some p, some r =>
      let u : User :=
        { _id := env.newId, firstName := f, middleName := d.middleName, lastName := l,
          email := e, password := some (lib.hash p env.salt), department := d.department,
          role := r, createdAt := env.now, updatedAt := env.now }
      if db.any (fun x => x._id == u._id || x.email == u.email) then
        Except.error StoreError.duplicateKey
      else Except.ok (u, db ++ [u])
    | _, _, _, _, _ => Except.error StoreError.validationError

/-- The static `findByEmail`: `findOne` on `email` equal to `email.toLowerCase()`. -/
def findByEmail (lib : Lib) (db : Db) (email : String) : Option User :=
  db.find? (fun u => u.email == toLowerCase lib email)

/-- The instance method `comparePassword`; the library throws when the
document has no password. -/
def comparePassword (lib : Lib) (u : User) (candidate : String) : Except StoreError Bool :=
  match u.password with
  | some h => Except.ok (lib.compare candidate h)
  | none => Except.error StoreError.typeError

/-- Model of `User.findById(id)`. -/
def findById (db : Db) (id : String) : Except StoreError (Option User) :=
  match castObjectId id with
  | none => Except.error StoreError.castError
  | some oid => Except.ok (db.find? (fun u => u._id == oid))

/-- The query of `updateUser` for another document with the address:
`findOne` on `email` equal to the address and `_id` different (`$ne`) from
the given identifier. -/
def findOtherByEmail (db : Db) (email : String) (id : String) :
    Except StoreError (Option User) :=
  match castObjectId id with
  | none => Except.error StoreError.castError
  | some oid => Except.ok (db.find? (fun u => u.email == email && u._id != oid))

/-- The document after an update sets the paths present in `d`. -/
def applyUpdate (now : Nat) (d : Body) (u : User) : User :=
  { u with
    firstName := d.firstName.getD u.firstName
    middleName := d.middleName.orElse (fun _ => u.middleName)
    lastName := d.lastName.getD u.lastName
    email := d.email.getD u.email
    password := d.password.orElse (fun _ => u.password)
    department := d.department.orElse (fun _ => u.department)
    role := d.role.getD u.role
    updatedAt := now }

/-- Replace the first document satisfying `p`. -/
def replaceFirst (p : User → Bool) (v : User) : Db → Db
  | [] => []
  | x :: xs => if p x then v :: xs else x :: replaceFirst p v xs

/-- Model of `User.findByIdAndUpdate(id, update)` with the options `new` and
`runValidators`:
the identifier is cast, the update goes through the setters and the update
validators, and the first document with the identifier gets the paths of the
update and a new `updatedAt`.  No `save` hook runs on this path.  The unique
index on `email` may refuse the write.  Returns the updated document, `none`
when no document has the identifier. -/
def findByIdAndUpdate (lib : Lib) (env : Env) (db : Db) (id : String) (update : Body) :
    Except StoreError (Option User × Db) :=
  match castObjectId id with
  | none => Except.error StoreError.castError
  | some oid =>
    let d := applySetters lib update
    if !validateUpdate d then Except.error StoreError.validationError
    else
      match db.find? (fun u => u._id == oid) with
      | none => Except.ok (none, db)
      | some u =>
        let v := applyUpdate env.now d u
        if (db.erase u).any (fun x => x.email == v.email) then
          Except.error StoreError.duplicateKey
        else Except.ok (some v, replaceFirst (fun x => x._id == oid) v db)

/-- Model of `User.findByIdAndDelete(id)`: removes the first document with the
identifier and returns it, `none` when there is none. -/
def findByIdAndDelete (db : Db) (id : String) : Except StoreError (Option User × Db) :=
  match castObjectId id with
  | none => Except.error StoreError.castError
  | some oid =>
    match db.find? (fun u => u._id == oid) with
    | none => Except.ok (none, db)
    | some u => Except.ok (some u, db.erase u)

/-- Value of `Math.ceil(total / limit)` for a non-zero `limit`. -/
def ceilDiv (total : Nat) (limit : Int) : Int := -(Int.fdiv (-(total : Int)) limit)

/-- The static `getPaginatedUsers(page, limit, filters)`; the filter is an
optional role.  The documents are read without their password, newest first
(documents created at the same instant keep their insertion order).  A
negative `skip` is refused by the store; a negative `limit` is taken by the
driver as its absolute value. -/
def getPaginatedUsers (db : Db) (page limit : Int) (role : Option String) :
    Except StoreError PageResult :=
  let skip := (page - 1) * limit
  if skip < 0 then Except.error StoreError.badValue
  else
    let found := db.filter (fun u => match role with
      | some r => u.role == r
      | none => true)
    let sorted := found.insertionSort (fun a b => b.createdAt ≤ a.createdAt)
    let users := ((sorted.drop skip.toNat).take limit.natAbs).map selectNoPassword
    let total := found.length
    Except.ok
      { users := users.map User.toObject
        totalPages := ceilDiv total limit
        currentPage := page
        totalUsers := total
        hasNextPage := decide (page < ceilDiv total limit)
        hasPrevPage := decide (page > 1) }

/-! ## The authentication and authorization middleware (`src/middleware/auth.js`) -/

/-- What a middleware does: answer the request itself, or call `next()`. -/
inductive Step (α : Type) where
  | respond : Response → Step α
  | next : α → Step α
deriving DecidableEq, Repr

/-- The middleware `authenticate`, from the `Authorization` header; on
success `next` carries the document it stores in `req.user`. -/
def authenticate (lib : Lib) (now : Nat) (db : Db) (authHeader : Option String) : Step User :=
  match authHeader with
  | none => Step.respond (errorResponse 401 "Access denied. No token provided or invalid format.")
  | some h =>
    if !startsWith h "Bearer " then
      Step.respond (errorResponse 401 "Access denied. No token provided or invalid format.")
    else
      match lib.verify (substring h 7) now with
      | JwtResult.jsonWebTokenError => Step.respond (errorResponse 401 "Invalid token.")
      | JwtResult.tokenExpiredError => Step.respond (errorResponse 401 "Token has expired.")
      | JwtResult.otherError =>
        Step.respond (errorResponse 500 "Server error during authentication.")
      | JwtResult.ok userId =>
        match findById db userId with
        | Except.error _ =>
          Step.respond (errorResponse 500 "Server error during authentication.")
        | Except.ok none => Step.respond (errorResponse 401 "Token is valid but user not found.")
        | Except.ok (some user) => Step.next (selectNoPassword user)

/-- The middleware `authorizeAdmin` for the current user `req.user`: `some`
response when it answers itself, `none` when it calls `next()`. -/
def authorizeAdmin (user : User) : Option Response :=
  if user.role != "admin" then
    some (errorResponse 403 "Access denied. Admin privileges required.")
  else none

/-- The middleware `authorizeProfileAccess` for the current user and the path
parameter `id`. -/
def authorizeProfileAccess (user : User) (id : String) : Option Response :=
  let requestedUserId := id
  let currentUserId := user._id.toString
  let isAdmin := user.role == "admin"
  if isAdmin || requestedUserId == currentUserId then none
  else some (errorResponse 403 "Access denied. You can only access your own profile.")

/-! ## The authentication handlers (`src/controllers/authController.js`) -/

/-- The helper `generateToken`. -/
def generateToken (lib : Lib) (now : Nat) (userId : ObjectId) : String :=
  lib.sign userId.toString now

/-- The handler `login`. -/
def login (lib : Lib) (env : Env) (db : Db) (body : Body) : Response :=
  match body.email, body.password with
  | some email, some password =>
    match findByEmail lib db email with
    | none => errorResponse 401 "Invalid email or password"
    | some user =>
      match comparePassword lib user password with
      | Except.error _ => errorResponse 500 "Server error during login"
      | Except.ok false => errorResponse 401 "Invalid email or password"
      | Except.ok true =>
        { code := 200, status := "success", message := some "Login successful"
          data := some (Data.userToken (getPublicProfile user)
            (generateToken lib env.now user._id)) }
  | some email, none =>
    match findByEmail lib db email with
    | none => errorResponse 401 "Invalid email or password"
    | some _ => errorResponse 500 "Server error during login"
  | none, _ => errorResponse 500 "Server error during login"

/-- The value of `role || 'user'`. -/
def roleOrUser (role : Option String) : String :=
  if truthy role then role.getD "user" else "user"

/-- The handler `register`. -/
def register (lib : Lib) (env : Env) (db : Db) (body : Body) : Response × Db :=
  match body.email with
  | none => (errorResponse 500 "Server error during registration", db)
  | some email =>
    match findByEmail lib db email with
    | some _ => (errorResponse 400 "User with this email already exists", db)
    | none =>
      match create lib env db { body with role := some (roleOrUser body.role) } with
      | Except.error _ => (errorResponse 500 "Server error during registration", db)
      | Except.ok (user, db1) =>
        ({ code := 201, status := "success", message := some "User registered successfully"
           data := some (Data.userToken (getPublicProfile user)
             (generateToken lib env.now user._id)) }, db1)

/-- The handler `getProfile`, for the current user `req.user`. -/
def getProfile (user : User) : Response :=
  { code := 200, status := "success", message := none, data := some (Data.user user.toObject) }

/-- The handler `refreshToken`, for the current user `req.user`. -/
def refreshToken (lib : Lib) (env : Env) (user : User) : Response :=
  { code := 200, status := "success", message := some "Token refreshed successfully"
    data := some (Data.token (generateToken lib env.now user._id)) }

/-! ## The user handlers (`src/controllers/userController.js`) -/

/-- The query string as the handlers read it: `page` and `limit` are the
results of `parseInt` (`none` for `NaN`, also when the parameter is absent). -/
structure Query where
  page : Option Int := none
  limit : Option Int := none
  role : Option String := none
deriving DecidableEq, Repr

/-- The value of `parseInt(x) || d`. -/
def intOr (x : Option Int) (d : Int) : Int :=
  match x with
  | some n => if n == 0 then d else n
  | none => d

/-- The handler `getAllUsers`. -/
def getAllUsers (db : Db) (query : Query) : Response :=
  let page := intOr query.page 1
  let limit := intOr query.limit 10
  let filters : Option String :=
    match query.role with
    | some role => if truthy (some role) && ["admin", "user"].contains role then some role else none
    | none => none
  match getPaginatedUsers db page limit filters with
  | Except.error _ => errorResponse 500 "Server error getting users"
  | Except.ok result =>
    { code := 200, status := "success", message := none, data := some (Data.page result) }

/-- The handler `getUserById`. -/
def getUserById (db : Db) (id : String) : Response :=
  match findById db id with
  | Except.error _ => errorResponse 500 "Server error getting user"
  | Except.ok none => errorResponse 404 "User not found"
  | Except.ok (some user) =>
    { code := 200, status := "success", message := none
      data := some (Data.user (selectNoPassword user).toObject) }

/-- The handler `createUser`. -/
def createUser (lib : Lib) (env : Env) (db : Db) (body : Body) : Response × Db :=
  match body.email with
  | none => (errorResponse 500 "Server error creating user", db)
  | some email =>
    match findByEmail lib db email with
    | some _ => (errorResponse 400 "User with this email already exists", db)
    | none =>
      match create lib env db { body with role := some (roleOrUser body.role) } with
      | Except.error _ => (errorResponse 500 "Server error creating user", db)
      | Except.ok (user, db1) =>
        ({ code := 201, status := "success", message := some "User created successfully"
           data := some (Data.user (getPublicProfile user)) }, db1)

/-- The update payload of `updateUser` after the role is removed for a
current user who is not an admin. -/
def stripRole (user : User) (body : Body) : Body :=
  if user.role != "admin" && truthy body.role then { body with role := none } else body

/-- The handler `updateUser`, for the current user, the path parameter `id`
and the body. -/
def updateUser (lib : Lib) (env : Env) (db : Db) (user : User) (id : String) (body : Body) :
    Response × Db :=
  let updateData := stripRole user body
  let existingUser : Except StoreError (Option User) :=
    match updateData.email with
    | some email =>
      if truthy (some email) then findOtherByEmail db (toLowerCase lib email) id
      else Except.ok none
    | none => Except.ok none
  match existingUser with
  | Except.error _ => (errorResponse 500 "Server error updating user", db)
  | Except.ok (some _) => (errorResponse 400 "Email already exists", db)
  | Except.ok none =>
    match findByIdAndUpdate lib env db id updateData with
    | Except.error _ => (errorResponse 500 "Server error updating user", db)
    | Except.ok (none, _) => (errorResponse 404 "User not found", db)
    | Except.ok (some updated, db1) =>
      ({ code := 200, status := "success", message := some "User updated successfully"
         data := some (Data.user (selectNoPassword updated).toObject) }, db1)

/-- The handler `deleteUser`, for the current user and the path parameter
`id`. -/
def deleteUser (db : Db) (user : User) (id : String) : Response × Db :=
  let userId := id
  if userId == user._id.toString then
    (errorResponse 400 "You cannot delete your own account", db)
  else
    match findByIdAndDelete db userId with
    | Except.error _ => (errorResponse 500 "Server error deleting user", db)
    | Except.ok (none, _) => (errorResponse 404 "User not found", db)
    | Except.ok (some _, db1) =>
      ({ code := 200, status := "success", message := some "User deleted successfully"
         data := none }, db1)

/-- The handler `getUsersByRole`, for the path parameter `role`. -/
def getUsersByRole (db : Db) (role : String) (query : Query) : Response :=
  let page := intOr query.page 1
  let limit := intOr query.limit 10
  if !(["admin", "user"].contains role) then
    errorResponse 400 "Invalid role. Must be either admin or user"
  else
    match getPaginatedUsers db page limit (some role) with
    | Except.error _ => errorResponse 500 "Server error getting users by role"
    | Except.ok result =>
      { code := 200, status := "success", message := none, data := some (Data.page result) }

/-! ## The routes (`src/routes/auth.js`, `src/routes/users.js`) -/

/-- A request: the `Authorization` header, the path parameters, the query
string and the body. -/
structure Request where
  authorization : Option String := none
  id : String := ""
  role : String := ""
  query : Query := {}
  body : Body := {}
deriving DecidableEq, Repr

/-- The chain `authenticate, handler`. -/
def authenticated (lib : Lib) (env : Env) (db : Db) (req : Request)
    (handler : User → Response × Db) : Response × Db :=
  match authenticate lib env.now db req.authorization with
  | Step.respond r => (r, db)
  | Step.next user => handler user

/-- The chain `authenticate, authorizeAdmin, handler`. -/
def adminOnly (lib : Lib) (env : Env) (db : Db) (req : Request)
    (handler : User → Response × Db) : Response × Db :=
  authenticated lib env db req (fun user =>
    match authorizeAdmin user with
    | some r => (r, db)
    | none => handler user)

/-- The chain `authenticate, authorizeProfileAccess, handler`. -/
def selfOrAdmin (lib : Lib) (env : Env) (db : Db) (req : Request)
    (handler : User → Response × Db) : Response × Db :=
  authenticated lib env db req (fun user =>
    match authorizeProfileAccess user req.id with
    | some r => (r, db)
    | none => handler user)

/-- The link `validate(schema)` of a chain. -/
def validated (schema : Body → List String) (db : Db) (req : Request)
    (handler : Response × Db) : Response × Db :=
  match validate schema req.body with
  | some r => (r, db)
  | none => handler

/-- The routes of the two routers. -/
inductive Route where
  | login : Route
  | register : Route
  | profile : Route
  | refresh : Route
  | listUsers : Route
  | usersByRole : Route
  | createUser : Route
  | getUser : Route
  | updateUser : Route
  | deleteUser : Route
deriving DecidableEq, Repr

/-- The middleware chain of each route, as the routers declare it. -/
def handle (lib : Lib) (env : Env) (db : Db) (route : Route) (req : Request) : Response × Db :=
  match route with
  | Route.login =>
    validated (loginSchema lib) db req (login lib env db req.body, db)
  | Route.register =>
    validated (userRegistrationSchema lib) db req (register lib env db req.body)
  | Route.profile => authenticated lib env db req (fun user => (getProfile user, db))
  | Route.refresh => authenticated lib env db req (fun user => (refreshToken lib env user, db))
  | Route.listUsers => adminOnly lib env db req (fun _ => (getAllUsers db req.query, db))
  | Route.usersByRole =>
    adminOnly lib env db req (fun _ => (getUsersByRole db req.role req.query, db))
  | Route.createUser =>
    adminOnly lib env db req (fun _ =>
      validated (userRegistrationSchema lib) db req (createUser lib env db req.body))
  | Route.getUser => selfOrAdmin lib env db req (fun _ => (getUserById db req.id, db))
  | Route.updateUser =>
    selfOrAdmin lib env db req (fun user =>
      validated (userUpdateSchema lib) db req (updateUser lib env db user req.id req.body))
  | Route.deleteUser => adminOnly lib env db req (fun user => deleteUser db user req.id)

/-! ## A small instance of the library interface, for concrete runs -/

/-- The lowercase form of a character in the small instance: the letters A-Z
and the Kelvin sign (U+212A, whose lowercase form is `k`). -/
def refLower (c : Char) : Char := if c.toNat == 8490 then 'k' else c.toLower

/-- An instance of the library interface: a hash is the password behind a
marker, a token is its issue time in unary, a dot and the user identifier, and
expires 7 time units after its issue.  Outside ASCII it knows the Kelvin sign
only, which it lowers to `k` and reads in an address as the letter `K` (its
normal form). -/
def refLib : Lib :=
  { hash := fun p _ => "hashed:" ++ p
    compare := fun p h => h == "hashed:" ++ p
    sign := fun userId now => ⟨List.replicate now '|' ++ '.' :: userId.data⟩
    verify := fun token now =>
      match token.data.dropWhile (fun c => c == '|') with
      | '.' :: userId =>
        if now < (token.data.takeWhile (fun c => c == '|')).length + 7 then JwtResult.ok ⟨userId⟩
        else JwtResult.tokenExpiredError
      | _ => JwtResult.jsonWebTokenError
    tlds := ["com", "org", "net", "info"]
    lowerUnicode := fun s => ⟨s.data.map refLower⟩
    emailUnicode := fun s =>
      joiEmailAscii ["com", "org", "net", "info"]
        ⟨s.data.map (fun c => if c.toNat == 8490 then 'K' else c)⟩ }

/-- An environment of a request at time `now` drawing the identifier `hex`. -/
def envAt (now : Nat) (hex : String) : Env := { now := now, newId := ⟨hex⟩, salt := "salt" }

/-- An administrator, as stored. -/
def adminDoc : User :=
  { _id := ⟨"64b7f3a2c9e1d4f5a6b7c8d9"⟩, firstName := "Admin", middleName := none
    lastName := "User", email := "admin@example.com", password := some "hashed:password123"
    department := none, role := "admin", createdAt := 1, updatedAt := 1 }

/-- A regular user, as stored. -/
def regularDoc : User :=
  { _id := ⟨"64b7f3a2c9e1d4f5a6b7c8da"⟩, firstName := "Regular", middleName := none
    lastName := "User", email := "user@example.com", password := some "hashed:password123"
    department := none, role := "user", createdAt := 2, updatedAt := 2 }

/-- A collection with the two of them. -/
def sampleDb : Db := [adminDoc, regularDoc]

/-- The regular user after an update of the password to `newsecret` at time 3. -/
def regularDocUpdated : User := { regularDoc with password := some "newsecret", updatedAt := 3 }

/-- A registration body whose address has a top-level domain of four letters. -/
def infoBody : Body :=
  { firstName := some "Ann", lastName := some "Lee", email := some "a@example.info"
    password := some "secret1" }

/-- A registration body with an address in mixed case. -/
def johnBody : Body :=
  { firstName := some "John", lastName := some "Doe", email := some "John.Doe@Example.com"
    password := some "password123", department := some "Engineering" }

/-- The document the registration of `johnBody` creates at time 3. -/
def johnDoc : User :=
  { _id := ⟨"64b7f3a2c9e1d4f5a6b7c8db"⟩, firstName := "John", middleName := none
    lastName := "Doe", email := "john.doe@example.com", password := some "hashed:password123"
    department := some "Engineering", role := "user", createdAt := 3, updatedAt := 3 }

/-- An update payload with a role and the address of the administrator. -/
def roleAndTakenEmail : Body := { role := some "admin", email := some "admin@example.com" }

/-- An update payload with a role and a first name. -/
def roleAndName : Body := { role := some "admin", firstName := some "Updated" }

/-- The `Authorization` header of the administrator, with a token issued at
time 2. -/
def adminAuth : Option String := some "Bearer ||.64b7f3a2c9e1d4f5a6b7c8d9"

/-- The `Authorization` header of the regular user, with a token issued at
time 2. -/
def regularAuth : Option String := some "Bearer ||.64b7f3a2c9e1d4f5a6b7c8da"

/-- The address `Kim@example.com` with the Kelvin sign (U+212A) for its first
letter. -/
def kelvinAddress : String := ⟨Char.ofNat 8490 :: "im@example.com".data⟩

/-- A string of `n` characters outside the Basic Multilingual Plane (U+1F600),
each of two UTF-16 code units. -/
def astral (n : Nat) : String := ⟨List.replicate n (Char.ofNat 128512)⟩

/-- A user whose address is `kim@example.com`, as stored. -/
def kimDoc : User :=
  { _id := ⟨"64b7f3a2c9e1d4f5a6b7c8de"⟩, firstName := "Kim", middleName := none
    lastName := "Lee", email := "kim@example.com", password := some "hashed:password123"
    department := none, role := "user", createdAt := 2, updatedAt := 2 }

/-- A collection with the administrator and that user. -/
def kimDb : Db := [adminDoc, kimDoc]

/-- A registration body whose address has the Kelvin sign and whose password
is three characters outside the Basic Multilingual Plane. -/
def kelvinBody : Body :=
  { firstName := some "Kim", lastName := some "Lee", email := some kelvinAddress
    password := some (astral 3) }

/-! ## Predicates of the specification -/

/-- The document `create` builds from data that pass its validation. -/
def createdDoc (lib : Lib) (env : Env) (f : String) (m : Option String) (l e p : String)
    (d : Option String) (r : String) : User :=
  { _id := env.newId, firstName := trim f, middleName := m.map trim, lastName := trim l
    email := toLowerCase lib e, password := some (lib.hash p env.salt), department := d.map trim
    role := r, createdAt := env.now, updatedAt := env.now }


/-- No user object of the response has a `password` key. -/
def NoPassword (r : Response) : Prop := ∀ o ∈ r.users, o.get "password" = none

/-- No two documents of the collection have the same address. -/
def UniqueEmails (db : Db) : Prop := (db.map (fun u => u.email)).Nodup

/-- The collection after a sequence of requests, each run to completion in
its own environment. -/
def run (lib : Lib) : Db → List (Env × Route × Request) → Db
  | db, [] => db
  | db, (env, route, req) :: rest => run lib (handle lib env db route req).2 rest

/-- How one request may leave the collection: unchanged, or as one successful
`create`, `findByIdAndUpdate` or `findByIdAndDelete` leaves it. -/
def StoreStep (lib : Lib) (env : Env) (db db1 : Db) : Prop :=
  db1 = db
    ∨ (∃ data u, create lib env db data = Except.ok (u, db1))
    ∨ (∃ id upd v, findByIdAndUpdate lib env db id upd = Except.ok (some v, db1))
    ∨ (∃ id u, findByIdAndDelete db id = Except.ok (some u, db1))

/-- The documents a filter of `getPaginatedUsers` matches. -/
def matchingUsers (db : Db) (role : Option String) : List User :=
  db.filter (fun u => match role with
    | some r => u.role == r
    | none => true)

/-- The order `createdAt: -1` of `getPaginatedUsers`. -/
def newestFirst (l : List User) : List User :=
  l.insertionSort (fun a b => b.createdAt ≤ a.createdAt)

/-- A document as a list query with the projection `-password` serialises it. -/
def listed (u : User) : Obj := (selectNoPassword u).toObject

/-- The users of the page `getPaginatedUsers` returns, none when it throws. -/
def pageUsers (db : Db) (page limit : Int) (role : Option String) : List Obj :=
  match getPaginatedUsers db page limit role with
  | Except.ok r => r.users
  | Except.error _ => []

/-- The stored addresses are in lowercase, as the setter of the schema leaves
them. -/
def LowercaseEmails (lib : Lib) (db : Db) : Prop :=
  ∀ u ∈ db, toLowerCase lib u.email = u.email

/-- An identifier in the form `toString` gives: 24 hexadecimal digits, the
letters in lowercase. -/
def ObjectId.wellFormed (o : ObjectId) : Bool :=
  o.hex.data.length == 24
    && o.hex.data.all (fun c => (48 ≤ c.toNat && c.toNat ≤ 57) || (97 ≤ c.toNat && c.toNat ≤ 102))

/-- A registration body without `lastName` and `password`. -/
def twoMissing : Body := { firstName := some "John", email := some "john.doe@example.com" }

/-! ## The language of a regular expression -/

/-- The strings a regular expression matches. -/
inductive Rx.Matches : Rx → List Char → Prop where
  | eps : Rx.Matches Rx.eps []
  | cls (p : Char → Bool) (c : Char) : p c = true → Rx.Matches (Rx.cls p) [c]
  | seq (a b : Rx) (s t : List Char) :
      Rx.Matches a s → Rx.Matches b t → Rx.Matches (Rx.seq a b) (s ++ t)
  | altL (a b : Rx) (s : List Char) : Rx.Matches a s → Rx.Matches (Rx.alt a b) s
  | altR (a b : Rx) (s : List Char) : Rx.Matches b s → Rx.Matches (Rx.alt a b) s
  | starNil (a : Rx) : Rx.Matches (Rx.star a) []
  | starCons (a : Rx) (s t : List Char) :
      Rx.Matches a s → Rx.Matches (Rx.star a) t → Rx.Matches (Rx.star a) (s ++ t)

/-- The separators of the email pattern, `.` and `-`. -/
def isSep (c : Char) : Bool := c == '.' || c == '-'

/-- A part of an address as the email pattern allows it: not empty, made of
word characters and separators, with a word character first and last, and no
two separators next to each other. -/
def WellSeparated (l : List Char) : Prop :=
  l ≠ []
    ∧ (∀ c ∈ l, isWordChar c = true ∨ isSep c = true)
    ∧ (∃ c, l.head? = some c ∧ isWordChar c = true)
    ∧ (∃ c, l.getLast? = some c ∧ isWordChar c = true)
    ∧ l.Chain' (fun a b => ¬ (isSep a = true ∧ isSep b = true))

/-- The expression `\w+`. -/
def wordsRx : Rx := Rx.plus (Rx.cls isWordChar)

/-- The expression `\w+([.-]?\w+)*`, the local part and the body of the domain
of the email pattern. -/
def partRx : Rx := Rx.seq wordsRx (Rx.star (Rx.seq (Rx.opt (Rx.cls isSep)) wordsRx))

/-- The expression `\.\w{2,3}`, one final label of the email pattern. -/
def tldRx : Rx :=
  Rx.seq (Rx.cls (fun c => c == '.'))
    (Rx.seq (Rx.cls isWordChar) (Rx.seq (Rx.cls isWordChar) (Rx.opt (Rx.cls isWordChar))))

/-- A string ending with a `.` followed by 2 or 3 word characters. -/
def EndsWithLabel (l : List Char) : Prop :=
  ∃ pre t, l = pre ++ '.' :: t ∧ (∀ c ∈ t, isWordChar c = true) ∧ (t.length = 2 ∨ t.length = 3)

/-! ## C1: the stored password on the update path -/

theorem find?_replaceFirst (p : User → Bool) (v u : User) (db : Db)
    (hv : p v = true) (hu : db.find? p = some u) :
    (replaceFirst p v db).find? p = some v := by
  induction db with
  | nil => simp at hu
  | cons x xs ih =>
    by_cases hx : p x = true
    · simp [replaceFirst, hx, List.find?_cons, hv]
    · simp only [Bool.not_eq_true] at hx
      simp only [List.find?_cons, hx] at hu
      simp [replaceFirst, hx, List.find?_cons, ih hu]

theorem stripRole_password (user : User) (body : Body) :
    (stripRole user body).password = body.password := by
  unfold stripRole; split <;> rfl

theorem applyUpdate_id (now : Nat) (d : Body) (u : User) : (applyUpdate now d u)._id = u._id := rfl

theorem findByIdAndUpdate_ok (lib : Lib) (env : Env) (db db1 : Db) (id : String)
    (upd : Body) (v : User)
    (h : findByIdAndUpdate lib env db id upd = Except.ok (some v, db1)) :
    ∃ oid u, castObjectId id = some oid ∧ db.find? (fun x => x._id == oid) = some u
      ∧ validateUpdate (applySetters lib upd) = true
      ∧ v = applyUpdate env.now (applySetters lib upd) u
      ∧ (db.erase u).any (fun x => x.email == v.email) = false
      ∧ db1 = replaceFirst (fun x => x._id == oid) v db := by
  unfold findByIdAndUpdate at h
  split at h
  · simp at h
  · rename_i oid hoid
    refine ⟨oid, ?_⟩
    simp only at h
    split at h
    · simp at h
    · rename_i hval
      split at h
      · simp at h
      · rename_i u hu
        split at h
        · simp at h
        · rename_i hdup
          simp only [Except.ok.injEq, Prod.mk.injEq, Option.some.injEq] at h
          obtain ⟨h1, h2⟩ := h
          subst h1
          exact ⟨u, hoid, hu, by simpa using hval, rfl, by simpa using hdup, h2.symm⟩

theorem updateUser_ok (lib : Lib) (env : Env) (db db1 : Db) (user : User) (id : String)
    (body : Body)
    (r : Response) (h : updateUser lib env db user id body = (r, db1)) (hok : r.code = 200) :
    ∃ v, findByIdAndUpdate lib env db id (stripRole user body) = Except.ok (some v, db1)
      ∧ r.users = [(selectNoPassword v).toObject] := by
  unfold updateUser at h
  simp only at h
  split at h
  · simp only [Prod.mk.injEq] at h; rw [← h.1] at hok; simp [errorResponse] at hok
  · simp only [Prod.mk.injEq] at h; rw [← h.1] at hok; simp [errorResponse] at hok
  · split at h
    · simp only [Prod.mk.injEq] at h; rw [← h.1] at hok; simp [errorResponse] at hok
    · simp only [Prod.mk.injEq] at h; rw [← h.1] at hok; simp [errorResponse] at hok
    · rename_i updated db2 hupd
      simp only [Prod.mk.injEq] at h
      refine ⟨updated, ?_, ?_⟩
      · rw [hupd, h.2]
      · rw [← h.1]; rfl



theorem updateUser_not_ok (lib : Lib) (env : Env) (db db1 : Db) (user : User) (id : String)
    (body : Body)
    (r : Response) (h : updateUser lib env db user id body = (r, db1)) (hok : r.code ≠ 200) :
    db1 = db := by
  unfold updateUser at h
  simp only at h
  split at h
  · simp only [Prod.mk.injEq] at h; exact h.2.symm
  · simp only [Prod.mk.injEq] at h; exact h.2.symm
  · split at h
    · simp only [Prod.mk.injEq] at h; exact h.2.symm
    · simp only [Prod.mk.injEq] at h; exact h.2.symm
    · simp only [Prod.mk.injEq] at h; exfalso; apply hok; rw [← h.1]

/-- C1 on the update path: when an update request with a password field is
answered 200, the document read back under the path identifier holds in its
password field the submitted plaintext itself, not a hash of it (no hashing
hook runs on `findByIdAndUpdate`). -/
theorem updateUser_stores_password_unhashed (lib : Lib) (env : Env) (db db1 : Db)
    (user : User) (id : String) (body : Body) (p : String) (r : Response)
    (hp : body.password = some p)
    (h : updateUser lib env db user id body = (r, db1)) (hok : r.code = 200) :
    ∃ v, findById db1 id = Except.ok (some v) ∧ v.password = some p := by
  obtain ⟨v, hupd, -⟩ := updateUser_ok lib env db db1 user id body r h hok
  obtain ⟨oid, u, hoid, hu, -, hv, -, hdb⟩ := findByIdAndUpdate_ok lib env db db1 id _ v hupd
  have hid : v._id = u._id := by rw [hv]; rfl
  have hpu : (u._id == oid) = true := by
    have := List.find?_some hu
    simpa using this
  refine ⟨v, ?_, ?_⟩
  · unfold findById
    rw [hoid, hdb]
    simp only
    rw [find?_replaceFirst _ v u db (by simpa [hid] using hpu) hu]
  · rw [hv]
    simp [applyUpdate, applySetters, stripRole_password, hp]


set_option maxRecDepth 4000 in
theorem updateUser_stores_password_unhashed_witness :
    updateUser refLib (envAt 3 "64b7f3a2c9e1d4f5a6b7c8db") sampleDb regularDoc
        "64b7f3a2c9e1d4f5a6b7c8da"
        { password := some "newsecret" }
      = ({ code := 200, status := "success", message := some "User updated successfully"
           data := some (Data.user (selectNoPassword regularDocUpdated).toObject) },
         [adminDoc, regularDocUpdated])
    ∧ ∃ v, findById [adminDoc, regularDocUpdated] "64b7f3a2c9e1d4f5a6b7c8da" = Except.ok (some v)
        ∧ v.password = some "newsecret" :=
  ⟨by decide,
   updateUser_stores_password_unhashed refLib (envAt 3 "64b7f3a2c9e1d4f5a6b7c8db") sampleDb _
     regularDoc
    "64b7f3a2c9e1d4f5a6b7c8da" { password := some "newsecret" } "newsecret"
    { code := 200, status := "success", message := some "User updated successfully"
      data := some (Data.user (selectNoPassword regularDocUpdated).toObject) } rfl
    (by decide) rfl⟩


/-! ## C2: no password in a response -/

theorem get_delete_self (o : Obj) (k : String) : (o.delete k).get k = none := by
  unfold Obj.get Obj.delete
  rw [Option.map_eq_none', List.find?_eq_none]
  intro kv hkv
  have := (List.mem_filter.mp hkv).2
  simpa using this

theorem get_delete_other (o : Obj) (k j : String) (h : j ≠ k) :
    (o.delete k).get j = o.get j := by
  unfold Obj.get Obj.delete
  congr 1
  induction o with
  | nil => rfl
  | cons kv rest ih =>
    by_cases hk : kv.1 = k
    · have hj : (kv.1 == j) = false := by
        rw [beq_eq_false_iff_ne]; exact fun e => h (e.symm.trans hk)
      have hk2 : (kv.1 != k) = false := by simp [hk]
      rw [List.filter_cons, hk2, List.find?_cons, hj]
      simpa using ih
    · have hk2 : (kv.1 != k) = true := by simp [hk]
      rw [List.filter_cons, hk2]
      simp only [if_true, List.find?_cons]
      rw [ih]

theorem toObject_get_password (u : User) (h : u.password = none) :
    u.toObject.get "password" = none := by
  unfold Obj.get User.toObject
  rw [h]
  cases u.middleName <;> cases u.department <;> simp [optKey, List.find?_cons]

theorem selectNoPassword_get_password (u : User) :
    (selectNoPassword u).toObject.get "password" = none :=
  toObject_get_password _ rfl

theorem noPassword_error (code : Nat) (message : String) :
    NoPassword (errorResponse code message) := by
  intro o ho
  simp [Response.users, errorResponse] at ho

theorem noPassword_of_users_nil (r : Response) (h : r.users = []) : NoPassword r := by
  intro o ho
  rw [h] at ho
  simp at ho

theorem noPassword_of_users_singleton (r : Response) (o : Obj) (h : r.users = [o])
    (ho : o.get "password" = none) : NoPassword r := by
  intro x hx
  rw [h] at hx
  rw [List.mem_singleton.mp hx]
  exact ho

theorem authenticate_cases (lib : Lib) (now : Nat) (db : Db) (authHeader : Option String) :
    (∃ code message, authenticate lib now db authHeader
        = Step.respond (errorResponse code message))
    ∨ (∃ token userId user, authHeader = some token ∧ startsWith token "Bearer " = true
        ∧ lib.verify (substring token 7) now = JwtResult.ok userId
        ∧ findById db userId = Except.ok (some user)
        ∧ authenticate lib now db authHeader = Step.next (selectNoPassword user)) := by
  unfold authenticate
  cases authHeader with
  | none => exact Or.inl ⟨_, _, rfl⟩
  | some h =>
    by_cases hb : startsWith h "Bearer " = true
    · simp only [hb, Bool.not_true, Bool.false_eq_true, if_false]
      cases hv : lib.verify (substring h 7) now with
      | jsonWebTokenError => exact Or.inl ⟨_, _, rfl⟩
      | tokenExpiredError => exact Or.inl ⟨_, _, rfl⟩
      | otherError => exact Or.inl ⟨_, _, rfl⟩
      | ok userId =>
        simp only
        cases hf : findById db userId with
        | error e => exact Or.inl ⟨_, _, rfl⟩
        | ok found =>
          cases found with
          | none => exact Or.inl ⟨_, _, rfl⟩
          | some user => exact Or.inr ⟨h, userId, user, rfl, hb, hv, hf, rfl⟩
    · simp only [Bool.not_eq_true] at hb
      simp only [hb, Bool.not_false, if_true]
      exact Or.inl ⟨_, _, rfl⟩

theorem noPassword_authenticated (lib : Lib) (env : Env) (db : Db) (req : Request)
    (handler : User → Response × Db)
    (h : ∀ user, user.password = none → NoPassword (handler user).1) :
    NoPassword (authenticated lib env db req handler).1 := by
  unfold authenticated
  rcases authenticate_cases lib env.now db req.authorization with
    ⟨c, m, hr⟩ | ⟨_, _, user, _, _, _, _, hn⟩
  · rw [hr]; exact noPassword_error c m
  · rw [hn]; exact h _ rfl

theorem authorizeAdmin_cases (user : User) :
    (authorizeAdmin user = none ∧ user.role = "admin")
    ∨ (authorizeAdmin user = some (errorResponse 403 "Access denied. Admin privileges required.")
        ∧ user.role ≠ "admin") := by
  unfold authorizeAdmin
  by_cases h : user.role = "admin"
  · left; simp [h]
  · right; simp [h]

theorem authorizeProfileAccess_cases (user : User) (id : String) :
    (authorizeProfileAccess user id = none ∧ (user.role = "admin" ∨ id = user._id.toString))
    ∨ (authorizeProfileAccess user id
          = some (errorResponse 403 "Access denied. You can only access your own profile.")
        ∧ ¬ (user.role = "admin" ∨ id = user._id.toString)) := by
  unfold authorizeProfileAccess
  by_cases h : user.role = "admin" ∨ id = user._id.toString
  · left
    refine ⟨?_, h⟩
    rcases h with h | h <;> simp [h]
  · right
    refine ⟨?_, h⟩
    simp only [not_or] at h
    simp [h.1, h.2]

theorem validate_cases (schema : Body → List String) (b : Body) :
    validate schema b = none ∨ ∃ message, validate schema b = some (errorResponse 400 message) := by
  unfold validate
  cases details (schema b) with
  | nil => exact Or.inl rfl
  | cons d ds => exact Or.inr ⟨_, rfl⟩

theorem noPassword_adminOnly (lib : Lib) (env : Env) (db : Db) (req : Request)
    (handler : User → Response × Db)
    (h : ∀ user, user.password = none → NoPassword (handler user).1) :
    NoPassword (adminOnly lib env db req handler).1 := by
  unfold adminOnly
  apply noPassword_authenticated
  intro user hu
  rcases authorizeAdmin_cases user with ⟨ha, -⟩ | ⟨ha, -⟩
  · rw [ha]; exact h user hu
  · rw [ha]; exact noPassword_error _ _

theorem noPassword_selfOrAdmin (lib : Lib) (env : Env) (db : Db) (req : Request)
    (handler : User → Response × Db)
    (h : ∀ user, user.password = none → NoPassword (handler user).1) :
    NoPassword (selfOrAdmin lib env db req handler).1 := by
  unfold selfOrAdmin
  apply noPassword_authenticated
  intro user hu
  rcases authorizeProfileAccess_cases user req.id with ⟨ha, -⟩ | ⟨ha, -⟩
  · rw [ha]; exact h user hu
  · rw [ha]; exact noPassword_error _ _

theorem noPassword_validated (schema : Body → List String) (db : Db) (req : Request)
    (handler : Response × Db) (h : NoPassword handler.1) :
    NoPassword (validated schema db req handler).1 := by
  unfold validated
  rcases validate_cases schema req.body with hv | ⟨m, hv⟩
  · rw [hv]; exact h
  · rw [hv]; exact noPassword_error _ _

theorem noPassword_login (lib : Lib) (env : Env) (db : Db) (body : Body) :
    NoPassword (login lib env db body) := by
  unfold login
  split
  · split
    · exact noPassword_error _ _
    · split
      · exact noPassword_error _ _
      · exact noPassword_error _ _
      · exact noPassword_of_users_singleton _ _ rfl (get_delete_self _ _)
  · split <;> exact noPassword_error _ _
  · exact noPassword_error _ _

theorem noPassword_register (lib : Lib) (env : Env) (db : Db) (body : Body) :
    NoPassword (register lib env db body).1 := by
  unfold register
  split
  · exact noPassword_error _ _
  · split
    · exact noPassword_error _ _
    · split
      · exact noPassword_error _ _
      · exact noPassword_of_users_singleton _ _ rfl (get_delete_self _ _)

theorem noPassword_createUser (lib : Lib) (env : Env) (db : Db) (body : Body) :
    NoPassword (createUser lib env db body).1 := by
  unfold createUser
  split
  · exact noPassword_error _ _
  · split
    · exact noPassword_error _ _
    · split
      · exact noPassword_error _ _
      · exact noPassword_of_users_singleton _ _ rfl (get_delete_self _ _)

theorem noPassword_getUserById (db : Db) (id : String) : NoPassword (getUserById db id) := by
  unfold getUserById
  split
  · exact noPassword_error _ _
  · exact noPassword_error _ _
  · exact noPassword_of_users_singleton _ _ rfl (selectNoPassword_get_password _)

theorem noPassword_updateUser (lib : Lib) (env : Env) (db : Db) (user : User) (id : String)
    (body : Body) :
    NoPassword (updateUser lib env db user id body).1 := by
  unfold updateUser
  simp only
  split
  · exact noPassword_error _ _
  · exact noPassword_error _ _
  · split
    · exact noPassword_error _ _
    · exact noPassword_error _ _
    · exact noPassword_of_users_singleton _ _ rfl (selectNoPassword_get_password _)

theorem noPassword_deleteUser (db : Db) (user : User) (id : String) :
    NoPassword (deleteUser db user id).1 := by
  unfold deleteUser
  simp only
  split
  · exact noPassword_error _ _
  · split
    · exact noPassword_error _ _
    · exact noPassword_error _ _
    · exact noPassword_of_users_nil _ rfl

theorem noPassword_page (db : Db) (page limit : Int) (role : Option String) (result : PageResult)
    (h : getPaginatedUsers db page limit role = Except.ok result) :
    ∀ o ∈ result.users, o.get "password" = none := by
  unfold getPaginatedUsers at h
  simp only at h
  split at h
  · simp at h
  · simp only [Except.ok.injEq] at h
    rw [← h]
    intro o ho
    simp only [List.mem_map] at ho
    obtain ⟨u, ⟨u0, -, hu0⟩, hu⟩ := ho
    rw [← hu, ← hu0]
    exact selectNoPassword_get_password u0

theorem noPassword_getAllUsers (db : Db) (query : Query) : NoPassword (getAllUsers db query) := by
  unfold getAllUsers
  simp only
  split
  · exact noPassword_error _ _
  · rename_i result h
    intro o ho
    exact noPassword_page _ _ _ _ result h o ho

theorem noPassword_getUsersByRole (db : Db) (role : String) (query : Query) :
    NoPassword (getUsersByRole db role query) := by
  unfold getUsersByRole
  simp only
  split
  · exact noPassword_error _ _
  · split
    · exact noPassword_error _ _
    · rename_i result h
      intro o ho
      exact noPassword_page _ _ _ _ result h o ho

/-- C2: no user object of a response of any route has a `password` key;
`getPublicProfile` removes the `password` key of the serialised document and
keeps the value of every other key. -/
theorem no_password_in_any_response :
    (∀ (lib : Lib) (env : Env) (db : Db) (route : Route) (req : Request),
      ∀ o ∈ (handle lib env db route req).1.users, o.get "password" = none)
    ∧ (∀ u : User, (getPublicProfile u).get "password" = none
        ∧ ∀ k : String, k ≠ "password" → (getPublicProfile u).get k = u.toObject.get k) := by
  refine ⟨?_, fun u => ⟨get_delete_self _ _, fun k hk => get_delete_other _ _ _ hk⟩⟩
  intro lib env db route req
  show NoPassword (handle lib env db route req).1
  cases route <;> simp only [handle]
  · exact noPassword_validated _ _ _ _ (noPassword_login _ _ _ _)
  · exact noPassword_validated _ _ _ _ (noPassword_register _ _ _ _)
  · exact noPassword_authenticated _ _ _ _ _
      (fun user hu => noPassword_of_users_singleton _ _ rfl (toObject_get_password user hu))
  · exact noPassword_authenticated _ _ _ _ _ (fun user _ => noPassword_of_users_nil _ rfl)
  · exact noPassword_adminOnly _ _ _ _ _ (fun _ _ => noPassword_getAllUsers _ _)
  · exact noPassword_adminOnly _ _ _ _ _ (fun _ _ => noPassword_getUsersByRole _ _ _)
  · exact noPassword_adminOnly _ _ _ _ _
      (fun _ _ => noPassword_validated _ _ _ _ (noPassword_createUser _ _ _ _))
  · exact noPassword_selfOrAdmin _ _ _ _ _ (fun _ _ => noPassword_getUserById _ _)
  · exact noPassword_selfOrAdmin _ _ _ _ _
      (fun user _ => noPassword_validated _ _ _ _ (noPassword_updateUser lib _ _ _ _ _))
  · exact noPassword_adminOnly _ _ _ _ _ (fun user _ => noPassword_deleteUser _ _ _)

/-! ## C3: the two failures of a login are answered alike -/

theorem loginSchema_ok (lib : Lib) (b : Body) (h : loginSchema lib b = []) :
    ∃ e p, b.email = some e ∧ b.password = some p ∧ e ≠ "" ∧ p ≠ "" ∧ joiEmail lib e = true := by
  unfold loginSchema at h
  simp only [List.append_eq_nil, emailErrors, passwordErrors] at h
  obtain ⟨⟨⟨⟨⟨⟨he, hp⟩, -⟩, -⟩, -⟩, -⟩, -⟩ := h
  cases hbe : b.email with
  | none => rw [hbe] at he; simp [requiredMessage] at he
  | some e =>
    cases hbp : b.password with
    | none => rw [hbp] at hp; simp [requiredMessage] at hp
    | some p =>
      rw [hbe] at he; rw [hbp] at hp
      refine ⟨e, p, rfl, rfl, ?_, ?_, ?_⟩
      · intro h0; simp [h0] at he
      · intro h0; simp [h0] at hp
      · by_cases h0 : e = ""
        · simp [h0] at he
        · by_cases hj : joiEmail lib e = true
          · exact hj
          · simp [h0, hj] at he

/-- C3: for two login requests that pass validation, one whose address matches
no user and one whose address matches a user whose stored hash the password
does not verify against, the responses are the same: 401 with the message
`Invalid email or password`; the collection is unchanged. -/
theorem login_failures_identical (lib : Lib) (env1 env2 : Env) (db1 db2 : Db)
    (req1 req2 : Request)
    (hv1 : loginSchema lib req1.body = [])
    (hv2 : loginSchema lib req2.body = [])
    (hnone : ∀ e, req1.body.email = some e → findByEmail lib db1 e = none)
    (hbad : ∃ e p u h, req2.body.email = some e ∧ req2.body.password = some p
      ∧ findByEmail lib db2 e = some u ∧ u.password = some h ∧ lib.compare p h = false) :
    handle lib env1 db1 Route.login req1
        = (errorResponse 401 "Invalid email or password", db1)
      ∧ handle lib env2 db2 Route.login req2
        = (errorResponse 401 "Invalid email or password", db2)
      ∧ (handle lib env1 db1 Route.login req1).1 = (handle lib env2 db2 Route.login req2).1 := by
  have h1 : handle lib env1 db1 Route.login req1
      = (errorResponse 401 "Invalid email or password", db1) := by
    obtain ⟨e, p, he, hp, -⟩ := loginSchema_ok _ _ hv1
    simp only [handle, validated, validate, hv1, details, List.take_nil]
    simp [login, he, hp, hnone e he]
  have h2 : handle lib env2 db2 Route.login req2
      = (errorResponse 401 "Invalid email or password", db2) := by
    obtain ⟨e, p, u, h, he, hp, hu, hh, hc⟩ := hbad
    simp only [handle, validated, validate, hv2, details, List.take_nil]
    simp [login, he, hp, hu, comparePassword, hh, hc]
  exact ⟨h1, h2, by rw [h1, h2]⟩

set_option maxRecDepth 8000 in
theorem login_failures_identical_witness :
    handle refLib (envAt 5 "64b7f3a2c9e1d4f5a6b7c8db") sampleDb Route.login
        { body := { email := some "nobody@example.com", password := some "password123" } }
        = (errorResponse 401 "Invalid email or password", sampleDb)
      ∧ handle refLib (envAt 5 "64b7f3a2c9e1d4f5a6b7c8db") sampleDb Route.login
        { body := { email := some "user@example.com", password := some "wrongpassword" } }
        = (errorResponse 401 "Invalid email or password", sampleDb)
      ∧ (handle refLib (envAt 5 "64b7f3a2c9e1d4f5a6b7c8db") sampleDb Route.login
          { body := { email := some "nobody@example.com", password := some "password123" } }).1
        = (handle refLib (envAt 5 "64b7f3a2c9e1d4f5a6b7c8db") sampleDb Route.login
          { body := { email := some "user@example.com", password := some "wrongpassword" } }).1 :=
  login_failures_identical refLib (envAt 5 "64b7f3a2c9e1d4f5a6b7c8db")
    (envAt 5 "64b7f3a2c9e1d4f5a6b7c8db") sampleDb sampleDb
    { body := { email := some "nobody@example.com", password := some "password123" } }
    { body := { email := some "user@example.com", password := some "wrongpassword" } }
    (by decide) (by decide)
    (by intro e he; cases he; decide)
    ⟨"user@example.com", "wrongpassword", regularDoc, "hashed:password123",
      rfl, rfl, by decide, rfl, by decide⟩

/-! ## C4: registration followed by login -/

theorem emailMatch_ne_empty (s : String) (h : emailMatch s = true) : s ≠ "" := by
  intro h0
  rw [h0] at h
  exact absurd h (by decide)

theorem textErrors_required_ok (label emptyMsg maxMsg : String) (max : Nat)
    (v : Option String) (h : textErrors label emptyMsg maxMsg max true false v = []) :
    ∃ s, v = some s ∧ trim s ≠ "" ∧ strLength (trim s) ≤ max := by
  unfold textErrors at h
  cases v with
  | none => simp at h
  | some s =>
    refine ⟨s, rfl, ?_, ?_⟩
    · intro h0; simp [h0] at h
    · by_cases h0 : trim s = ""
      · simp [h0] at h
      · by_cases hm : max < strLength (trim s)
        · simp [h0, hm] at h
        · exact Nat.le_of_not_lt hm

theorem textErrors_optional_ok (label emptyMsg maxMsg : String) (max : Nat)
    (v : Option String) (h : textErrors label emptyMsg maxMsg max false true v = []) :
    maxlengthOk max (v.map trim) = true := by
  unfold textErrors at h
  cases v with
  | none => rfl
  | some s =>
    simp only [Option.map_some', maxlengthOk, decide_eq_true_eq]
    by_cases h0 : trim s = ""
    · rw [h0]; exact Nat.zero_le _
    · by_cases hm : max < strLength (trim s)
      · simp [h0, hm] at h
      · exact Nat.le_of_not_lt hm

theorem emailErrors_required_ok (lib : Lib) (emptyMsg : String) (v : Option String)
    (h : emailErrors lib emptyMsg true v = []) :
    ∃ e, v = some e ∧ e ≠ "" ∧ joiEmail lib e = true := by
  unfold emailErrors at h
  cases v with
  | none => simp at h
  | some e =>
    refine ⟨e, rfl, ?_, ?_⟩
    · intro h0; simp [h0] at h
    · by_cases h0 : e = ""
      · simp [h0] at h
      · by_cases hj : joiEmail lib e = true
        · exact hj
        · simp [h0, hj] at h

theorem passwordErrors_required_ok (emptyMsg : String) (min : Nat) (v : Option String)
    (h : passwordErrors emptyMsg min true v = []) :
    ∃ p, v = some p ∧ p ≠ "" ∧ min ≤ strLength p := by
  unfold passwordErrors at h
  cases v with
  | none => simp at h
  | some p =>
    refine ⟨p, rfl, ?_, ?_⟩
    · intro h0; simp [h0] at h
    · by_cases h0 : p = ""
      · simp [h0] at h
      · by_cases hm : strLength p < min
        · simp [h0, hm] at h
        · exact Nat.le_of_not_lt hm

theorem roleErrors_ok (v : Option String) (h : roleErrors v = []) :
    v = none ∨ v = some "admin" ∨ v = some "user" := by
  unfold roleErrors at h
  cases v with
  | none => exact Or.inl rfl
  | some s =>
    by_cases h1 : s = "admin"
    · exact Or.inr (Or.inl (by rw [h1]))
    · by_cases h2 : s = "user"
      · exact Or.inr (Or.inr (by rw [h2]))
      · simp [h1, h2] at h

theorem roleOrUser_ok (v : Option String) (h : v = none ∨ v = some "admin" ∨ v = some "user") :
    roleOrUser v = "admin" ∨ roleOrUser v = "user" := by
  rcases h with h | h | h <;> subst h <;> simp [roleOrUser, truthy]

/-- What a body accepted by `userRegistrationSchema` is known to satisfy. -/
theorem userRegistrationSchema_ok (lib : Lib) (b : Body)
    (h : userRegistrationSchema lib b = []) :
    (∃ f, b.firstName = some f ∧ trim f ≠ "" ∧ strLength (trim f) ≤ 50)
    ∧ maxlengthOk 50 (b.middleName.map trim) = true
    ∧ (∃ l, b.lastName = some l ∧ trim l ≠ "" ∧ strLength (trim l) ≤ 50)
    ∧ (∃ e, b.email = some e ∧ e ≠ "" ∧ joiEmail lib e = true)
    ∧ (∃ p, b.password = some p ∧ p ≠ "" ∧ 6 ≤ strLength p)
    ∧ maxlengthOk 100 (b.department.map trim) = true
    ∧ (b.role = none ∨ b.role = some "admin" ∨ b.role = some "user") := by
  unfold userRegistrationSchema at h
  simp only [List.append_eq_nil] at h
  obtain ⟨⟨⟨⟨⟨⟨h1, h2⟩, h3⟩, h4⟩, h5⟩, h6⟩, h7⟩ := h
  exact ⟨textErrors_required_ok _ _ _ _ _ h1, textErrors_optional_ok _ _ _ _ _ h2,
    textErrors_required_ok _ _ _ _ _ h3, emailErrors_required_ok _ _ _ h4,
    passwordErrors_required_ok _ _ _ h5, textErrors_optional_ok _ _ _ _ _ h6, roleErrors_ok _ h7⟩


theorem findByEmail_none (lib : Lib) (db : Db) (e : String) (h : findByEmail lib db e = none) :
    ∀ u ∈ db, u.email ≠ toLowerCase lib e := by
  unfold findByEmail at h
  rw [List.find?_eq_none] at h
  intro u hu
  simpa using h u hu

/-- When the data pass the validators of the schema and the indexes, `create`
appends the document built from them. -/
theorem create_ok (lib : Lib) (env : Env) (db : Db) (data : Body) (f l e p r : String)
    (hf : data.firstName = some f) (hl : data.lastName = some l) (he : data.email = some e)
    (hp : data.password = some p) (hr : data.role = some r)
    (hf1 : trim f ≠ "") (hf2 : strLength (trim f) ≤ 50)
    (hm : maxlengthOk 50 (data.middleName.map trim) = true)
    (hl1 : trim l ≠ "") (hl2 : strLength (trim l) ≤ 50)
    (he2 : emailMatch (toLowerCase lib e) = true)
    (hp1 : p ≠ "") (hp2 : 6 ≤ strLength p)
    (hd : maxlengthOk 100 (data.department.map trim) = true)
    (hr1 : r = "admin" ∨ r = "user")
    (hid : ∀ u ∈ db, u._id ≠ env.newId) (hem : ∀ u ∈ db, u.email ≠ toLowerCase lib e) :
    create lib env db data
      = Except.ok (createdDoc lib env f data.middleName l e p data.department r,
          db ++ [createdDoc lib env f data.middleName l e p data.department r]) := by
  have hval : validateDocument
      (applySetters lib { data with role := some (data.role.getD "user") }) = true := by
    have hr2 : enumOk (some r) = true := by
      rcases hr1 with h | h <;> subst h <;> rfl
    have hr3 : r ≠ "" := by
      rcases hr1 with h | h <;> subst h <;> decide
    have a1 : requiredOk (some (trim f)) = true := by simpa [requiredOk] using hf1
    have a2 : maxlengthOk 50 (some (trim f)) = true := by simpa [maxlengthOk] using hf2
    have a3 : requiredOk (some (trim l)) = true := by simpa [requiredOk] using hl1
    have a4 : maxlengthOk 50 (some (trim l)) = true := by simpa [maxlengthOk] using hl2
    have a5 : requiredOk (some (toLowerCase lib e)) = true := by
      simpa [requiredOk] using emailMatch_ne_empty _ he2
    have a6 : matchOk (some (toLowerCase lib e)) = true := by simp [matchOk, he2]
    have a7 : requiredOk (some p) = true := by simpa [requiredOk] using hp1
    have a8 : minlengthOk 6 (some p) = true := by simpa [minlengthOk] using hp2
    have a9 : requiredOk (some r) = true := by simpa [requiredOk] using hr3
    simp only [validateDocument, applySetters, hf, hl, he, hp, hr, Option.map_some',
      Option.getD_some, a1, a2, a3, a4, a5, a6, a7, a8, a9, hm, hd, hr2, Bool.and_self]
  have hdup : db.any (fun x => x._id == env.newId || x.email == toLowerCase lib e) = false := by
    rw [List.any_eq_false]
    intro u hu
    simp [hid u hu, hem u hu]
  unfold create
  simp only [hval, Bool.not_true, Bool.false_eq_true, if_false]
  simp only [applySetters, hf, hl, he, hp, hr, Option.map_some', Option.getD_some, hdup,
    createdDoc, Bool.false_eq_true, if_false]

theorem findByEmail_append_new (lib : Lib) (db : Db) (e : String) (u : User)
    (h : findByEmail lib db e = none) (hu : u.email = toLowerCase lib e) :
    findByEmail lib (db ++ [u]) e = some u := by
  unfold findByEmail at *
  rw [List.find?_append, h]
  simp [hu]

theorem refLib_compare_hash (q s : String) : refLib.compare q (refLib.hash q s) = true := by
  simp [refLib]

theorem dropWhile_ticks (n : Nat) (rest : List Char) :
    (List.replicate n '|' ++ '.' :: rest).dropWhile (fun c => c == '|') = '.' :: rest := by
  induction n with
  | zero => simp [List.dropWhile_cons]
  | succ k ih => simp [List.replicate_succ, List.dropWhile_cons, ih]

theorem takeWhile_ticks (n : Nat) (rest : List Char) :
    ((List.replicate n '|' ++ '.' :: rest).takeWhile (fun c => c == '|')).length = n := by
  induction n with
  | zero => simp [List.takeWhile_cons]
  | succ k ih => simp [List.replicate_succ, List.takeWhile_cons, ih]

theorem refLib_verify_sign (uid : String) (iat t : Nat) (h : t < iat + 7) :
    refLib.verify (refLib.sign uid iat) t = JwtResult.ok uid := by
  simp only [refLib, dropWhile_ticks, takeWhile_ticks, h, if_true]

/-- C4, as amended: for every registration request that passes validation, whose
address is not yet in the collection and, in lowercase, matches the pattern of
the model, and for a fresh identifier, `register` answers 201 with a token and
appends the user; a login with the same address and password then answers 200
with a token; verifying either token before its expiry yields the identifier
of the registered user (the hasher verifies what it hashed, verification
inverts signing before expiry). -/
theorem register_then_login (lib : Lib) (env env2 : Env) (db : Db) (req : Request)
    (e p : String) (ttl : Nat)
    (hval : userRegistrationSchema lib req.body = [])
    (he : req.body.email = some e) (hp : req.body.password = some p)
    (hnew : findByEmail lib db e = none)
    (hmatch : emailMatch (toLowerCase lib e) = true)
    (hfresh : ∀ u ∈ db, u._id ≠ env.newId)
    (hhash : ∀ q s, lib.compare q (lib.hash q s) = true)
    (hjwt : ∀ uid iat t, t < iat + ttl → lib.verify (lib.sign uid iat) t = JwtResult.ok uid) :
    ∃ user : User,
      user._id = env.newId ∧ user.email = toLowerCase lib e
      ∧ handle lib env db Route.register req
          = ({ code := 201, status := "success", message := some "User registered successfully"
               data := some (Data.userToken (getPublicProfile user)
                 (lib.sign user._id.toString env.now)) }, db ++ [user])
      ∧ handle lib env2 (db ++ [user]) Route.login
            { body := { email := some e, password := some p } }
          = ({ code := 200, status := "success", message := some "Login successful"
               data := some (Data.userToken (getPublicProfile user)
                 (lib.sign user._id.toString env2.now)) }, db ++ [user])
      ∧ (∀ t, t < env.now + ttl →
          lib.verify (lib.sign user._id.toString env.now) t = JwtResult.ok user._id.toString)
      ∧ (∀ t, t < env2.now + ttl →
          lib.verify (lib.sign user._id.toString env2.now) t = JwtResult.ok user._id.toString) := by
  obtain ⟨⟨f, hf, hf1, hf2⟩, hm, ⟨l, hl, hl1, hl2⟩, ⟨e0, he0, he1, he2⟩, ⟨p0, hp0, hp1, hp2⟩,
    hd, hr⟩ := userRegistrationSchema_ok _ _ hval
  rw [he] at he0; cases he0
  rw [hp] at hp0; cases hp0
  have hcreate := create_ok lib env db { req.body with role := some (roleOrUser req.body.role) }
    f l e p (roleOrUser req.body.role) hf hl he hp rfl hf1 hf2 hm hl1 hl2 hmatch hp1 hp2 hd
    (roleOrUser_ok _ hr) hfresh (findByEmail_none lib db e hnew)
  simp only at hcreate
  refine ⟨createdDoc lib env f req.body.middleName l e p req.body.department
    (roleOrUser req.body.role), rfl, rfl, ?_, ?_, fun t ht => hjwt _ _ t ht,
    fun t ht => hjwt _ _ t ht⟩
  · simp only [handle, validated, validate, hval, details, List.take_nil]
    simp only [he] at hcreate
    simp only [register, he, hnew, hcreate, generateToken]
  · have hlogin : loginSchema lib { email := some e, password := some p } = [] := by
      simp [loginSchema, emailErrors, passwordErrors, unknownErrors, he1, hp1, he2]
    simp only [handle, validated, validate, hlogin, details, List.take_nil]
    have hfind := findByEmail_append_new lib db e
      (createdDoc lib env f req.body.middleName l e p req.body.department
        (roleOrUser req.body.role)) hnew rfl
    simp only [login, hfind]
    simp only [comparePassword, createdDoc, hhash, generateToken]

/-- C4, as stated, fails: a registration body that passes validation, with an
address not in the (empty) collection, is answered 500 because the pattern of
the model rejects the address. -/
theorem register_valid_body_server_error :
    userRegistrationSchema refLib infoBody = []
      ∧ findByEmail refLib [] "a@example.info" = none
      ∧ handle refLib (envAt 3 "64b7f3a2c9e1d4f5a6b7c8db") [] Route.register { body := infoBody }
        = (errorResponse 500 "Server error during registration", []) := by
  decide

set_option maxRecDepth 8000 in
theorem register_then_login_witness :
    (userRegistrationSchema refLib johnBody = []
      ∧ ∃ user : User,
      user._id = (envAt 3 "64b7f3a2c9e1d4f5a6b7c8db").newId
      ∧ user.email = toLowerCase refLib "John.Doe@Example.com"
      ∧ handle refLib (envAt 3 "64b7f3a2c9e1d4f5a6b7c8db") [] Route.register { body := johnBody }
          = ({ code := 201, status := "success", message := some "User registered successfully"
               data := some (Data.userToken (getPublicProfile user)
                 (refLib.sign user._id.toString 3)) }, [] ++ [user])
      ∧ handle refLib (envAt 4 "64b7f3a2c9e1d4f5a6b7c8dc") ([] ++ [user]) Route.login
            { body := { email := some "John.Doe@Example.com", password := some "password123" } }
          = ({ code := 200, status := "success", message := some "Login successful"
               data := some (Data.userToken (getPublicProfile user)
                 (refLib.sign user._id.toString 4)) }, [] ++ [user])
      ∧ (∀ t, t < 3 + 7 →
          refLib.verify (refLib.sign user._id.toString 3) t = JwtResult.ok user._id.toString)
      ∧ (∀ t, t < 4 + 7 →
          refLib.verify (refLib.sign user._id.toString 4) t = JwtResult.ok user._id.toString))
    ∧ (userRegistrationSchema refLib kelvinBody = []
      ∧ ∃ user : User,
      user._id = (envAt 3 "64b7f3a2c9e1d4f5a6b7c8db").newId
      ∧ user.email = toLowerCase refLib kelvinAddress
      ∧ handle refLib (envAt 3 "64b7f3a2c9e1d4f5a6b7c8db") sampleDb Route.register
            { body := kelvinBody }
          = ({ code := 201, status := "success", message := some "User registered successfully"
               data := some (Data.userToken (getPublicProfile user)
                 (refLib.sign user._id.toString 3)) }, sampleDb ++ [user])
      ∧ handle refLib (envAt 4 "64b7f3a2c9e1d4f5a6b7c8dc") (sampleDb ++ [user]) Route.login
            { body := { email := some kelvinAddress, password := some (astral 3) } }
          = ({ code := 200, status := "success", message := some "Login successful"
               data := some (Data.userToken (getPublicProfile user)
                 (refLib.sign user._id.toString 4)) }, sampleDb ++ [user])
      ∧ (∀ t, t < 3 + 7 →
          refLib.verify (refLib.sign user._id.toString 3) t = JwtResult.ok user._id.toString)
      ∧ (∀ t, t < 4 + 7 →
          refLib.verify (refLib.sign user._id.toString 4) t = JwtResult.ok user._id.toString)) :=
  ⟨⟨by decide,
    register_then_login refLib (envAt 3 "64b7f3a2c9e1d4f5a6b7c8db")
      (envAt 4 "64b7f3a2c9e1d4f5a6b7c8dc") [] { body := johnBody } "John.Doe@Example.com"
      "password123" 7 (by decide) rfl rfl rfl (by decide) (by simp) refLib_compare_hash
      refLib_verify_sign⟩,
   ⟨by decide,
    register_then_login refLib (envAt 3 "64b7f3a2c9e1d4f5a6b7c8db")
      (envAt 4 "64b7f3a2c9e1d4f5a6b7c8dc") sampleDb { body := kelvinBody } kelvinAddress
      (astral 3) 7 (by decide) rfl rfl (by decide) (by decide) (by decide) refLib_compare_hash
      refLib_verify_sign⟩⟩

/-! ## C5: a registered address is refused, whatever its letter case -/

theorem findByEmail_some_of_mem (lib : Lib) (db : Db) (e : String)
    (h : ∃ u ∈ db, u.email = toLowerCase lib e) : ∃ u, findByEmail lib db e = some u := by
  obtain ⟨u, hu, hue⟩ := h
  unfold findByEmail
  cases hf : db.find? (fun u => u.email == toLowerCase lib e) with
  | some v => exact ⟨v, rfl⟩
  | none =>
    rw [List.find?_eq_none] at hf
    have := hf u hu
    simp [hue] at this

/-- C5: when a document holds the lowercase form of an address `e`, a
registration request that passes validation with an address `e'` equal to `e`
up to letter case is answered 400 `User with this email already exists`, the
collection is unchanged and the response has no token; the same holds for the
creation request of an authenticated administrator. -/
theorem duplicate_email_rejected (lib : Lib) (env : Env) (db : Db) (req : Request)
    (e e' : String)
    (hreg : ∃ u ∈ db, u.email = toLowerCase lib e)
    (hcase : toLowerCase lib e' = toLowerCase lib e)
    (hbody : req.body.email = some e')
    (hval : userRegistrationSchema lib req.body = []) :
    handle lib env db Route.register req
        = (errorResponse 400 "User with this email already exists", db)
      ∧ (∀ admin : User, authenticate lib env.now db req.authorization = Step.next admin →
          admin.role = "admin" →
          handle lib env db Route.createUser req
            = (errorResponse 400 "User with this email already exists", db))
      ∧ (errorResponse 400 "User with this email already exists").token = none := by
  obtain ⟨u, hu⟩ := findByEmail_some_of_mem lib db e' (by rw [hcase]; exact hreg)
  refine ⟨?_, ?_, rfl⟩
  · simp only [handle, validated, validate, hval, details, List.take_nil]
    simp only [register, hbody, hu]
  · intro admin hauth hadmin
    simp only [handle, adminOnly, authenticated, hauth, authorizeAdmin, hadmin, validated,
      validate, hval, details, List.take_nil]
    simp [createUser, hbody, hu]

set_option maxRecDepth 8000 in
theorem duplicate_email_rejected_witness :
    handle refLib (envAt 5 "64b7f3a2c9e1d4f5a6b7c8db") sampleDb Route.register
        { authorization := adminAuth, body := { johnBody with email := some "USER@Example.COM" } }
        = (errorResponse 400 "User with this email already exists", sampleDb)
      ∧ handle refLib (envAt 5 "64b7f3a2c9e1d4f5a6b7c8db") sampleDb Route.createUser
        { authorization := adminAuth, body := { johnBody with email := some "USER@Example.COM" } }
        = (errorResponse 400 "User with this email already exists", sampleDb)
      ∧ (errorResponse 400 "User with this email already exists").token = none
      ∧ handle refLib (envAt 5 "64b7f3a2c9e1d4f5a6b7c8db") kimDb Route.register
        { body := kelvinBody }
        = (errorResponse 400 "User with this email already exists", kimDb) :=
  have h := duplicate_email_rejected refLib (envAt 5 "64b7f3a2c9e1d4f5a6b7c8db") sampleDb
    { authorization := adminAuth, body := { johnBody with email := some "USER@Example.COM" } }
    "User@example.com" "USER@Example.COM"
    ⟨regularDoc, by decide, by decide⟩ (by decide) rfl (by decide)
  ⟨h.1, h.2.1 (selectNoPassword adminDoc) (by decide) rfl, h.2.2,
    (duplicate_email_rejected refLib (envAt 5 "64b7f3a2c9e1d4f5a6b7c8db") kimDb
      { body := kelvinBody } "Kim@example.com" kelvinAddress
      ⟨kimDoc, by decide, by decide⟩ (by decide) rfl (by decide)).1⟩

/-! ## C6: the addresses of the collection stay distinct -/

theorem create_shape (lib : Lib) (env : Env) (db db1 : Db) (data : Body) (u : User)
    (h : create lib env db data = Except.ok (u, db1)) :
    db1 = db ++ [u] ∧ (∀ x ∈ db, x._id ≠ u._id ∧ x.email ≠ u.email) ∧ u._id = env.newId
      ∧ ∃ p, data.password = some p ∧ u.password = some (lib.hash p env.salt) := by
  unfold create at h
  simp only at h
  split at h
  · simp at h
  · split at h
    · rename_i f l e p r hf hl he hp hr
      split at h
      · simp at h
      · rename_i hdup
        simp only [Except.ok.injEq, Prod.mk.injEq] at h
        obtain ⟨h1, h2⟩ := h
        subst h1
        refine ⟨h2.symm, ?_, rfl, p, ?_, rfl⟩
        · intro x hx
          simp only [Bool.not_eq_true, List.any_eq_false, Bool.or_eq_true, beq_iff_eq,
            not_or] at hdup
          exact hdup x hx
        · simpa [applySetters] using hp
    · simp at h

theorem uniqueEmails_create (lib : Lib) (env : Env) (db db1 : Db) (data : Body) (u : User)
    (h : create lib env db data = Except.ok (u, db1)) (hdb : UniqueEmails db) :
    UniqueEmails db1 := by
  obtain ⟨h1, h2, -⟩ := create_shape lib env db db1 data u h
  subst h1
  unfold UniqueEmails at *
  rw [List.map_append, List.nodup_append]
  refine ⟨hdb, by simp, ?_⟩
  intro a ha hb
  simp only [List.map_cons, List.map_nil, List.mem_singleton] at hb
  obtain ⟨x, hx, hxa⟩ := List.mem_map.mp ha
  exact (h2 x hx).2 (hxa.trans hb)

theorem mem_replaceFirst (p : User → Bool) (v x : User) (db : Db)
    (h : x ∈ replaceFirst p v db) : x = v ∨ x ∈ db := by
  induction db with
  | nil => simp [replaceFirst] at h
  | cons y ys ih =>
    unfold replaceFirst at h
    split at h
    · rcases List.mem_cons.mp h with h | h
      · exact Or.inl h
      · exact Or.inr (List.mem_cons_of_mem _ h)
    · rcases List.mem_cons.mp h with h | h
      · exact Or.inr (h ▸ List.mem_cons_self _ _)
      · rcases ih h with h | h
        · exact Or.inl h
        · exact Or.inr (List.mem_cons_of_mem _ h)

theorem uniqueEmails_replaceFirst (p : User → Bool) (v u : User) (db : Db)
    (hu : db.find? p = some u)
    (hv : (db.erase u).any (fun x => x.email == v.email) = false)
    (hdb : UniqueEmails db) : UniqueEmails (replaceFirst p v db) := by
  unfold UniqueEmails at *
  induction db with
  | nil => simp at hu
  | cons x xs ih =>
    rw [List.map_cons, List.nodup_cons] at hdb
    by_cases hx : p x = true
    · have hux : x = u := by simpa [List.find?_cons, hx] using hu
      subst hux
      simp only [replaceFirst, hx, if_true, List.map_cons, List.nodup_cons]
      refine ⟨?_, hdb.2⟩
      simp only [List.erase_cons_head, List.any_eq_false, beq_iff_eq] at hv
      intro hmem
      obtain ⟨y, hy, hye⟩ := List.mem_map.mp hmem
      exact hv y hy hye
    · simp only [Bool.not_eq_true] at hx
      have hu2 : xs.find? p = some u := by simpa [List.find?_cons, hx] using hu
      have hpu : p u = true := List.find?_some hu2
      have hne : x ≠ u := by
        intro e; rw [e, hpu] at hx; exact Bool.noConfusion hx
      have hne2 : (x == u) = false := by simpa using hne
      rw [List.erase_cons, hne2] at hv
      simp only [Bool.false_eq_true, if_false, List.any_cons, Bool.or_eq_false_iff,
        beq_eq_false_iff_ne, ne_eq] at hv
      simp only [replaceFirst, hx, Bool.false_eq_true, if_false, List.map_cons, List.nodup_cons]
      refine ⟨?_, ih hu2 hv.2 hdb.2⟩
      intro hmem
      obtain ⟨y, hy, hye⟩ := List.mem_map.mp hmem
      rcases mem_replaceFirst p v y xs hy with h | h
      · exact hv.1 (by rw [← hye, h])
      · exact hdb.1 (List.mem_map.mpr ⟨y, h, hye⟩)

theorem uniqueEmails_update (lib : Lib) (env : Env) (db db1 : Db) (id : String) (upd : Body)
    (v : User)
    (h : findByIdAndUpdate lib env db id upd = Except.ok (some v, db1)) (hdb : UniqueEmails db) :
    UniqueEmails db1 := by
  obtain ⟨oid, u, -, hu, -, -, hdup, h1⟩ := findByIdAndUpdate_ok lib env db db1 id upd v h
  rw [h1]
  exact uniqueEmails_replaceFirst _ v u db hu hdup hdb

theorem findByIdAndDelete_ok (db db1 : Db) (id : String) (u : User)
    (h : findByIdAndDelete db id = Except.ok (some u, db1)) :
    ∃ oid, castObjectId id = some oid ∧ db.find? (fun x => x._id == oid) = some u
      ∧ db1 = db.erase u := by
  unfold findByIdAndDelete at h
  split at h
  · simp at h
  · rename_i oid hoid
    split at h
    · simp at h
    · rename_i w hw
      simp only [Except.ok.injEq, Prod.mk.injEq, Option.some.injEq] at h
      obtain ⟨h1, h2⟩ := h
      subst h1
      exact ⟨oid, hoid, hw, h2.symm⟩

theorem uniqueEmails_delete (db db1 : Db) (id : String) (u : User)
    (h : findByIdAndDelete db id = Except.ok (some u, db1)) (hdb : UniqueEmails db) :
    UniqueEmails db1 := by
  obtain ⟨oid, -, -, h1⟩ := findByIdAndDelete_ok db db1 id u h
  rw [h1]
  unfold UniqueEmails at *
  exact List.Nodup.sublist (List.Sublist.map _ (List.erase_sublist u db)) hdb

theorem authenticated_post (P : Response × Db → Prop) (lib : Lib) (env : Env) (db : Db)
    (req : Request) (handler : User → Response × Db)
    (hdb : ∀ r, P (r, db)) (h : ∀ user, P (handler user)) :
    P (authenticated lib env db req handler) := by
  unfold authenticated
  cases authenticate lib env.now db req.authorization with
  | respond r => exact hdb r
  | next user => exact h user

theorem adminOnly_post (P : Response × Db → Prop) (lib : Lib) (env : Env) (db : Db)
    (req : Request) (handler : User → Response × Db)
    (hdb : ∀ r, P (r, db)) (h : ∀ user, P (handler user)) :
    P (adminOnly lib env db req handler) := by
  unfold adminOnly
  apply authenticated_post P _ _ _ _ _ hdb
  intro user
  cases authorizeAdmin user with
  | some r => exact hdb r
  | none => exact h user

theorem selfOrAdmin_post (P : Response × Db → Prop) (lib : Lib) (env : Env) (db : Db)
    (req : Request) (handler : User → Response × Db)
    (hdb : ∀ r, P (r, db)) (h : ∀ user, P (handler user)) :
    P (selfOrAdmin lib env db req handler) := by
  unfold selfOrAdmin
  apply authenticated_post P _ _ _ _ _ hdb
  intro user
  cases authorizeProfileAccess user req.id with
  | some r => exact hdb r
  | none => exact h user

theorem validated_post (P : Response × Db → Prop) (schema : Body → List String) (db : Db)
    (req : Request) (handler : Response × Db)
    (hdb : ∀ r, P (r, db)) (h : P handler) : P (validated schema db req handler) := by
  unfold validated
  cases validate schema req.body with
  | some r => exact hdb r
  | none => exact h

theorem register_storeStep (lib : Lib) (env : Env) (db : Db) (body : Body) :
    StoreStep lib env db (register lib env db body).2 := by
  unfold register
  split
  · exact Or.inl rfl
  · split
    · exact Or.inl rfl
    · split
      · exact Or.inl rfl
      · rename_i user db1 hc
        exact Or.inr (Or.inl ⟨_, user, hc⟩)

theorem createUser_storeStep (lib : Lib) (env : Env) (db : Db) (body : Body) :
    StoreStep lib env db (createUser lib env db body).2 := by
  unfold createUser
  split
  · exact Or.inl rfl
  · split
    · exact Or.inl rfl
    · split
      · exact Or.inl rfl
      · rename_i user db1 hc
        exact Or.inr (Or.inl ⟨_, user, hc⟩)

theorem updateUser_storeStep (lib : Lib) (env : Env) (db : Db) (user : User) (id : String)
    (body : Body) : StoreStep lib env db (updateUser lib env db user id body).2 := by
  unfold updateUser
  simp only
  split
  · exact Or.inl rfl
  · exact Or.inl rfl
  · split
    · exact Or.inl rfl
    · exact Or.inl rfl
    · rename_i v db1 hu
      exact Or.inr (Or.inr (Or.inl ⟨_, _, v, hu⟩))

theorem deleteUser_storeStep (lib : Lib) (env : Env) (db : Db) (user : User) (id : String) :
    StoreStep lib env db (deleteUser db user id).2 := by
  unfold deleteUser
  simp only
  split
  · exact Or.inl rfl
  · split
    · exact Or.inl rfl
    · exact Or.inl rfl
    · rename_i u db1 hd
      exact Or.inr (Or.inr (Or.inr ⟨_, u, hd⟩))

/-- Every route leaves the collection as one store operation leaves it. -/
theorem handle_storeStep (lib : Lib) (env : Env) (db : Db) (route : Route) (req : Request) :
    StoreStep lib env db (handle lib env db route req).2 := by
  have hdb : ∀ r : Response, StoreStep lib env db ((r, db) : Response × Db).2 :=
    fun _ => Or.inl rfl
  cases route <;> simp only [handle]
  · exact validated_post (fun x => StoreStep lib env db x.2) _ _ _ _ hdb (Or.inl rfl)
  · exact validated_post (fun x => StoreStep lib env db x.2) _ _ _ _ hdb
      (register_storeStep _ _ _ _)
  · exact authenticated_post (fun x => StoreStep lib env db x.2) _ _ _ _ _ hdb
      (fun _ => Or.inl rfl)
  · exact authenticated_post (fun x => StoreStep lib env db x.2) _ _ _ _ _ hdb
      (fun _ => Or.inl rfl)
  · exact adminOnly_post (fun x => StoreStep lib env db x.2) _ _ _ _ _ hdb (fun _ => Or.inl rfl)
  · exact adminOnly_post (fun x => StoreStep lib env db x.2) _ _ _ _ _ hdb (fun _ => Or.inl rfl)
  · exact adminOnly_post (fun x => StoreStep lib env db x.2) _ _ _ _ _ hdb
      (fun _ => validated_post (fun x => StoreStep lib env db x.2) _ _ _ _ hdb
        (createUser_storeStep _ _ _ _))
  · exact selfOrAdmin_post (fun x => StoreStep lib env db x.2) _ _ _ _ _ hdb
      (fun _ => Or.inl rfl)
  · exact selfOrAdmin_post (fun x => StoreStep lib env db x.2) _ _ _ _ _ hdb
      (fun user => validated_post (fun x => StoreStep lib env db x.2) _ _ _ _ hdb
        (updateUser_storeStep lib _ _ _ _ _))
  · exact adminOnly_post (fun x => StoreStep lib env db x.2) _ _ _ _ _ hdb
      (fun user => deleteUser_storeStep lib env _ _ _)

theorem uniqueEmails_storeStep (lib : Lib) (env : Env) (db db1 : Db)
    (h : StoreStep lib env db db1) (hdb : UniqueEmails db) : UniqueEmails db1 := by
  rcases h with h | ⟨data, u, h⟩ | ⟨id, upd, v, h⟩ | ⟨id, u, h⟩
  · rw [h]; exact hdb
  · exact uniqueEmails_create lib env db db1 data u h hdb
  · exact uniqueEmails_update lib env db db1 id upd v h hdb
  · exact uniqueEmails_delete db db1 id u h hdb

theorem uniqueEmails_run (lib : Lib) (reqs : List (Env × Route × Request)) (db : Db)
    (hdb : UniqueEmails db) : UniqueEmails (run lib db reqs) := by
  induction reqs generalizing db with
  | nil => exact hdb
  | cons x rest ih =>
    obtain ⟨env, route, req⟩ := x
    exact ih _ (uniqueEmails_storeStep lib env db _ (handle_storeStep lib env db route req) hdb)

/-- C6: from a collection in which no two documents have the same lowercased
address, after any sequence of requests to any routes (among them register,
create, update and delete), each run to completion, no two documents have the
same address. -/
theorem email_uniqueness_invariant (lib : Lib) (db : Db)
    (reqs : List (Env × Route × Request))
    (h : (db.map (fun u => toLowerCase lib u.email)).Nodup) :
    ((run lib db reqs).map (fun u => u.email)).Nodup := by
  have h0 : UniqueEmails db := by
    unfold UniqueEmails
    have : db.map (fun u => toLowerCase lib u.email)
        = (db.map (fun u => u.email)).map (toLowerCase lib) := by
      rw [List.map_map]; rfl
    rw [this] at h
    exact List.Nodup.of_map _ h
  exact uniqueEmails_run lib reqs db h0

set_option maxRecDepth 8000 in
theorem email_uniqueness_invariant_witness :
    ((run refLib sampleDb
        [(envAt 3 "64b7f3a2c9e1d4f5a6b7c8db", Route.register, { body := johnBody }),
         (envAt 4 "64b7f3a2c9e1d4f5a6b7c8dc", Route.updateUser,
           { authorization := some "Bearer |||.64b7f3a2c9e1d4f5a6b7c8d9"
             id := "64b7f3a2c9e1d4f5a6b7c8da"
             body := { email := some "John.Doe@example.com" } }),
         (envAt 5 "64b7f3a2c9e1d4f5a6b7c8dd", Route.deleteUser,
           { authorization := some "Bearer |||.64b7f3a2c9e1d4f5a6b7c8d9"
             id := "64b7f3a2c9e1d4f5a6b7c8da" })]).map (fun u => u.email)).Nodup :=
  email_uniqueness_invariant refLib sampleDb _ (by decide)

/-! ## C7: the routes reserved to administrators -/

/-- C7: for a request authenticated as a user whose role is not `admin`, the
chain of an administrator-only route answers 403 `Access denied. Admin
privileges required.` and leaves the collection unchanged, whatever handler
ends the chain (it is not reached) and whatever the path parameters, the
query, the body and the collection are; so do the four routes `GET /users`,
`GET /users/role/:role`, `POST /users` and `DELETE /users/:id`. -/
theorem non_admin_forbidden (lib : Lib) (env : Env) (db : Db) (req : Request) (user : User)
    (hauth : authenticate lib env.now db req.authorization = Step.next user)
    (hrole : user.role ≠ "admin") :
    (∀ handler : User → Response × Db,
      adminOnly lib env db req handler
        = (errorResponse 403 "Access denied. Admin privileges required.", db))
    ∧ ∀ route ∈ [Route.listUsers, Route.usersByRole, Route.createUser, Route.deleteUser],
      handle lib env db route req
        = (errorResponse 403 "Access denied. Admin privileges required.", db) := by
  have h : ∀ handler : User → Response × Db,
      adminOnly lib env db req handler
        = (errorResponse 403 "Access denied. Admin privileges required.", db) := by
    intro handler
    simp [adminOnly, authenticated, hauth, authorizeAdmin, hrole]
  refine ⟨h, ?_⟩
  intro route hroute
  simp only [List.mem_cons, List.mem_singleton, List.not_mem_nil, or_false] at hroute
  rcases hroute with hr | hr | hr | hr <;> subst hr <;> simp only [handle] <;> exact h _

set_option maxRecDepth 8000 in
theorem non_admin_forbidden_witness :
    (∀ handler : User → Response × Db,
      adminOnly refLib (envAt 3 "64b7f3a2c9e1d4f5a6b7c8db") sampleDb
          { authorization := some "Bearer ||.64b7f3a2c9e1d4f5a6b7c8da"
            id := "64b7f3a2c9e1d4f5a6b7c8d9" } handler
        = (errorResponse 403 "Access denied. Admin privileges required.", sampleDb))
    ∧ ∀ route ∈ [Route.listUsers, Route.usersByRole, Route.createUser, Route.deleteUser],
      handle refLib (envAt 3 "64b7f3a2c9e1d4f5a6b7c8db") sampleDb route
          { authorization := some "Bearer ||.64b7f3a2c9e1d4f5a6b7c8da"
            id := "64b7f3a2c9e1d4f5a6b7c8d9" }
        = (errorResponse 403 "Access denied. Admin privileges required.", sampleDb) :=
  non_admin_forbidden refLib (envAt 3 "64b7f3a2c9e1d4f5a6b7c8db") sampleDb
    { authorization := some "Bearer ||.64b7f3a2c9e1d4f5a6b7c8da", id := "64b7f3a2c9e1d4f5a6b7c8d9" }
    (selectNoPassword regularDoc) (by decide) (by decide)

/-! ## C8: access to a profile -/

/-- What `authorizeProfileAccess` compares: it calls `next()` exactly when the
current user is an administrator or the path parameter is, character for
character, the string form of the current user's identifier; in every other
case it answers 403 `Access denied. You can only access your own profile.`,
and the chain then returns that response without reaching its handler and
leaves the collection unchanged; when it passes, the chain returns what the
handler returns. -/
theorem authorizeProfileAccess_policy (user : User) (id : String) :
    (authorizeProfileAccess user id = none ↔ (user.role = "admin" ∨ id = user._id.toString))
    ∧ (¬ (user.role = "admin" ∨ id = user._id.toString) →
        authorizeProfileAccess user id
          = some (errorResponse 403 "Access denied. You can only access your own profile."))
    ∧ (∀ (lib : Lib) (env : Env) (db : Db) (req : Request) (handler : User → Response × Db),
        authenticate lib env.now db req.authorization = Step.next user → req.id = id →
        ((user.role = "admin" ∨ id = user._id.toString) →
            selfOrAdmin lib env db req handler = handler user)
        ∧ (¬ (user.role = "admin" ∨ id = user._id.toString) →
            selfOrAdmin lib env db req handler
              = (errorResponse 403 "Access denied. You can only access your own profile.", db))) := by
  have hcases := authorizeProfileAccess_cases user id
  refine ⟨?_, ?_, ?_⟩
  · constructor
    · intro hn
      rcases hcases with ⟨-, h⟩ | ⟨h, -⟩
      · exact h
      · rw [h] at hn; exact Option.noConfusion hn
    · intro hp
      rcases hcases with ⟨h, -⟩ | ⟨-, h⟩
      · exact h
      · exact absurd hp h
  · intro hp
    rcases hcases with ⟨-, h⟩ | ⟨h, -⟩
    · exact absurd h hp
    · exact h
  · intro lib env db req handler hauth hid
    subst hid
    constructor
    · intro hp
      rcases hcases with ⟨h, -⟩ | ⟨-, h⟩
      · simp only [selfOrAdmin, authenticated, hauth, h]
      · exact absurd hp h
    · intro hp
      rcases hcases with ⟨-, h⟩ | ⟨h, -⟩
      · exact absurd h hp
      · simp only [selfOrAdmin, authenticated, hauth, h]

set_option maxRecDepth 8000 in
theorem authorizeProfileAccess_policy_sample :
    authorizeProfileAccess regularDoc "64b7f3a2c9e1d4f5a6b7c8da" = none
      ∧ authorizeProfileAccess regularDoc "64b7f3a2c9e1d4f5a6b7c8d9"
          = some (errorResponse 403 "Access denied. You can only access your own profile.")
      ∧ authorizeProfileAccess adminDoc "64b7f3a2c9e1d4f5a6b7c8da" = none :=
  ⟨(authorizeProfileAccess_policy regularDoc "64b7f3a2c9e1d4f5a6b7c8da").1.mpr (Or.inr rfl),
   (authorizeProfileAccess_policy regularDoc "64b7f3a2c9e1d4f5a6b7c8d9").2.1 (by decide),
   (authorizeProfileAccess_policy adminDoc "64b7f3a2c9e1d4f5a6b7c8da").1.mpr (Or.inl rfl)⟩

/-- C8 at the failing input: the regular user of `sampleDb`, authenticated,
requests `/users/:id` with their own identifier written in uppercase
hexadecimal digits.  The path parameter designates their own record (it casts
to their identifier, and the handler `getUserById` answers it with their own
document), yet `authorizeProfileAccess` answers 403: fetching and updating
their own record are both refused, and the collection is unchanged. -/
theorem own_identifier_uppercase_forbidden :
    castObjectId "64B7F3A2C9E1D4F5A6B7C8DA" = some regularDoc._id
      ∧ authenticate refLib 3 sampleDb regularAuth = Step.next (selectNoPassword regularDoc)
      ∧ regularDoc.role ≠ "admin"
      ∧ getUserById sampleDb "64B7F3A2C9E1D4F5A6B7C8DA"
        = { code := 200, status := "success", message := none
            data := some (Data.user (selectNoPassword regularDoc).toObject) }
      ∧ authorizeProfileAccess (selectNoPassword regularDoc) "64B7F3A2C9E1D4F5A6B7C8DA"
        = some (errorResponse 403 "Access denied. You can only access your own profile.")
      ∧ handle refLib (envAt 3 "64b7f3a2c9e1d4f5a6b7c8db") sampleDb Route.getUser
          { authorization := regularAuth, id := "64B7F3A2C9E1D4F5A6B7C8DA" }
        = (errorResponse 403 "Access denied. You can only access your own profile.", sampleDb)
      ∧ handle refLib (envAt 3 "64b7f3a2c9e1d4f5a6b7c8db") sampleDb Route.updateUser
          { authorization := regularAuth, id := "64B7F3A2C9E1D4F5A6B7C8DA"
            body := { firstName := some "Reggie" } }
        = (errorResponse 403 "Access denied. You can only access your own profile.", sampleDb) := by
  decide

/-! ## C9: the role in an update -/

theorem userUpdateSchema_role (lib : Lib) (b : Body) (ro : String)
    (h : userUpdateSchema lib b = []) (hro : b.role = some ro) : ro = "admin" ∨ ro = "user" := by
  unfold userUpdateSchema at h
  simp only [List.append_eq_nil] at h
  rcases roleErrors_ok _ h.2 with h1 | h1 | h1 <;> rw [hro] at h1
  · exact Option.noConfusion h1
  · exact Or.inl (Option.some.inj h1)
  · exact Or.inr (Option.some.inj h1)

theorem stripRole_non_admin (user : User) (body : Body) (ro : String)
    (hu : user.role ≠ "admin") (hro : body.role = some ro) (hne : ro ≠ "") :
    stripRole user body = { body with role := none } := by
  simp [stripRole, hu, hro, truthy, hne]

theorem stripRole_no_role (user : User) (body : Body) (h : body.role = none) :
    stripRole user body = body := by
  simp [stripRole, h, truthy]

theorem stripRole_admin (user : User) (body : Body) (hu : user.role = "admin") :
    stripRole user body = body := by
  simp [stripRole, hu]

theorem find?_replaceFirst_role (p q : User → Bool) (v u : User) (db : Db)
    (hu : db.find? p = some u) (hq : q v = q u) (hr : v.role = u.role) :
    ((replaceFirst p v db).find? q).map (fun x => x.role)
      = (db.find? q).map (fun x => x.role) := by
  induction db with
  | nil => simp at hu
  | cons x xs ih =>
    by_cases hx : p x = true
    · have hux : x = u := by simpa [List.find?_cons, hx] using hu
      subst hux
      simp only [replaceFirst, hx, if_true, List.find?_cons, hq]
      cases q x <;> simp [hr]
    · simp only [Bool.not_eq_true] at hx
      have hu2 : xs.find? p = some u := by simpa [List.find?_cons, hx] using hu
      simp only [replaceFirst, hx, Bool.false_eq_true, if_false, List.find?_cons]
      cases q x
      · exact ih hu2
      · rfl

/-- C9, as amended: for an update request that passes validation and has a
role field, (1) when the current user is not an administrator the request is
answered exactly as the same request without the role field, the stored role
of every document is the same after as before, and when the answer is 200 the
target has received the other fields of the payload; (2) when the current user
is an administrator and the answer is 200, the stored role of the target is
the role of the payload. -/
theorem update_role_policy (lib : Lib) (env : Env) (db : Db) (user : User)
    (id : String) (body : Body) (ro : String)
    (hval : userUpdateSchema lib body = []) (hro : body.role = some ro) :
    (user.role ≠ "admin" →
        updateUser lib env db user id body
          = updateUser lib env db user id { body with role := none }
        ∧ (∀ oid : ObjectId,
            ((updateUser lib env db user id body).2.find? (fun x => x._id == oid)).map
                (fun x => x.role)
              = (db.find? (fun x => x._id == oid)).map (fun x => x.role))
        ∧ ((updateUser lib env db user id body).1.code = 200 →
            ∃ u v, findById db id = Except.ok (some u)
              ∧ findById (updateUser lib env db user id body).2 id = Except.ok (some v)
              ∧ v = applyUpdate env.now (applySetters lib { body with role := none }) u
              ∧ v.role = u.role))
    ∧ (user.role = "admin" → (updateUser lib env db user id body).1.code = 200 →
        ∃ v, findById (updateUser lib env db user id body).2 id = Except.ok (some v)
          ∧ v.role = ro) := by
  have hne : ro ≠ "" := by
    rcases userUpdateSchema_role lib body ro hval hro with h | h <;> subst h <;> decide
  constructor
  · intro hu
    have hs : stripRole user body = { body with role := none } :=
      stripRole_non_admin user body ro hu hro hne
    have heq : updateUser lib env db user id body
        = updateUser lib env db user id { body with role := none } := by
      unfold updateUser
      rw [hs, stripRole_no_role user { body with role := none } rfl]
    refine ⟨heq, ?_, ?_⟩
    · intro oid
      cases hres : updateUser lib env db user id body with
      | mk r db1 =>
        by_cases hok : r.code = 200
        · obtain ⟨v, hupd, -⟩ := updateUser_ok lib env db db1 user id body r hres hok
          obtain ⟨oid0, u, -, hfu, -, hv, -, hdb⟩ := findByIdAndUpdate_ok lib env db db1 id _ v hupd
          have hvr : v.role = u.role := by rw [hv, hs]; rfl
          have hvi : v._id = u._id := by rw [hv]; rfl
          simp only
          rw [hdb]
          exact find?_replaceFirst_role _ _ v u db hfu (by simp [hvi]) hvr
        · have hdb : db1 = db := updateUser_not_ok lib env db db1 user id body r hres hok
          simp only
          rw [hdb]
    · intro hok
      cases hres : updateUser lib env db user id body with
      | mk r db1 =>
        rw [hres] at hok
        obtain ⟨v, hupd, -⟩ := updateUser_ok lib env db db1 user id body r hres hok
        obtain ⟨oid0, u, hoid, hfu, -, hv, -, hdb⟩ :=
          findByIdAndUpdate_ok lib env db db1 id _ v hupd
        have hvi : v._id = u._id := by rw [hv]; rfl
        have hpu : (u._id == oid0) = true := by
          have := List.find?_some hfu
          simpa using this
        refine ⟨u, v, ?_, ?_, ?_, ?_⟩
        · simp only [findById, hoid, hfu]
        · simp only [findById, hoid]
          rw [hdb, find?_replaceFirst _ v u db (by simpa [hvi] using hpu) hfu]
        · rw [hv, hs]
        · rw [hv, hs]; rfl
  · intro hu hok
    cases hres : updateUser lib env db user id body with
    | mk r db1 =>
      rw [hres] at hok
      obtain ⟨v, hupd, -⟩ := updateUser_ok lib env db db1 user id body r hres hok
      obtain ⟨oid0, u, hoid, hfu, -, hv, -, hdb⟩ := findByIdAndUpdate_ok lib env db db1 id _ v hupd
      have hvi : v._id = u._id := by rw [hv]; rfl
      have hpu : (u._id == oid0) = true := by
        have := List.find?_some hfu
        simpa using this
      refine ⟨v, ?_, ?_⟩
      · simp only [findById, hoid]
        rw [hdb, find?_replaceFirst _ v u db (by simpa [hvi] using hpu) hfu]
      · rw [hv, stripRole_admin user body hu]
        simp [applyUpdate, applySetters, hro]

/-- C9, as stated, fails: an update request that passes validation and has a
role field, sent by a user who is not an administrator for their own profile,
is answered 400 when its address is taken; sent by an administrator, it is
answered 400 as well and the stored role of the target stays `user`. -/
theorem update_with_role_refused :
    userUpdateSchema refLib roleAndTakenEmail = []
      ∧ handle refLib (envAt 3 "64b7f3a2c9e1d4f5a6b7c8db") sampleDb Route.updateUser
          { authorization := regularAuth, id := "64b7f3a2c9e1d4f5a6b7c8da"
            body := roleAndTakenEmail }
        = (errorResponse 400 "Email already exists", sampleDb)
      ∧ handle refLib (envAt 3 "64b7f3a2c9e1d4f5a6b7c8db") sampleDb Route.updateUser
          { authorization := adminAuth, id := "64b7f3a2c9e1d4f5a6b7c8da"
            body := roleAndTakenEmail }
        = (errorResponse 400 "Email already exists", sampleDb)
      ∧ (sampleDb.find? (fun u => u._id == ⟨"64b7f3a2c9e1d4f5a6b7c8da"⟩)).map (fun u => u.role)
        = some "user" := by
  decide

set_option maxRecDepth 8000 in
theorem update_role_policy_witness :
    (updateUser refLib (envAt 3 "64b7f3a2c9e1d4f5a6b7c8db") sampleDb regularDoc
          "64b7f3a2c9e1d4f5a6b7c8da" roleAndName
        = updateUser refLib (envAt 3 "64b7f3a2c9e1d4f5a6b7c8db") sampleDb regularDoc
          "64b7f3a2c9e1d4f5a6b7c8da" { roleAndName with role := none }
      ∧ (∀ oid : ObjectId,
          ((updateUser refLib (envAt 3 "64b7f3a2c9e1d4f5a6b7c8db") sampleDb regularDoc
              "64b7f3a2c9e1d4f5a6b7c8da" roleAndName).2.find? (fun x => x._id == oid)).map
              (fun x => x.role)
            = (sampleDb.find? (fun x => x._id == oid)).map (fun x => x.role))
      ∧ ((updateUser refLib (envAt 3 "64b7f3a2c9e1d4f5a6b7c8db") sampleDb regularDoc
            "64b7f3a2c9e1d4f5a6b7c8da" roleAndName).1.code = 200 →
          ∃ u v, findById sampleDb "64b7f3a2c9e1d4f5a6b7c8da" = Except.ok (some u)
            ∧ findById (updateUser refLib (envAt 3 "64b7f3a2c9e1d4f5a6b7c8db") sampleDb regularDoc
                "64b7f3a2c9e1d4f5a6b7c8da" roleAndName).2 "64b7f3a2c9e1d4f5a6b7c8da"
              = Except.ok (some v)
            ∧ v = applyUpdate 3 (applySetters refLib { roleAndName with role := none }) u
            ∧ v.role = u.role))
    ∧ ∃ v, findById (updateUser refLib (envAt 3 "64b7f3a2c9e1d4f5a6b7c8db") sampleDb adminDoc
            "64b7f3a2c9e1d4f5a6b7c8da" roleAndName).2 "64b7f3a2c9e1d4f5a6b7c8da"
          = Except.ok (some v)
        ∧ v.role = "admin" :=
  ⟨(update_role_policy refLib (envAt 3 "64b7f3a2c9e1d4f5a6b7c8db") sampleDb regularDoc
      "64b7f3a2c9e1d4f5a6b7c8da" roleAndName "admin" (by decide) rfl).1 (by decide),
   (update_role_policy refLib (envAt 3 "64b7f3a2c9e1d4f5a6b7c8db") sampleDb adminDoc
      "64b7f3a2c9e1d4f5a6b7c8da" roleAndName "admin" (by decide) rfl).2 rfl (by decide)⟩

/-! ## C10: an administrator and their own record -/

/-- When the path parameter is the string form of the current user's
identifier, `deleteUser` answers 400 and leaves the collection unchanged. -/
theorem deleteUser_own_id_string (db : Db) (user : User) :
    deleteUser db user user._id.toString
      = (errorResponse 400 "You cannot delete your own account", db) := by
  simp [deleteUser]

/-- C10 at the failing input: the administrator of `sampleDb`, authenticated,
sends `DELETE /users/:id` with their own identifier written in uppercase
hexadecimal digits.  The path parameter designates their own record (it casts
to their identifier), yet the answer is 200 and the record is gone from the
collection. -/
theorem admin_deletes_own_record :
    castObjectId "64B7F3A2C9E1D4F5A6B7C8D9" = some adminDoc._id
      ∧ authenticate refLib 3 sampleDb adminAuth = Step.next (selectNoPassword adminDoc)
      ∧ handle refLib (envAt 3 "64b7f3a2c9e1d4f5a6b7c8db") sampleDb Route.deleteUser
          { authorization := adminAuth, id := "64B7F3A2C9E1D4F5A6B7C8D9" }
        = ({ code := 200, status := "success", message := some "User deleted successfully"
             data := none }, [regularDoc])
      ∧ adminDoc ∉ [regularDoc] := by
  decide

/-! ## C11: deleting another record -/

theorem find?_eq_some_split (p : User → Bool) (db : Db) (u : User)
    (h : db.find? p = some u) :
    ∃ l1 l2, db = l1 ++ u :: l2 ∧ db.erase u = l1 ++ l2 ∧ (∀ x ∈ l1, p x = false) := by
  induction db with
  | nil => simp at h
  | cons x xs ih =>
    by_cases hx : p x = true
    · have hux : x = u := by simpa [List.find?_cons, hx] using h
      subst hux
      exact ⟨[], xs, rfl, by simp, by simp⟩
    · simp only [Bool.not_eq_true] at hx
      have h2 : xs.find? p = some u := by simpa [List.find?_cons, hx] using h
      obtain ⟨l1, l2, h1, he, hl⟩ := ih h2
      have hpu : p u = true := List.find?_some h2
      have hne : (x == u) = false := by
        rw [beq_eq_false_iff_ne]
        intro e; rw [e, hpu] at hx; exact Bool.noConfusion hx
      refine ⟨x :: l1, l2, by rw [h1]; rfl, ?_, ?_⟩
      · rw [List.erase_cons, hne]
        simp [he]
      · intro y hy
        rcases List.mem_cons.mp hy with hy | hy
        · rw [hy]; exact hx
        · exact hl y hy

/-- C11, as amended: for an authenticated administrator and a path parameter
that is a well-formed identifier (24 hexadecimal digits) other than the
string form of their own: when no document has the identifier the answer is
404 `User not found` and the collection is unchanged; otherwise the answer is
200 with a message and no data, and the collection is the former one without
the document that had the identifier, every other document being kept, in its
place and unchanged. -/
theorem delete_other_record (lib : Lib) (env : Env) (db : Db) (req : Request) (admin : User)
    (oid : ObjectId)
    (hauth : authenticate lib env.now db req.authorization = Step.next admin)
    (hadmin : admin.role = "admin")
    (hcast : castObjectId req.id = some oid)
    (hne : req.id ≠ admin._id.toString) :
    ((∀ u ∈ db, u._id ≠ oid) →
        handle lib env db Route.deleteUser req = (errorResponse 404 "User not found", db))
    ∧ (∀ u, db.find? (fun x => x._id == oid) = some u →
        ∃ l1 l2, db = l1 ++ u :: l2 ∧ u._id = oid ∧ (∀ x ∈ l1, x._id ≠ oid)
          ∧ handle lib env db Route.deleteUser req
            = ({ code := 200, status := "success", message := some "User deleted successfully"
                 data := none }, l1 ++ l2)) := by
  have hroute : handle lib env db Route.deleteUser req = deleteUser db admin req.id := by
    simp [handle, adminOnly, authenticated, hauth, authorizeAdmin, hadmin]
  have hne2 : (req.id == admin._id.toString) = false := by simpa using hne
  constructor
  · intro hnone
    have hf : db.find? (fun x => x._id == oid) = none := by
      rw [List.find?_eq_none]
      intro x hx
      simpa using hnone x hx
    rw [hroute]
    simp [deleteUser, hne2, findByIdAndDelete, hcast, hf]
  · intro u hu
    obtain ⟨l1, l2, h1, he, hl⟩ := find?_eq_some_split _ db u hu
    have hpu : (u._id == oid) = true := by
      have := List.find?_some hu
      simpa using this
    refine ⟨l1, l2, h1, by simpa using hpu, ?_, ?_⟩
    · intro x hx
      simpa using hl x hx
    · rw [hroute]
      simp [deleteUser, hne2, findByIdAndDelete, hcast, hu, he]

/-- C11, as stated, fails: the administrator of `sampleDb` deletes with the
path parameter `abc`, which no document has as its identifier; the answer is
500, not 404. -/
theorem delete_malformed_id_server_error :
    (∀ u ∈ sampleDb, u._id.toString ≠ "abc")
      ∧ "abc" ≠ adminDoc._id.toString
      ∧ handle refLib (envAt 3 "64b7f3a2c9e1d4f5a6b7c8db") sampleDb Route.deleteUser
          { authorization := adminAuth, id := "abc" }
        = (errorResponse 500 "Server error deleting user", sampleDb) := by
  decide

set_option maxRecDepth 8000 in
theorem delete_other_record_witness :
    handle refLib (envAt 3 "64b7f3a2c9e1d4f5a6b7c8db") sampleDb Route.deleteUser
        { authorization := adminAuth, id := "64b7f3a2c9e1d4f5a6b7c8db" }
      = (errorResponse 404 "User not found", sampleDb)
    ∧ ∃ l1 l2, sampleDb = l1 ++ regularDoc :: l2
        ∧ regularDoc._id = ⟨"64b7f3a2c9e1d4f5a6b7c8da"⟩
        ∧ (∀ x ∈ l1, x._id ≠ ⟨"64b7f3a2c9e1d4f5a6b7c8da"⟩)
        ∧ handle refLib (envAt 3 "64b7f3a2c9e1d4f5a6b7c8db") sampleDb Route.deleteUser
            { authorization := adminAuth, id := "64b7f3a2c9e1d4f5a6b7c8da" }
          = ({ code := 200, status := "success", message := some "User deleted successfully"
               data := none }, l1 ++ l2) :=
  ⟨(delete_other_record refLib (envAt 3 "64b7f3a2c9e1d4f5a6b7c8db") sampleDb
      { authorization := adminAuth, id := "64b7f3a2c9e1d4f5a6b7c8db" }
      (selectNoPassword adminDoc) ⟨"64b7f3a2c9e1d4f5a6b7c8db"⟩ (by decide) rfl (by decide)
      (by decide)).1 (by decide),
   (delete_other_record refLib (envAt 3 "64b7f3a2c9e1d4f5a6b7c8db") sampleDb
      { authorization := adminAuth, id := "64b7f3a2c9e1d4f5a6b7c8da" }
      (selectNoPassword adminDoc) ⟨"64b7f3a2c9e1d4f5a6b7c8da"⟩ (by decide) rfl (by decide)
      (by decide)).2 regularDoc (by decide)⟩

/-! ## C12: the figures of a page -/

theorem ceilDiv_eq_ceil (N : Nat) (P : Int) (hP : 1 ≤ P) :
    ceilDiv N P = ⌈(N : ℚ) / (P : ℚ)⌉ := by
  unfold ceilDiv
  rw [Int.fdiv_eq_ediv _ (by omega)]
  obtain ⟨k, rfl⟩ := Int.eq_ofNat_of_zero_le (show 0 ≤ P by omega)
  have h1 : ⌈(N : ℚ) / (((k : ℕ) : ℤ) : ℚ)⌉ = -⌊-((N : ℚ) / (((k : ℕ) : ℤ) : ℚ))⌋ := by
    rw [Int.floor_neg, neg_neg]
  have h2 : -((N : ℚ) / (((k : ℕ) : ℤ) : ℚ)) = ((-(N : ℤ) : ℤ) : ℚ) / (k : ℚ) := by
    push_cast; ring
  rw [h1, h2, Rat.floor_intCast_div_natCast]

theorem lt_ceilDiv_iff (N : Nat) (p P : Int) (hP : 1 ≤ P) :
    p < ceilDiv N P ↔ p * P < (N : Int) := by
  rw [ceilDiv_eq_ceil N P hP, Int.lt_ceil]
  have hP' : (0 : ℚ) < (P : ℚ) := by exact_mod_cast (show (0 : ℤ) < P by omega)
  rw [lt_div_iff₀ hP']
  exact_mod_cast Iff.rfl

/-- What `getPaginatedUsers` returns when the skip is not negative. -/
theorem getPaginatedUsers_ok (db : Db) (page limit : Int) (role : Option String)
    (h : 0 ≤ (page - 1) * limit) :
    getPaginatedUsers db page limit role
      = Except.ok
          { users := (((newestFirst (matchingUsers db role)).drop ((page - 1) * limit).toNat).take
              limit.natAbs).map listed
            totalPages := ceilDiv (matchingUsers db role).length limit
            currentPage := page
            totalUsers := (matchingUsers db role).length
            hasNextPage := decide (page < ceilDiv (matchingUsers db role).length limit)
            hasPrevPage := decide (page > 1) } := by
  unfold getPaginatedUsers
  simp only [not_lt.mpr h, if_false, List.map_map]
  rfl

/-- C12: for a page `p ≥ 1` and a page size `P ≥ 1`, with `N` the number of
users matching the filter, `getPaginatedUsers` returns `totalUsers = N`,
`currentPage = p`, `totalPages = ⌈N / P⌉`, `hasPrevPage` true exactly when
`p > 1`, and `hasNextPage` true exactly when `p * P < N`, that is when the
sorted list of matching users has an element beyond the first `p * P`. -/
theorem pagination_metadata (db : Db) (role : Option String) (p P : Int)
    (hp : 1 ≤ p) (hP : 1 ≤ P) :
    ∃ r, getPaginatedUsers db p P role = Except.ok r
      ∧ r.totalUsers = (matchingUsers db role).length
      ∧ r.currentPage = p
      ∧ r.totalPages = ⌈((matchingUsers db role).length : ℚ) / (P : ℚ)⌉
      ∧ (r.hasPrevPage = true ↔ 1 < p)
      ∧ (r.hasNextPage = true ↔ p * P < ((matchingUsers db role).length : Int))
      ∧ (r.hasNextPage = true ↔
          (newestFirst (matchingUsers db role)).drop (p * P).toNat ≠ []) := by
  have hskip : 0 ≤ (p - 1) * P := Int.mul_nonneg (by omega) (by omega)
  have hnext := lt_ceilDiv_iff (matchingUsers db role).length p P hP
  refine ⟨_, getPaginatedUsers_ok db p P role hskip, rfl, rfl,
    ceilDiv_eq_ceil _ P hP, ?_, ?_, ?_⟩
  · simp
  · simpa using hnext
  · have hpos : 0 ≤ p * P := Int.mul_nonneg (by omega) (by omega)
    have hlen : (newestFirst (matchingUsers db role)).length = (matchingUsers db role).length :=
      List.length_insertionSort _ _
    simp only [decide_eq_true_eq, hnext, ne_eq, List.drop_eq_nil_iff, hlen, not_le]
    omega

theorem pagination_metadata_witness :
    ∃ r, getPaginatedUsers sampleDb 1 1 none = Except.ok r
      ∧ r.totalUsers = (matchingUsers sampleDb none).length
      ∧ r.currentPage = 1
      ∧ r.totalPages = ⌈((matchingUsers sampleDb none).length : ℚ) / ((1 : Int) : ℚ)⌉
      ∧ (r.hasPrevPage = true ↔ (1 : Int) < 1)
      ∧ (r.hasNextPage = true ↔ (1 : Int) * 1 < ((matchingUsers sampleDb none).length : Int))
      ∧ (r.hasNextPage = true ↔
          (newestFirst (matchingUsers sampleDb none)).drop ((1 : Int) * 1).toNat ≠ []) :=
  pagination_metadata sampleDb none 1 1 (by decide) (by decide)

/-! ## C13: the users of a page -/

theorem chunks_join (P : Nat) (m : Nat) (l : List User) (h : l.length ≤ m * P) :
    (List.range m).flatMap (fun k => (l.drop (k * P)).take P) = l := by
  induction m generalizing l with
  | zero =>
    have : l = [] := List.length_eq_zero.mp (by omega)
    simp [this]
  | succ m ih =>
    rw [List.range_succ_eq_map, List.flatMap_cons, List.flatMap_map]
    have hrest : (List.range m).flatMap (fun k => (l.drop (k.succ * P)).take P)
        = (List.range m).flatMap (fun k => ((l.drop P).drop (k * P)).take P) := by
      congr 1
      funext k
      simp only [List.drop_drop]
      congr 2
      rw [Nat.succ_mul]; omega
    have hlen : (l.drop P).length ≤ m * P := by
      rw [List.length_drop]
      rw [Nat.succ_mul] at h
      omega
    rw [hrest, ih (l.drop P) hlen]
    simp

theorem newestFirst_sorted (l : List User) :
    (newestFirst l).Sorted (fun a b => b.createdAt ≤ a.createdAt) := by
  haveI : IsTotal User (fun a b => b.createdAt ≤ a.createdAt) :=
    ⟨fun a b => Nat.le_total b.createdAt a.createdAt⟩
  haveI : IsTrans User (fun a b => b.createdAt ≤ a.createdAt) :=
    ⟨fun _ _ _ hab hbc => Nat.le_trans hbc hab⟩
  exact List.sorted_insertionSort _ l

theorem pageUsers_eq (db : Db) (role : Option String) (p P : Int) (hp : 1 ≤ p) (hP : 1 ≤ P) :
    pageUsers db p P role
      = (((newestFirst (matchingUsers db role)).drop ((p - 1).toNat * P.toNat)).take
          P.toNat).map listed := by
  have hskip : 0 ≤ (p - 1) * P := Int.mul_nonneg (by omega) (by omega)
  unfold pageUsers
  rw [getPaginatedUsers_ok db p P role hskip]
  have h1 : ((p - 1) * P).toNat = (p - 1).toNat * P.toNat := by
    obtain ⟨a, ha⟩ := Int.eq_ofNat_of_zero_le (show 0 ≤ p - 1 by omega)
    obtain ⟨b, hb⟩ := Int.eq_ofNat_of_zero_le (show 0 ≤ P by omega)
    rw [ha, hb, ← Int.natCast_mul]
    simp only [Int.toNat_ofNat]
  have h2 : P.natAbs = P.toNat := by omega
  simp only [h1, h2]

/-- C13: for a page `p ≥ 1` and a limit `P ≥ 1`, the users `getPaginatedUsers`
returns are the serialised documents at the positions `(p-1)*P` to `p*P - 1`
of the matching users sorted newest first: at most `P` of them, themselves
newest first, none when `p` exceeds `totalPages`; the sorted list is a
permutation of the matching users, and the pages 1 to `totalPages` put end to
end are the whole sorted list. -/
theorem page_contents (db : Db) (role : Option String) (p P : Int)
    (hp : 1 ≤ p) (hP : 1 ≤ P) :
    ∃ docs : List User,
      pageUsers db p P role = docs.map listed
      ∧ docs = ((newestFirst (matchingUsers db role)).drop ((p - 1).toNat * P.toNat)).take P.toNat
      ∧ (∀ i : Nat, i < P.toNat →
          docs[i]? = (newestFirst (matchingUsers db role))[(p - 1).toNat * P.toNat + i]?)
      ∧ docs.length ≤ P.toNat
      ∧ docs.Sorted (fun a b => b.createdAt ≤ a.createdAt)
      ∧ (ceilDiv (matchingUsers db role).length P < p → docs = [])
      ∧ (newestFirst (matchingUsers db role)).Perm (matchingUsers db role)
      ∧ (List.range (ceilDiv (matchingUsers db role).length P).toNat).flatMap
            (fun k => pageUsers db ((k : Int) + 1) P role)
          = (newestFirst (matchingUsers db role)).map listed := by
  have hlen : (newestFirst (matchingUsers db role)).length = (matchingUsers db role).length :=
    List.length_insertionSort _ _
  refine ⟨_, pageUsers_eq db role p P hp hP, rfl, ?_, ?_, ?_, ?_, ?_, ?_⟩
  · intro i hi
    rw [List.getElem?_take_of_lt hi, List.getElem?_drop]
  · exact (List.length_take_le _ _)
  · exact (newestFirst_sorted _).sublist
      ((List.take_sublist _ _).trans (List.drop_sublist _ _))
  · intro hlt
    have hnot : ¬ (p - 1 < ceilDiv (matchingUsers db role).length P) := by omega
    rw [lt_ceilDiv_iff _ _ _ hP] at hnot
    have hle : ((matchingUsers db role).length : Int) ≤ (p - 1) * P := by omega
    obtain ⟨a, ha⟩ := Int.eq_ofNat_of_zero_le (show 0 ≤ p - 1 by omega)
    obtain ⟨b, hb⟩ := Int.eq_ofNat_of_zero_le (show 0 ≤ P by omega)
    rw [ha, hb] at hle
    rw [ha, hb]
    simp only [Int.toNat_ofNat, List.take_eq_nil_iff, List.drop_eq_nil_iff, hlen]
    right
    exact_mod_cast hle
  · exact List.perm_insertionSort _ _
  · have hT0 : 0 ≤ ceilDiv (matchingUsers db role).length P := by
      have h := (lt_ceilDiv_iff (matchingUsers db role).length (-1) P hP).mpr (by omega)
      omega
    have hTP : ((matchingUsers db role).length : Int)
        ≤ ceilDiv (matchingUsers db role).length P * P := by
      have h := (lt_ceilDiv_iff (matchingUsers db role).length
        (ceilDiv (matchingUsers db role).length P) P hP).not.mp (lt_irrefl _)
      omega
    obtain ⟨T, hT⟩ := Int.eq_ofNat_of_zero_le hT0
    obtain ⟨b, hb⟩ := Int.eq_ofNat_of_zero_le (show 0 ≤ P by omega)
    have hpages : ∀ k : Nat, pageUsers db ((k : Int) + 1) P role
        = (((newestFirst (matchingUsers db role)).drop (k * b)).take b).map listed := by
      intro k
      rw [pageUsers_eq db role _ P (by omega) hP, hb]
      simp
    rw [hT, hb] at hTP
    rw [hT]
    simp only [Int.toNat_ofNat, hpages]
    rw [← List.map_flatMap, chunks_join b T _ (by rw [hlen]; exact_mod_cast hTP)]

theorem page_contents_witness :
    ∃ docs : List User,
      pageUsers sampleDb 2 1 none = docs.map listed
      ∧ docs = ((newestFirst (matchingUsers sampleDb none)).drop
          (((2 : Int) - 1).toNat * (1 : Int).toNat)).take (1 : Int).toNat
      ∧ (∀ i : Nat, i < (1 : Int).toNat →
          docs[i]? = (newestFirst (matchingUsers sampleDb none))[
            ((2 : Int) - 1).toNat * (1 : Int).toNat + i]?)
      ∧ docs.length ≤ (1 : Int).toNat
      ∧ docs.Sorted (fun a b => b.createdAt ≤ a.createdAt)
      ∧ (ceilDiv (matchingUsers sampleDb none).length 1 < 2 → docs = [])
      ∧ (newestFirst (matchingUsers sampleDb none)).Perm (matchingUsers sampleDb none)
      ∧ (List.range (ceilDiv (matchingUsers sampleDb none).length 1).toNat).flatMap
            (fun k => pageUsers sampleDb ((k : Int) + 1) 1 none)
          = (newestFirst (matchingUsers sampleDb none)).map listed :=
  page_contents sampleDb none 2 1 (by decide) (by decide)

/-! ## C14: the role filter of the list -/

theorem getAllUsers_role_valid (db : Db) (q : Query) (r : String)
    (hr : r = "admin" ∨ r = "user") :
    getAllUsers db { q with role := some r }
      = match getPaginatedUsers db (intOr q.page 1) (intOr q.limit 10) (some r) with
        | Except.error _ => errorResponse 500 "Server error getting users"
        | Except.ok result =>
          { code := 200, status := "success", message := none, data := some (Data.page result) } := by
  rcases hr with h | h <;> subst h <;> simp [getAllUsers, truthy]

theorem getAllUsers_role_ignored (db : Db) (q : Query) (r : String)
    (hr : ¬ (r = "admin" ∨ r = "user")) :
    getAllUsers db { q with role := some r } = getAllUsers db { q with role := none } := by
  simp only [not_or] at hr
  simp [getAllUsers, hr.1, hr.2]

/-- C14, as amended: in the list, a role query value `admin` or `user` makes
the page and the total count those of the users with that role; any other
value is ignored, the response being that of the same request without a role
parameter, also through the whole route; the response is 200 whenever the
skip `(page - 1) * limit` is not negative. -/
theorem list_role_filter (db : Db) (q : Query) (r : String) :
    ((r = "admin" ∨ r = "user") → 0 ≤ (intOr q.page 1 - 1) * intOr q.limit 10 →
      ∃ res docs, getAllUsers db { q with role := some r }
          = { code := 200, status := "success", message := none, data := some (Data.page res) }
        ∧ res.totalUsers = (db.filter (fun u => u.role == r)).length
        ∧ res.users = docs.map listed
        ∧ docs = ((newestFirst (db.filter (fun u => u.role == r))).drop
            ((intOr q.page 1 - 1) * intOr q.limit 10).toNat).take (intOr q.limit 10).natAbs
        ∧ ∀ u ∈ docs, u ∈ db ∧ u.role = r)
    ∧ (¬ (r = "admin" ∨ r = "user") →
        getAllUsers db { q with role := some r } = getAllUsers db { q with role := none }
        ∧ (∀ (lib : Lib) (env : Env) (req : Request),
            handle lib env db Route.listUsers { req with query := { q with role := some r } }
              = handle lib env db Route.listUsers { req with query := { q with role := none } })
        ∧ (0 ≤ (intOr q.page 1 - 1) * intOr q.limit 10 →
            (getAllUsers db { q with role := some r }).code = 200)) := by
  constructor
  · intro hr hskip
    rw [getAllUsers_role_valid db q r hr, getPaginatedUsers_ok db _ _ (some r) hskip]
    refine ⟨_, _, rfl, rfl, rfl, rfl, ?_⟩
    intro u hu
    have h1 := (List.drop_sublist _ _).subset (List.take_sublist _ _ |>.subset hu)
    have h2 : u ∈ db.filter (fun u => u.role == r) :=
      (List.perm_insertionSort _ _).subset h1
    rw [List.mem_filter] at h2
    exact ⟨h2.1, by simpa using h2.2⟩
  · intro hr
    have heq := getAllUsers_role_ignored db q r hr
    refine ⟨heq, ?_, ?_⟩
    · intro lib env req
      simp only [handle, heq]
      rfl
    · intro hskip
      rw [heq]
      simp only [getAllUsers, truthy]
      rw [getPaginatedUsers_ok db _ _ none hskip]

/-- C14, as stated, fails: the administrator lists with `role=manager` and
`page=-1`; the answer is 500, as for the same request without the role. -/
theorem list_bad_role_negative_page :
    handle refLib (envAt 3 "64b7f3a2c9e1d4f5a6b7c8db") sampleDb Route.listUsers
        { authorization := adminAuth, query := { page := some (-1), role := some "manager" } }
      = (errorResponse 500 "Server error getting users", sampleDb)
    ∧ handle refLib (envAt 3 "64b7f3a2c9e1d4f5a6b7c8db") sampleDb Route.listUsers
        { authorization := adminAuth, query := { page := some (-1) } }
      = (errorResponse 500 "Server error getting users", sampleDb) := by
  decide

theorem list_role_filter_witness :
    (∃ res docs, getAllUsers sampleDb { role := some "admin" }
          = { code := 200, status := "success", message := none, data := some (Data.page res) }
        ∧ res.totalUsers = (sampleDb.filter (fun u => u.role == "admin")).length
        ∧ res.users = docs.map listed
        ∧ docs = ((newestFirst (sampleDb.filter (fun u => u.role == "admin"))).drop
            ((intOr none 1 - 1) * intOr none 10).toNat).take (intOr none 10).natAbs
        ∧ ∀ u ∈ docs, u ∈ sampleDb ∧ u.role = "admin")
    ∧ getAllUsers sampleDb { role := some "manager" } = getAllUsers sampleDb { role := none } :=
  ⟨(list_role_filter sampleDb {} "admin").1 (Or.inl rfl) (by decide),
   ((list_role_filter sampleDb {} "manager").2 (by decide)).1⟩

/-! ## C15: the list by role -/

theorem getUsersByRole_invalid (db : Db) (role : String) (q : Query)
    (h : ¬ (role = "admin" ∨ role = "user")) :
    getUsersByRole db role q = errorResponse 400 "Invalid role. Must be either admin or user" := by
  simp only [not_or] at h
  simp [getUsersByRole, h.1, h.2]

theorem getUsersByRole_valid (db : Db) (role : String) (q : Query)
    (h : role = "admin" ∨ role = "user") :
    getUsersByRole db role q
      = match getPaginatedUsers db (intOr q.page 1) (intOr q.limit 10) (some role) with
        | Except.error _ => errorResponse 500 "Server error getting users by role"
        | Except.ok result =>
          { code := 200, status := "success", message := none, data := some (Data.page result) } := by
  rcases h with h | h <;> subst h <;> simp [getUsersByRole]

/-- C15: `getUsersByRole` answers 400 `Invalid role. Must be either admin or
user` exactly when the path role is neither `admin` nor `user`, and then
whatever the collection is; for a role `admin` or `user` the data of its
response are the data of the response of the list for the query `role` equal
to it with the same page and limit, for the handlers and for the two routes. -/
theorem users_by_role_policy (db : Db) (role : String) (q : Query) :
    (getUsersByRole db role q = errorResponse 400 "Invalid role. Must be either admin or user"
        ↔ ¬ (role = "admin" ∨ role = "user"))
    ∧ (¬ (role = "admin" ∨ role = "user") → ∀ db1 : Db,
        getUsersByRole db1 role q
          = errorResponse 400 "Invalid role. Must be either admin or user")
    ∧ ((role = "admin" ∨ role = "user") →
        (getUsersByRole db role q).data = (getAllUsers db { q with role := some role }).data
        ∧ ∀ (lib : Lib) (env : Env) (req : Request),
            (handle lib env db Route.usersByRole { req with role := role, query := q }).1.data
              = (handle lib env db Route.listUsers
                  { req with query := { q with role := some role } }).1.data) := by
  have hdata : (role = "admin" ∨ role = "user") →
      (getUsersByRole db role q).data = (getAllUsers db { q with role := some role }).data := by
    intro h
    rw [getUsersByRole_valid db role q h, getAllUsers_role_valid db q role h]
    cases getPaginatedUsers db (intOr q.page 1) (intOr q.limit 10) (some role) <;> rfl
  refine ⟨⟨?_, getUsersByRole_invalid db role q⟩, fun h db1 => getUsersByRole_invalid db1 role q h,
    fun h => ⟨hdata h, ?_⟩⟩
  · intro h hvalid
    rw [getUsersByRole_valid db role q hvalid] at h
    cases hp : getPaginatedUsers db (intOr q.page 1) (intOr q.limit 10) (some role) with
    | error e =>
      rw [hp] at h
      have := congrArg Response.code h
      simp [errorResponse] at this
    | ok res =>
      rw [hp] at h
      have := congrArg Response.code h
      simp [errorResponse] at this
  · intro lib env req
    simp only [handle, adminOnly, authenticated]
    cases authenticate lib env.now db req.authorization with
    | respond r => rfl
    | next user =>
      simp only
      cases authorizeAdmin user with
      | some r => rfl
      | none => exact hdata h

set_option maxRecDepth 8000 in
theorem users_by_role_policy_witness :
    getUsersByRole sampleDb "invalid" {}
        = errorResponse 400 "Invalid role. Must be either admin or user"
      ∧ (getUsersByRole sampleDb "admin" {}).data
        = (getAllUsers sampleDb { role := some "admin" }).data :=
  ⟨(users_by_role_policy sampleDb "invalid" {}).1.mpr (by decide),
   ((users_by_role_policy sampleDb "admin" {}).2.2 (Or.inl rfl)).1⟩

/-! ## C16: the message of the validation middleware -/

/-- The middleware answers with the first violation of the schema. -/
theorem validate_first (schema : Body → List String) (b : Body) (m : String)
    (rest : List String) (h : schema b = m :: rest) :
    validate schema b = some (errorResponse 400 m) := by
  simp [validate, details, h, String.intercalate, String.intercalate.go]

/-- C16 at the failing input: a registration body without `lastName` and
`password` violates the schema twice; the middleware answers 400 before the
handler, the collection is unchanged, and the message is that of the first
violation alone. -/
theorem validation_reports_first_violation_only :
    userRegistrationSchema refLib twoMissing
        = ["\"lastName\" is required", "\"password\" is required"]
      ∧ handle refLib (envAt 3 "64b7f3a2c9e1d4f5a6b7c8db") sampleDb Route.register
          { body := twoMissing }
        = (errorResponse 400 "\"lastName\" is required", sampleDb) := by
  decide

/-! ## C17: what the registration and login schemas reject -/

theorem validate_of_ne_nil (schema : Body → List String) (b : Body) (h : schema b ≠ []) :
    ∃ msg, validate schema b = some (errorResponse 400 msg) := by
  cases hs : schema b with
  | nil => exact absurd hs h
  | cons m rest => exact ⟨m, validate_first schema b m rest hs⟩

/-- C17: the registration schema rejects with 400 every body in which
`firstName`, `lastName`, `email` or `password` is missing, or the password has
fewer than 6 characters, or `firstName` or `lastName` is, once trimmed, empty
or longer than 50 characters, or `role` is present and neither `admin` nor
`user`; the login schema rejects with 400 every body without `email` or
`password`.  The routes `register` and `login` then return that response and
the collection unchanged, and so does the chain link before any handler. -/
theorem schemas_reject (lib : Lib) (b : Body) :
    ((b.firstName = none ∨ b.lastName = none ∨ b.email = none ∨ b.password = none
        ∨ (∃ p, b.password = some p ∧ strLength p < 6)
        ∨ (∃ f, b.firstName = some f ∧ (trim f = "" ∨ 50 < strLength (trim f)))
        ∨ (∃ l, b.lastName = some l ∧ (trim l = "" ∨ 50 < strLength (trim l)))
        ∨ (∃ r, b.role = some r ∧ r ≠ "admin" ∧ r ≠ "user")) →
      ∃ msg, validate (userRegistrationSchema lib) b = some (errorResponse 400 msg)
        ∧ (∀ (db : Db) (req : Request) (handler : Response × Db), req.body = b →
            validated (userRegistrationSchema lib) db req handler = (errorResponse 400 msg, db))
        ∧ (∀ (env : Env) (db : Db) (req : Request), req.body = b →
            handle lib env db Route.register req = (errorResponse 400 msg, db)))
    ∧ ((b.email = none ∨ b.password = none) →
      ∃ msg, validate (loginSchema lib) b = some (errorResponse 400 msg)
        ∧ (∀ (db : Db) (req : Request) (handler : Response × Db), req.body = b →
            validated (loginSchema lib) db req handler = (errorResponse 400 msg, db))
        ∧ (∀ (env : Env) (db : Db) (req : Request), req.body = b →
            handle lib env db Route.login req = (errorResponse 400 msg, db))) := by
  constructor
  · intro hbad
    have hne : userRegistrationSchema lib b ≠ [] := by
      intro hnil
      obtain ⟨⟨f, hf, hf1, hf2⟩, -, ⟨l, hl, hl1, hl2⟩, ⟨e, he, -, -⟩, ⟨p, hp, -, hp2⟩, -, hr⟩ :=
        userRegistrationSchema_ok lib b hnil
      rcases hbad with h | h | h | h | ⟨q, hq, hq6⟩ | ⟨g, hg, hg1⟩ | ⟨k, hk, hk1⟩ | ⟨r, hr1, hr2, hr3⟩
      · rw [hf] at h; exact Option.noConfusion h
      · rw [hl] at h; exact Option.noConfusion h
      · rw [he] at h; exact Option.noConfusion h
      · rw [hp] at h; exact Option.noConfusion h
      · rw [hp] at hq; cases hq; omega
      · rw [hf] at hg; cases hg
        rcases hg1 with h | h
        · exact hf1 h
        · omega
      · rw [hl] at hk; cases hk
        rcases hk1 with h | h
        · exact hl1 h
        · omega
      · rcases hr with h | h | h <;> rw [hr1] at h
        · exact Option.noConfusion h
        · exact hr2 (Option.some.inj h)
        · exact hr3 (Option.some.inj h)
    obtain ⟨msg, hmsg⟩ := validate_of_ne_nil _ b hne
    refine ⟨msg, hmsg, ?_, ?_⟩
    · intro db req handler hreq
      simp only [validated, hreq, hmsg]
    · intro env db req hreq
      simp only [handle, validated, hreq, hmsg]
  · intro hbad
    have hne : loginSchema lib b ≠ [] := by
      intro hnil
      obtain ⟨e, p, he, hp, -⟩ := loginSchema_ok lib b hnil
      rcases hbad with h | h
      · rw [he] at h; exact Option.noConfusion h
      · rw [hp] at h; exact Option.noConfusion h
    obtain ⟨msg, hmsg⟩ := validate_of_ne_nil _ b hne
    refine ⟨msg, hmsg, ?_, ?_⟩
    · intro db req handler hreq
      simp only [validated, hreq, hmsg]
    · intro env db req hreq
      simp only [handle, validated, hreq, hmsg]

theorem schemas_reject_witness :
    (∃ msg, validate (userRegistrationSchema refLib) { johnBody with password := some "123" }
          = some (errorResponse 400 msg)
        ∧ (∀ (db : Db) (req : Request) (handler : Response × Db),
            req.body = { johnBody with password := some "123" } →
            validated (userRegistrationSchema refLib) db req handler
              = (errorResponse 400 msg, db))
        ∧ (∀ (env : Env) (db : Db) (req : Request),
            req.body = { johnBody with password := some "123" } →
            handle refLib env db Route.register req = (errorResponse 400 msg, db)))
    ∧ validate (userRegistrationSchema refLib) { johnBody with password := some "123" }
        = some (errorResponse 400 "Password must be at least 6 characters long") :=
  ⟨(schemas_reject refLib { johnBody with password := some "123" }).1
      (Or.inr (Or.inr (Or.inr (Or.inr (Or.inl ⟨"123", rfl, by decide⟩))))),
   by decide⟩

/-! ## C18: the place of validation in the chains -/

/-- C18, as amended: on the public routes `login` and `register` validation
comes first.  On `POST /users` and `PUT /users/:id` authentication and
authorization come before validation: when `authenticate` answers itself
(no token, invalid token) the route returns that response whatever the body
is; an authenticated user who is not allowed gets 403 whatever the body is;
the response of the validation middleware is returned only for a request that
is authenticated and authorized.  The collection is unchanged in each case. -/
theorem validation_after_authorization (lib : Lib) (env : Env) (db : Db) (req : Request) :
    (∀ r, authenticate lib env.now db req.authorization = Step.respond r →
        handle lib env db Route.createUser req = (r, db)
        ∧ handle lib env db Route.updateUser req = (r, db))
    ∧ (∀ user, authenticate lib env.now db req.authorization = Step.next user →
        (user.role ≠ "admin" →
          handle lib env db Route.createUser req
            = (errorResponse 403 "Access denied. Admin privileges required.", db))
        ∧ (user.role ≠ "admin" → req.id ≠ user._id.toString →
          handle lib env db Route.updateUser req
            = (errorResponse 403 "Access denied. You can only access your own profile.", db))
        ∧ (user.role = "admin" → ∀ r,
            validate (userRegistrationSchema lib) req.body = some r →
            handle lib env db Route.createUser req = (r, db))
        ∧ ((user.role = "admin" ∨ req.id = user._id.toString) → ∀ r,
            validate (userUpdateSchema lib) req.body = some r →
            handle lib env db Route.updateUser req = (r, db)))
    ∧ (∀ r, validate (loginSchema lib) req.body = some r →
        handle lib env db Route.login req = (r, db))
    ∧ (∀ r, validate (userRegistrationSchema lib) req.body = some r →
        handle lib env db Route.register req = (r, db)) := by
  refine ⟨?_, ?_, ?_, ?_⟩
  · intro r hr
    simp only [handle, adminOnly, selfOrAdmin, authenticated, hr, and_self]
  · intro user hu
    refine ⟨?_, ?_, ?_, ?_⟩
    · intro hrole
      simp [handle, adminOnly, authenticated, hu, authorizeAdmin, hrole]
    · intro hrole hid
      simp [handle, selfOrAdmin, authenticated, hu, authorizeProfileAccess, hrole, hid]
    · intro hrole r hv
      simp [handle, adminOnly, authenticated, hu, authorizeAdmin, hrole, validated, hv]
    · intro hallowed r hv
      rcases authorizeProfileAccess_cases user req.id with ⟨ha, -⟩ | ⟨-, hn⟩
      · simp only [handle, selfOrAdmin, authenticated, hu, ha, validated, hv]
      · exact absurd hallowed hn
  · intro r hv
    simp only [handle, validated, hv]
  · intro r hv
    simp only [handle, validated, hv]

/-- C18, as stated, fails: `POST /users` and `PUT /users/:id` without a token
and with an empty body, which violates the registration schema, are answered
401, not with the 400 of the validation; as a user who is not an administrator,
`POST /users` with that body is answered 403. -/
theorem invalid_body_without_token_unauthorized :
    userRegistrationSchema refLib {} ≠ []
      ∧ userUpdateSchema refLib { firstName := some "" } ≠ []
      ∧ handle refLib (envAt 3 "64b7f3a2c9e1d4f5a6b7c8db") sampleDb Route.createUser {}
        = (errorResponse 401 "Access denied. No token provided or invalid format.", sampleDb)
      ∧ handle refLib (envAt 3 "64b7f3a2c9e1d4f5a6b7c8db") sampleDb Route.updateUser
          { id := "64b7f3a2c9e1d4f5a6b7c8da", body := { firstName := some "" } }
        = (errorResponse 401 "Access denied. No token provided or invalid format.", sampleDb)
      ∧ handle refLib (envAt 3 "64b7f3a2c9e1d4f5a6b7c8db") sampleDb Route.createUser
          { authorization := regularAuth }
        = (errorResponse 403 "Access denied. Admin privileges required.", sampleDb) := by
  decide

set_option maxRecDepth 8000 in
theorem validation_after_authorization_witness :
    handle refLib (envAt 3 "64b7f3a2c9e1d4f5a6b7c8db") sampleDb Route.createUser
        { authorization := adminAuth }
      = (errorResponse 400 "\"firstName\" is required", sampleDb)
    ∧ handle refLib (envAt 3 "64b7f3a2c9e1d4f5a6b7c8db") sampleDb Route.createUser {}
      = (errorResponse 401 "Access denied. No token provided or invalid format.", sampleDb) :=
  ⟨((validation_after_authorization refLib (envAt 3 "64b7f3a2c9e1d4f5a6b7c8db") sampleDb
      { authorization := adminAuth }).2.1 (selectNoPassword adminDoc) (by decide)).2.2.1 rfl
      _ (by decide),
   ((validation_after_authorization refLib (envAt 3 "64b7f3a2c9e1d4f5a6b7c8db") sampleDb
      {}).1 _ (by decide)).1⟩

/-! ## C19: the decisions of `authenticate` -/

theorem toNat_ofNat_small (n : Nat) (h : n < 55296) : (Char.ofNat n).toNat = n := by
  have hv : n.isValidChar := Or.inl h
  unfold Char.ofNat
  rw [dif_pos hv]
  rfl

theorem toLower_of_lower_hex (c : Char)
    (h : ((48 ≤ c.toNat && c.toNat ≤ 57) || (97 ≤ c.toNat && c.toNat ≤ 102)) = true) :
    Char.toLower c = c := by
  unfold Char.toLower
  simp only [Bool.or_eq_true, Bool.and_eq_true, decide_eq_true_eq] at h
  have : ¬ (c.toNat ≥ 65 ∧ c.toNat ≤ 90) := by omega
  simp [this]

/-- The string form of a well-formed identifier casts back to it: the token
`generateToken` signs for a stored user designates that user. -/
theorem castObjectId_toString (o : ObjectId) (h : o.wellFormed = true) :
    castObjectId o.toString = some o := by
  unfold ObjectId.wellFormed at h
  simp only [Bool.and_eq_true, beq_iff_eq, List.all_eq_true] at h
  obtain ⟨hlen, hall⟩ := h
  have hhex : o.hex.data.all isHexChar = true := by
    rw [List.all_eq_true]
    intro c hc
    have := hall c hc
    simp only [Bool.or_eq_true, Bool.and_eq_true, decide_eq_true_eq] at this
    simp only [isHexChar, Bool.or_eq_true, Bool.and_eq_true, decide_eq_true_eq]
    omega
  have hlow : lowerAscii o.hex = o.hex := by
    unfold lowerAscii
    have hmap : o.hex.data.map Char.toLower = o.hex.data := by
      conv_rhs => rw [← List.map_id o.hex.data]
      apply List.map_congr_left
      intro c hc
      exact toLower_of_lower_hex c (hall c hc)
    rw [hmap]
  simp only [castObjectId, ObjectId.toString, hlen, beq_self_eq_true, hhex, Bool.and_self,
    if_true, hlow]

/-- C19: `authenticate` answers 401 `Access denied. No token provided or
invalid format.` when the header is absent or does not start with `Bearer `,
401 `Invalid token.` when the verification of the token throws a
`JsonWebTokenError`, 401 `Token has expired.` when it throws a
`TokenExpiredError`, 401 `Token is valid but user not found.` when the token
verifies and no document has the identifier it embeds; when a document has
it, `next()` is called with that document without its password.  In the four
failures a chain returns the 401 response and the collection unchanged
whatever handler follows. -/
theorem authenticate_decisions (lib : Lib) (env : Env) (db : Db) (req : Request) :
    ((req.authorization = none
        ∨ ∃ h, req.authorization = some h ∧ startsWith h "Bearer " = false) →
      authenticate lib env.now db req.authorization
        = Step.respond (errorResponse 401 "Access denied. No token provided or invalid format."))
    ∧ (∀ h, req.authorization = some h → startsWith h "Bearer " = true →
        (lib.verify (substring h 7) env.now = JwtResult.jsonWebTokenError →
          authenticate lib env.now db req.authorization
            = Step.respond (errorResponse 401 "Invalid token."))
        ∧ (lib.verify (substring h 7) env.now = JwtResult.tokenExpiredError →
          authenticate lib env.now db req.authorization
            = Step.respond (errorResponse 401 "Token has expired."))
        ∧ (∀ userId oid, lib.verify (substring h 7) env.now = JwtResult.ok userId →
            castObjectId userId = some oid →
            ((∀ u ∈ db, u._id ≠ oid) →
              authenticate lib env.now db req.authorization
                = Step.respond (errorResponse 401 "Token is valid but user not found."))
            ∧ (∀ u, db.find? (fun x => x._id == oid) = some u →
              authenticate lib env.now db req.authorization
                = Step.next (selectNoPassword u)
              ∧ (selectNoPassword u).password = none
              ∧ (selectNoPassword u).toObject = u.toObject.delete "password")))
    ∧ (∀ (r : Response) (handler : User → Response × Db),
        authenticate lib env.now db req.authorization = Step.respond r →
        authenticated lib env db req handler = (r, db)
        ∧ adminOnly lib env db req handler = (r, db)
        ∧ selfOrAdmin lib env db req handler = (r, db)) := by
  refine ⟨?_, ?_, ?_⟩
  · intro h
    rcases h with h | ⟨t, ht, hb⟩
    · rw [h]; rfl
    · rw [ht]; simp [authenticate, hb]
  · intro h hh hb
    rw [hh]
    refine ⟨?_, ?_, ?_⟩
    · intro hv; simp [authenticate, hb, hv]
    · intro hv; simp [authenticate, hb, hv]
    · intro userId oid hv hcast
      constructor
      · intro hnone
        have hf : db.find? (fun x => x._id == oid) = none := by
          rw [List.find?_eq_none]
          intro x hx
          simpa using hnone x hx
        simp [authenticate, hb, hv, findById, hcast, hf]
      · intro u hu
        refine ⟨by simp [authenticate, hb, hv, findById, hcast, hu], rfl, ?_⟩
        simp only [User.toObject, selectNoPassword, optKey, Obj.delete, fullName]
        cases u.middleName <;> cases u.department <;> cases u.password <;>
          simp [optKey, List.filter_cons]
  · intro r handler hr
    simp only [authenticated, adminOnly, selfOrAdmin, hr, and_self]

set_option maxRecDepth 8000 in
theorem authenticate_decisions_witness :
    authenticate refLib 3 sampleDb none
        = Step.respond (errorResponse 401 "Access denied. No token provided or invalid format.")
      ∧ authenticate refLib 3 sampleDb (some "Bearer invalid-token")
        = Step.respond (errorResponse 401 "Invalid token.")
      ∧ authenticate refLib 30 sampleDb regularAuth
        = Step.respond (errorResponse 401 "Token has expired.")
      ∧ authenticate refLib 3 sampleDb (some "Bearer ||.64b7f3a2c9e1d4f5a6b7c8db")
        = Step.respond (errorResponse 401 "Token is valid but user not found.")
      ∧ authenticate refLib 3 sampleDb regularAuth = Step.next (selectNoPassword regularDoc) :=
  ⟨(authenticate_decisions refLib (envAt 3 "64b7f3a2c9e1d4f5a6b7c8db") sampleDb {}).1
      (Or.inl rfl),
   ((authenticate_decisions refLib (envAt 3 "64b7f3a2c9e1d4f5a6b7c8db") sampleDb
      { authorization := some "Bearer invalid-token" }).2.1 _ rfl (by decide)).1 (by decide),
   ((authenticate_decisions refLib (envAt 30 "64b7f3a2c9e1d4f5a6b7c8db") sampleDb
      { authorization := regularAuth }).2.1 _ rfl (by decide)).2.1 (by decide),
   (((authenticate_decisions refLib (envAt 3 "64b7f3a2c9e1d4f5a6b7c8db") sampleDb
      { authorization := some "Bearer ||.64b7f3a2c9e1d4f5a6b7c8db" }).2.1 _ rfl
        (by decide)).2.2 "64b7f3a2c9e1d4f5a6b7c8db" ⟨"64b7f3a2c9e1d4f5a6b7c8db"⟩ (by decide)
        (by decide)).1 (by decide),
   ((((authenticate_decisions refLib (envAt 3 "64b7f3a2c9e1d4f5a6b7c8db") sampleDb
      { authorization := regularAuth }).2.1 _ rfl
        (by decide)).2.2 "64b7f3a2c9e1d4f5a6b7c8da" ⟨"64b7f3a2c9e1d4f5a6b7c8da"⟩ (by decide)
        (by decide)).2 regularDoc (by decide)).1⟩

/-! ## C20: the address in an update -/

theorem stripRole_email (user : User) (body : Body) :
    (stripRole user body).email = body.email := by
  unfold stripRole; split <;> rfl

theorem toLower_toLower (c : Char) : Char.toLower (Char.toLower c) = Char.toLower c := by
  unfold Char.toLower
  simp only
  split
  · rw [toNat_ofNat_small _ (by omega)]
    split
    · omega
    · rfl
  · rename_i h
    simp [h]

theorem lowerAscii_idem (s : String) : lowerAscii (lowerAscii s) = lowerAscii s := by
  unfold lowerAscii
  simp only [List.map_map]
  congr 1
  apply List.map_congr_left
  intro c _
  exact toLower_toLower c

theorem create_email (lib : Lib) (env : Env) (db db1 : Db) (data : Body) (u : User)
    (h : create lib env db data = Except.ok (u, db1)) : ∃ e, u.email = toLowerCase lib e := by
  unfold create at h
  simp only at h
  split at h
  · simp at h
  · split at h
    · rename_i f l e p r hf hl he hp hr
      split at h
      · simp at h
      · simp only [Except.ok.injEq, Prod.mk.injEq] at h
        obtain ⟨h1, -⟩ := h
        subst h1
        simp only [applySetters] at he
        cases hd : data.email with
        | none => rw [hd] at he; simp at he
        | some e0 =>
          rw [hd] at he
          simp only [Option.map_some', Option.some.injEq] at he
          exact ⟨e0, he.symm⟩
    · simp at h

/-- The requests keep the stored addresses in lowercase, lowering being
idempotent. -/
theorem lowercaseEmails_storeStep (lib : Lib) (env : Env) (db db1 : Db)
    (hidem : ∀ s, toLowerCase lib (toLowerCase lib s) = toLowerCase lib s)
    (h : StoreStep lib env db db1) (hdb : LowercaseEmails lib db) : LowercaseEmails lib db1 := by
  rcases h with h | ⟨data, u, h⟩ | ⟨id, upd, v, h⟩ | ⟨id, u, h⟩
  · rw [h]; exact hdb
  · obtain ⟨e, he⟩ := create_email lib env db db1 data u h
    obtain ⟨h1, -⟩ := create_shape lib env db db1 data u h
    rw [h1]
    intro x hx
    rcases List.mem_append.mp hx with hx | hx
    · exact hdb x hx
    · rw [List.mem_singleton.mp hx, he, hidem]
  · obtain ⟨oid, u, -, hu, -, hv, -, h1⟩ := findByIdAndUpdate_ok lib env db db1 id upd v h
    rw [h1]
    intro x hx
    rcases mem_replaceFirst _ v x db hx with hx | hx
    · rw [hx, hv]
      simp only [applyUpdate, applySetters]
      cases upd.email with
      | none => exact hdb u (List.mem_of_find?_eq_some hu)
      | some e => simp [hidem]
    · exact hdb x hx
  · obtain ⟨oid, -, -, h1⟩ := findByIdAndDelete_ok db db1 id u h
    rw [h1]
    intro x hx
    exact hdb x (List.mem_of_mem_erase hx)

theorem lowercaseEmails_run (lib : Lib) (reqs : List (Env × Route × Request)) (db : Db)
    (hidem : ∀ s, toLowerCase lib (toLowerCase lib s) = toLowerCase lib s)
    (hdb : LowercaseEmails lib db) : LowercaseEmails lib (run lib db reqs) := by
  induction reqs generalizing db with
  | nil => exact hdb
  | cons x rest ih =>
    obtain ⟨env, route, req⟩ := x
    exact ih _ (lowercaseEmails_storeStep lib env db _ hidem
      (handle_storeStep lib env db route req) hdb)

/-- When the path parameter casts to an identifier and the payload has a
non-empty address, `updateUser` answers 400 `Email already exists` exactly
when a document with another identifier holds the lowercase address. -/
theorem updateUser_conflict_iff (lib : Lib) (env : Env) (db : Db) (user : User) (id : String)
    (body : Body) (e : String) (oid : ObjectId)
    (hcast : castObjectId id = some oid) (he : body.email = some e) (hne : e ≠ "") :
    (updateUser lib env db user id body).1 = errorResponse 400 "Email already exists"
      ↔ ∃ u ∈ db, u._id ≠ oid ∧ u.email = toLowerCase lib e := by
  have hse : (stripRole user body).email = some e := by rw [stripRole_email, he]
  have htr : truthy (some e) = true := by simpa [truthy] using hne
  unfold updateUser
  simp only [hse, htr, if_true, findOtherByEmail, hcast]
  cases hf : db.find? (fun u => u.email == toLowerCase lib e && u._id != oid) with
  | some w =>
    simp only [true_iff]
    have hw := List.find?_some hf
    have hmem := List.mem_of_find?_eq_some hf
    simp only [Bool.and_eq_true, beq_iff_eq, bne_iff_ne, ne_eq] at hw
    exact ⟨w, hmem, hw.2, hw.1⟩
  | none =>
    rw [List.find?_eq_none] at hf
    have hno : ¬ ∃ u ∈ db, u._id ≠ oid ∧ u.email = toLowerCase lib e := by
      rintro ⟨u, hu, h1, h2⟩
      have := hf u hu
      simp [h1, h2] at this
    simp only [hno, iff_false]
    intro h
    have hc := congrArg Response.code h
    have hm := congrArg Response.message h
    split at hc
    · simp [errorResponse] at hc
    · simp [errorResponse] at hc
    · simp [errorResponse] at hc

/-- C20, as amended: for an update request whose path parameter is a
well-formed identifier and whose payload has a (non-empty) address, on a
collection whose addresses are in lowercase: the answer is 400 `Email already
exists`, with the collection unchanged, exactly when a document with another
identifier has that address up to letter case; when the addresses are
distinct, a payload carrying the current address of the target, in any letter
case, is not answered so. -/
theorem update_email_conflict (lib : Lib) (env : Env) (db : Db) (user : User) (id : String)
    (body : Body) (e : String) (oid : ObjectId)
    (hcast : castObjectId id = some oid) (he : body.email = some e) (hne : e ≠ "")
    (hlow : LowercaseEmails lib db) :
    (updateUser lib env db user id body = (errorResponse 400 "Email already exists", db)
        ↔ ∃ u ∈ db, u._id ≠ oid ∧ toLowerCase lib u.email = toLowerCase lib e)
    ∧ ((updateUser lib env db user id body).1 = errorResponse 400 "Email already exists" →
        (updateUser lib env db user id body).2 = db)
    ∧ (UniqueEmails db → ∀ t, db.find? (fun x => x._id == oid) = some t →
        toLowerCase lib e = toLowerCase lib t.email →
        (updateUser lib env db user id body).1 ≠ errorResponse 400 "Email already exists") := by
  have hiff := updateUser_conflict_iff lib env db user id body e oid hcast he hne
  have hdb : (updateUser lib env db user id body).1 = errorResponse 400 "Email already exists" →
      (updateUser lib env db user id body).2 = db := by
    intro h
    cases hres : updateUser lib env db user id body with
    | mk r db1 =>
      rw [hres] at h
      simp only at h
      exact updateUser_not_ok lib env db db1 user id body r hres (by rw [h]; simp [errorResponse])
  refine ⟨?_, hdb, ?_⟩
  · constructor
    · intro h
      obtain ⟨u, hu, h1, h2⟩ := hiff.mp (by rw [h])
      exact ⟨u, hu, h1, by rw [hlow u hu, h2]⟩
    · rintro ⟨u, hu, h1, h2⟩
      have h1st := hiff.mpr ⟨u, hu, h1, by rw [← hlow u hu, h2]⟩
      exact Prod.ext h1st (hdb h1st)
  · intro huniq t ht hte h
    obtain ⟨u, hu, h1, h2⟩ := hiff.mp h
    have htm := List.mem_of_find?_eq_some ht
    have hti : (t._id == oid) = true := by
      have := List.find?_some ht
      simpa using this
    have hemail : u.email = t.email := by
      rw [h2, hte, hlow t htm]
    have hut : u = t := List.inj_on_of_nodup_map huniq hu htm hemail
    apply h1
    rw [hut]
    simpa using hti

/-- C20, as stated, fails: the administrator updates under the path parameter
`abc` with the address of the regular user; a document that is not the target
has the address, yet the answer is 500, not 400. -/
theorem update_malformed_id_server_error :
    regularDoc ∈ sampleDb ∧ regularDoc.email = toLowerCase refLib "User@Example.com"
      ∧ regularDoc._id.toString ≠ "abc"
      ∧ userUpdateSchema refLib { email := some "User@Example.com" } = []
      ∧ handle refLib (envAt 3 "64b7f3a2c9e1d4f5a6b7c8db") sampleDb Route.updateUser
          { authorization := adminAuth, id := "abc", body := { email := some "User@Example.com" } }
        = (errorResponse 500 "Server error updating user", sampleDb) := by
  decide

set_option maxRecDepth 8000 in
theorem update_email_conflict_witness :
    (updateUser refLib (envAt 3 "64b7f3a2c9e1d4f5a6b7c8db") sampleDb adminDoc
          "64b7f3a2c9e1d4f5a6b7c8da" { email := some "Admin@Example.com" }
        = (errorResponse 400 "Email already exists", sampleDb))
    ∧ (updateUser refLib (envAt 3 "64b7f3a2c9e1d4f5a6b7c8db") sampleDb adminDoc
          "64b7f3a2c9e1d4f5a6b7c8da" { email := some "USER@example.com" }).1
        ≠ errorResponse 400 "Email already exists"
    ∧ (updateUser refLib (envAt 3 "64b7f3a2c9e1d4f5a6b7c8db") kimDb adminDoc
          "64b7f3a2c9e1d4f5a6b7c8d9" { email := some kelvinAddress }
        = (errorResponse 400 "Email already exists", kimDb)) :=
  ⟨(update_email_conflict refLib (envAt 3 "64b7f3a2c9e1d4f5a6b7c8db") sampleDb adminDoc
      "64b7f3a2c9e1d4f5a6b7c8da" { email := some "Admin@Example.com" } "Admin@Example.com"
      ⟨"64b7f3a2c9e1d4f5a6b7c8da"⟩ (by decide) rfl (by decide)
      (show ∀ u ∈ sampleDb, toLowerCase refLib u.email = u.email by decide)).1.mpr
      ⟨adminDoc, by decide, by decide, by decide⟩,
   (update_email_conflict refLib (envAt 3 "64b7f3a2c9e1d4f5a6b7c8db") sampleDb adminDoc
      "64b7f3a2c9e1d4f5a6b7c8da" { email := some "USER@example.com" } "USER@example.com"
      ⟨"64b7f3a2c9e1d4f5a6b7c8da"⟩ (by decide) rfl (by decide)
      (show ∀ u ∈ sampleDb, toLowerCase refLib u.email = u.email by decide)).2.2
      (show (sampleDb.map (fun u => u.email)).Nodup by decide)
      regularDoc (by decide) (by decide),
   (update_email_conflict refLib (envAt 3 "64b7f3a2c9e1d4f5a6b7c8db") kimDb adminDoc
      "64b7f3a2c9e1d4f5a6b7c8d9" { email := some kelvinAddress } kelvinAddress
      ⟨"64b7f3a2c9e1d4f5a6b7c8d9"⟩ (by decide) rfl (by decide)
      (show ∀ u ∈ kimDb, toLowerCase refLib u.email = u.email by decide)).1.mpr
      ⟨kimDoc, by decide, by decide, by decide⟩⟩

/-! ## C21: an update is partial -/

theorem replaceFirst_split (p : User → Bool) (v u : User) (l1 l2 : List User)
    (hl : ∀ x ∈ l1, p x = false) (hu : p u = true) :
    replaceFirst p v (l1 ++ u :: l2) = l1 ++ v :: l2 := by
  induction l1 with
  | nil => simp [replaceFirst, hu]
  | cons x xs ih =>
    have hx : p x = false := hl x (List.mem_cons_self _ _)
    have hxs : ∀ y ∈ xs, p y = false := fun y hy => hl y (List.mem_cons_of_mem _ hy)
    simp [replaceFirst, hx, ih hxs]

theorem textErrors_plain_ok (label emptyMsg maxMsg : String) (max : Nat)
    (v : Option String) (h : textErrors label emptyMsg maxMsg max false false v = []) :
    pathOk true (maxlengthOk max) (v.map trim) = true := by
  unfold textErrors at h
  cases v with
  | none => rfl
  | some s =>
    by_cases h0 : trim s = ""
    · simp [h0] at h
    · by_cases hm : max < strLength (trim s)
      · simp [h0, hm] at h
      · simp [pathOk, requiredOk, maxlengthOk, h0, Nat.le_of_not_lt hm]

theorem pathOk_optional (check : Option String → Bool) (v : Option String)
    (h : check v = true) : pathOk false check v = true := by
  cases v <;> simp [pathOk, h]

theorem emailErrors_optional_ok (lib : Lib) (emptyMsg : String) (v : Option String)
    (h : emailErrors lib emptyMsg false v = [])
    (hm : ∀ e, v = some e → emailMatch (toLowerCase lib e) = true) :
    pathOk true matchOk (v.map (toLowerCase lib)) = true := by
  unfold emailErrors at h
  cases v with
  | none => rfl
  | some e =>
    have he : e ≠ "" := by intro h0; simp [h0] at h
    simp [pathOk, requiredOk, matchOk, emailMatch_ne_empty _ (hm e rfl), hm e rfl]

theorem passwordErrors_optional_ok (emptyMsg : String) (v : Option String)
    (h : passwordErrors emptyMsg 6 false v = []) :
    pathOk true (minlengthOk 6) v = true := by
  unfold passwordErrors at h
  cases v with
  | none => rfl
  | some p =>
    by_cases h0 : p = ""
    · simp [h0] at h
    · by_cases hm : strLength p < 6
      · simp [h0, hm] at h
      · simp [pathOk, requiredOk, minlengthOk, h0, Nat.le_of_not_lt hm]

theorem roleErrors_pathOk (v : Option String) (h : roleErrors v = []) :
    pathOk true enumOk v = true := by
  rcases roleErrors_ok v h with h1 | h1 | h1 <;> subst h1 <;> rfl

/-- A payload the update schema accepts, whose address matches the pattern
of the model, passes the update validators, with or without its role. -/
theorem validateUpdate_of_schema (lib : Lib) (user : User) (b : Body)
    (h : userUpdateSchema lib b = [])
    (hm : ∀ e, b.email = some e → emailMatch (toLowerCase lib e) = true) :
    validateUpdate (applySetters lib (stripRole user b)) = true := by
  unfold userUpdateSchema at h
  simp only [List.append_eq_nil] at h
  obtain ⟨⟨⟨⟨⟨⟨h1, h2⟩, h3⟩, h4⟩, h5⟩, h6⟩, h7⟩ := h
  have a1 := textErrors_plain_ok _ _ _ _ _ h1
  have a2 := pathOk_optional _ _ (textErrors_optional_ok _ _ _ _ _ h2)
  have a3 := textErrors_plain_ok _ _ _ _ _ h3
  have a4 := emailErrors_optional_ok _ _ _ h4 hm
  have a5 := passwordErrors_optional_ok _ _ h5
  have a6 := pathOk_optional _ _ (textErrors_optional_ok _ _ _ _ _ h6)
  have a7 := roleErrors_pathOk _ h7
  have a8 : pathOk true enumOk none = true := rfl
  unfold stripRole
  split
  · simp only [validateUpdate, applySetters, a1, a2, a3, a4, a5, a6, a8, Bool.and_self]
  · simp only [validateUpdate, applySetters, a1, a2, a3, a4, a5, a6, a7, Bool.and_self]

/-- C21, as amended: when an update request is answered 200, the target is
the document with the path identifier, it keeps its place, its identifier and
`createdAt`, every schema field absent from the payload after role stripping
has the stored value it had (so the password hash, when the payload has no
password), and every other document is unchanged; when the response is not
200 the collection is unchanged; when the path parameter is a well-formed
identifier that no document has, no document holds the address of the payload,
and the payload passes the schema and the pattern of the model, the answer is
404 `User not found`. -/
theorem partial_update (lib : Lib) (env : Env) (db : Db) (user : User) (id : String)
    (body : Body) :
    (∀ r db1, updateUser lib env db user id body = (r, db1) → r.code = 200 →
      ∃ oid u v l1 l2, castObjectId id = some oid ∧ db = l1 ++ u :: l2
        ∧ (∀ x ∈ l1, x._id ≠ oid) ∧ u._id = oid ∧ db1 = l1 ++ v :: l2
        ∧ v._id = u._id ∧ v.createdAt = u.createdAt
        ∧ ((stripRole user body).firstName = none → v.firstName = u.firstName)
        ∧ ((stripRole user body).middleName = none → v.middleName = u.middleName)
        ∧ ((stripRole user body).lastName = none → v.lastName = u.lastName)
        ∧ ((stripRole user body).email = none → v.email = u.email)
        ∧ ((stripRole user body).password = none → v.password = u.password)
        ∧ ((stripRole user body).department = none → v.department = u.department)
        ∧ ((stripRole user body).role = none → v.role = u.role))
    ∧ (∀ r db1, updateUser lib env db user id body = (r, db1) → r.code ≠ 200 → db1 = db)
    ∧ (∀ oid, castObjectId id = some oid → (∀ u ∈ db, u._id ≠ oid) →
        (∀ e, body.email = some e → ∀ u ∈ db, u.email ≠ toLowerCase lib e) →
        userUpdateSchema lib body = [] →
        (∀ e, body.email = some e → emailMatch (toLowerCase lib e) = true) →
        updateUser lib env db user id body = (errorResponse 404 "User not found", db)) := by
  refine ⟨?_, fun r db1 h hne => updateUser_not_ok lib env db db1 user id body r h hne, ?_⟩
  · intro r db1 h hok
    obtain ⟨v, hupd, -⟩ := updateUser_ok lib env db db1 user id body r h hok
    obtain ⟨oid, u, hoid, hfu, -, hv, -, hdb⟩ := findByIdAndUpdate_ok lib env db db1 id _ v hupd
    obtain ⟨l1, l2, hsplit, -, hl⟩ := find?_eq_some_split _ db u hfu
    have hpu : (u._id == oid) = true := by
      have := List.find?_some hfu
      simpa using this
    refine ⟨oid, u, v, l1, l2, hoid, hsplit, ?_, by simpa using hpu, ?_, ?_⟩
    · intro x hx
      simpa using hl x hx
    · rw [hdb, hsplit]
      exact replaceFirst_split _ v u l1 l2 hl hpu
    · rw [hv]
      refine ⟨rfl, rfl, ?_, ?_, ?_, ?_, ?_, ?_, ?_⟩ <;> intro hnone <;>
        simp [applyUpdate, applySetters, hnone]
  · intro oid hcast hnone hfree hval hmatch
    have hf : db.find? (fun x => x._id == oid) = none := by
      rw [List.find?_eq_none]
      intro x hx
      simpa using hnone x hx
    have hvu := validateUpdate_of_schema lib user body hval hmatch
    have hex : (match (stripRole user body).email with
        | some email =>
          if truthy (some email) then findOtherByEmail db (toLowerCase lib email) id
          else Except.ok none
        | none => Except.ok none) = Except.ok none := by
      rw [stripRole_email]
      cases hbe : body.email with
      | none => rfl
      | some e =>
        simp only
        split
        · simp only [findOtherByEmail, hcast]
          congr 1
          rw [List.find?_eq_none]
          intro x hx
          simp [hfree e hbe x hx]
        · rfl
    unfold updateUser
    simp only [hex, findByIdAndUpdate, hcast, hvu, Bool.not_true, Bool.false_eq_true, if_false,
      hf]

/-- C21, as stated, fails: the administrator updates under the path parameter
`abc`, which no document has as its identifier, and the answer is 500; under a
well-formed identifier that no document has, with the address of the regular
user in the payload, the answer is 400; neither is 404. -/
theorem update_absent_target_not_404 :
    (∀ u ∈ sampleDb, u._id.toString ≠ "abc")
      ∧ handle refLib (envAt 3 "64b7f3a2c9e1d4f5a6b7c8db") sampleDb Route.updateUser
          { authorization := adminAuth, id := "abc", body := { firstName := some "Updated" } }
        = (errorResponse 500 "Server error updating user", sampleDb)
      ∧ (∀ u ∈ sampleDb, u._id.toString ≠ "64b7f3a2c9e1d4f5a6b7c8db")
      ∧ handle refLib (envAt 3 "64b7f3a2c9e1d4f5a6b7c8db") sampleDb Route.updateUser
          { authorization := adminAuth, id := "64b7f3a2c9e1d4f5a6b7c8db"
            body := { email := some "user@example.com" } }
        = (errorResponse 400 "Email already exists", sampleDb) := by
  decide

set_option maxRecDepth 8000 in
theorem partial_update_witness :
    (∃ oid u v l1 l2, castObjectId "64b7f3a2c9e1d4f5a6b7c8da" = some oid
        ∧ sampleDb = l1 ++ u :: l2
        ∧ (∀ x ∈ l1, x._id ≠ oid) ∧ u._id = oid ∧ [adminDoc, regularDocUpdated] = l1 ++ v :: l2
        ∧ v._id = u._id ∧ v.createdAt = u.createdAt
        ∧ ((stripRole regularDoc { password := some "newsecret" }).firstName = none →
            v.firstName = u.firstName)
        ∧ ((stripRole regularDoc { password := some "newsecret" }).middleName = none →
            v.middleName = u.middleName)
        ∧ ((stripRole regularDoc { password := some "newsecret" }).lastName = none →
            v.lastName = u.lastName)
        ∧ ((stripRole regularDoc { password := some "newsecret" }).email = none →
            v.email = u.email)
        ∧ ((stripRole regularDoc { password := some "newsecret" }).password = none →
            v.password = u.password)
        ∧ ((stripRole regularDoc { password := some "newsecret" }).department = none →
            v.department = u.department)
        ∧ ((stripRole regularDoc { password := some "newsecret" }).role = none →
            v.role = u.role))
    ∧ updateUser refLib (envAt 3 "64b7f3a2c9e1d4f5a6b7c8db") sampleDb adminDoc
          "64b7f3a2c9e1d4f5a6b7c8db" { firstName := some "Updated" }
        = (errorResponse 404 "User not found", sampleDb) :=
  ⟨(partial_update refLib (envAt 3 "64b7f3a2c9e1d4f5a6b7c8db") sampleDb regularDoc
      "64b7f3a2c9e1d4f5a6b7c8da" { password := some "newsecret" }).1
      { code := 200, status := "success", message := some "User updated successfully"
        data := some (Data.user (selectNoPassword regularDocUpdated).toObject) }
      [adminDoc, regularDocUpdated] (by decide) rfl,
   (partial_update refLib (envAt 3 "64b7f3a2c9e1d4f5a6b7c8db") sampleDb adminDoc
      "64b7f3a2c9e1d4f5a6b7c8db" { firstName := some "Updated" }).2.2
      ⟨"64b7f3a2c9e1d4f5a6b7c8db"⟩ (by decide) (by decide)
      (by intro e he; cases he) (by decide) (by intro e he; cases he)⟩

/-! ## C22: the derived full name -/

/-- C22: the derived `fullName` is `firstName + ' ' + middleName + ' ' +
lastName` when the middle name is present and not empty, and `firstName + ' '
+ lastName` when it is missing or empty; two documents with the same three
name fields have the same full name; it is no field of the stored document
but a key computed when the document is serialised, also after an update of a
name. -/
theorem fullName_derived (u : User) :
    (∀ m, u.middleName = some m → m ≠ "" →
        fullName u = u.firstName ++ " " ++ m ++ " " ++ u.lastName)
    ∧ ((u.middleName = none ∨ u.middleName = some "") →
        fullName u = u.firstName ++ " " ++ u.lastName)
    ∧ (∀ v : User, v.firstName = u.firstName → v.middleName = u.middleName →
        v.lastName = u.lastName → fullName v = fullName u)
    ∧ u.toObject.get "fullName" = some (Val.str (fullName u))
    ∧ (getPublicProfile u).get "fullName" = some (Val.str (fullName u))
    ∧ (∀ (now : Nat) (d : Body),
        (applyUpdate now d u).toObject.get "fullName"
          = some (Val.str (fullName (applyUpdate now d u)))) := by
  have hget : ∀ w : User, w.toObject.get "fullName" = some (Val.str (fullName w)) := by
    intro w
    unfold Obj.get User.toObject
    cases w.middleName <;> cases w.department <;> cases w.password <;>
      simp [optKey, List.find?_cons]
  refine ⟨?_, ?_, ?_, hget u, ?_, fun now d => hget _⟩
  · intro m hm hne
    simp [fullName, hm, truthy, hne]
  · intro h
    rcases h with h | h <;> simp [fullName, h, truthy]
  · intro v h1 h2 h3
    simp [fullName, h1, h2, h3]
  · unfold getPublicProfile
    rw [get_delete_other _ _ _ (by decide)]
    exact hget u

theorem fullName_derived_witness :
    fullName { johnDoc with middleName := some "Quincy" } = "John Quincy Doe"
      ∧ fullName { johnDoc with middleName := some "" } = "John Doe"
      ∧ fullName johnDoc = "John Doe" :=
  ⟨((fullName_derived { johnDoc with middleName := some "Quincy" }).1 "Quincy" rfl
      (by decide)).trans (by decide),
   ((fullName_derived { johnDoc with middleName := some "" }).2.1 (Or.inr rfl)).trans
      (by decide),
   ((fullName_derived johnDoc).2.1 (Or.inl rfl)).trans (by decide)⟩

/-! ## C23: the role of a created user -/

theorem validate_none (schema : Body → List String) (b : Body)
    (h : validate schema b = none) : schema b = [] := by
  unfold validate details at h
  cases hs : schema b with
  | nil => rfl
  | cons m rest => rw [hs] at h; simp at h

theorem create_role (lib : Lib) (env : Env) (db db1 : Db) (data : Body) (u : User)
    (h : create lib env db data = Except.ok (u, db1)) : u.role = data.role.getD "user" := by
  unfold create at h
  simp only at h
  split at h
  · simp at h
  · split at h
    · rename_i f l e p r hf hl he hp hr
      split at h
      · simp at h
      · simp only [Except.ok.injEq, Prod.mk.injEq] at h
        obtain ⟨h1, -⟩ := h
        subst h1
        simp only [applySetters, Option.some.injEq] at hr
        exact hr.symm
    · simp at h

theorem register_created (lib : Lib) (env : Env) (db db1 : Db) (body : Body) (r : Response)
    (h : register lib env db body = (r, db1)) (hok : r.code = 201) :
    ∃ u, create lib env db { body with role := some (roleOrUser body.role) } = Except.ok (u, db1)
      ∧ r.users = [getPublicProfile u] := by
  unfold register at h
  split at h
  · simp only [Prod.mk.injEq] at h; rw [← h.1] at hok; simp [errorResponse] at hok
  · split at h
    · simp only [Prod.mk.injEq] at h; rw [← h.1] at hok; simp [errorResponse] at hok
    · split at h
      · simp only [Prod.mk.injEq] at h; rw [← h.1] at hok; simp [errorResponse] at hok
      · rename_i u db2 hc
        simp only [Prod.mk.injEq] at h
        refine ⟨u, by rw [hc, h.2], ?_⟩
        rw [← h.1]; rfl

theorem createUser_created (lib : Lib) (env : Env) (db db1 : Db) (body : Body) (r : Response)
    (h : createUser lib env db body = (r, db1)) (hok : r.code = 201) :
    ∃ u, create lib env db { body with role := some (roleOrUser body.role) } = Except.ok (u, db1)
      ∧ r.users = [getPublicProfile u] := by
  unfold createUser at h
  split at h
  · simp only [Prod.mk.injEq] at h; rw [← h.1] at hok; simp [errorResponse] at hok
  · split at h
    · simp only [Prod.mk.injEq] at h; rw [← h.1] at hok; simp [errorResponse] at hok
    · split at h
      · simp only [Prod.mk.injEq] at h; rw [← h.1] at hok; simp [errorResponse] at hok
      · rename_i u db2 hc
        simp only [Prod.mk.injEq] at h
        refine ⟨u, by rw [hc, h.2], ?_⟩
        rw [← h.1]; rfl

theorem roleOrUser_of_valid (v : Option String)
    (h : v = none ∨ v = some "admin" ∨ v = some "user") : roleOrUser v = v.getD "user" := by
  rcases h with h | h | h <;> subst h <;> simp [roleOrUser, truthy]

theorem getPublicProfile_role (u : User) :
    (getPublicProfile u).get "role" = some (Val.str u.role) := by
  unfold getPublicProfile
  rw [get_delete_other _ _ _ (by decide)]
  unfold Obj.get User.toObject
  cases u.middleName <;> cases u.department <;> cases u.password <;>
    simp [optKey, List.find?_cons]

/-- What a created request that ended in 201 did, from the validated body. -/
theorem created_of_valid (lib : Lib) (env : Env) (db db1 : Db) (body : Body) (r : Response)
    (hval : userRegistrationSchema lib body = [])
    (h : ∃ u, create lib env db { body with role := some (roleOrUser body.role) }
          = Except.ok (u, db1) ∧ r.users = [getPublicProfile u]) :
    ∃ u, db1 = db ++ [u] ∧ u.role = body.role.getD "user"
      ∧ (u.role = "admin" ∨ u.role = "user")
      ∧ r.users = [getPublicProfile u]
      ∧ (getPublicProfile u).get "role" = some (Val.str (body.role.getD "user")) := by
  obtain ⟨u, hc, hu⟩ := h
  have hr := (userRegistrationSchema_ok lib body hval).2.2.2.2.2.2
  have hrole : u.role = body.role.getD "user" := by
    rw [create_role lib env db db1 _ u hc]
    simp only [Option.getD_some]
    exact roleOrUser_of_valid _ hr
  refine ⟨u, (create_shape lib env db db1 _ u hc).1, hrole, ?_, hu, ?_⟩
  · rw [hrole]
    rcases hr with h | h | h <;> rw [h] <;> simp
  · rw [getPublicProfile_role, hrole]

/-- C23: when a register request, or the create request of an administrator,
is answered 201, one user has been appended to the collection; its role is
`user` when the body has no role and the role of the body when it has one
(`admin` or `user`, so a public registration with the role `admin` creates an
administrator); the role is a function of the role field of the body alone,
and the user object of the response shows it. -/
theorem created_role (lib : Lib) (env : Env) (db : Db) (req : Request) :
    (∀ r db1, handle lib env db Route.register req = (r, db1) → r.code = 201 →
      ∃ u, db1 = db ++ [u] ∧ u.role = req.body.role.getD "user"
        ∧ (u.role = "admin" ∨ u.role = "user")
        ∧ r.users = [getPublicProfile u]
        ∧ (getPublicProfile u).get "role" = some (Val.str (req.body.role.getD "user")))
    ∧ (∀ r db1, handle lib env db Route.createUser req = (r, db1) → r.code = 201 →
      ∃ u, db1 = db ++ [u] ∧ u.role = req.body.role.getD "user"
        ∧ (u.role = "admin" ∨ u.role = "user")
        ∧ r.users = [getPublicProfile u]
        ∧ (getPublicProfile u).get "role" = some (Val.str (req.body.role.getD "user"))) := by
  constructor
  · intro r db1 h hok
    simp only [handle, validated] at h
    rcases validate_cases (userRegistrationSchema lib) req.body with hv | ⟨m, hv⟩
    · rw [hv] at h
      exact created_of_valid lib env db db1 req.body r (validate_none _ _ hv)
        (register_created lib env db db1 req.body r h hok)
    · rw [hv] at h
      simp only [Prod.mk.injEq] at h
      rw [← h.1] at hok; simp [errorResponse] at hok
  · intro r db1 h hok
    simp only [handle, adminOnly, authenticated] at h
    rcases authenticate_cases lib env.now db req.authorization with
      ⟨c, m, hr⟩ | ⟨_, _, user, _, _, _, _, hn⟩
    · rw [hr] at h
      simp only [Prod.mk.injEq] at h
      have hcode : c = 201 := by rw [← h.1] at hok; simpa [errorResponse] using hok
      exfalso
      subst hcode
      revert hr
      unfold authenticate
      split
      · simp [errorResponse]
      · split
        · simp [errorResponse]
        · split
          · simp [errorResponse]
          · simp [errorResponse]
          · simp [errorResponse]
          · split <;> simp [errorResponse]
    · rw [hn] at h
      simp only at h
      rcases authorizeAdmin_cases (selectNoPassword user) with ⟨ha, -⟩ | ⟨ha, -⟩
      · rw [ha] at h
        simp only [validated] at h
        rcases validate_cases (userRegistrationSchema lib) req.body with hv | ⟨m, hv⟩
        · rw [hv] at h
          exact created_of_valid lib env db db1 req.body r (validate_none _ _ hv)
            (createUser_created lib env db db1 req.body r h hok)
        · rw [hv] at h
          simp only [Prod.mk.injEq] at h
          rw [← h.1] at hok; simp [errorResponse] at hok
      · rw [ha] at h
        simp only [Prod.mk.injEq] at h
        rw [← h.1] at hok; simp [errorResponse] at hok

set_option maxRecDepth 8000 in
theorem created_role_witness :
    (∃ u, [johnDoc] = [] ++ [u] ∧ u.role = johnBody.role.getD "user"
        ∧ (u.role = "admin" ∨ u.role = "user")
        ∧ Response.users
            { code := 201, status := "success", message := some "User registered successfully"
              data := some (Data.userToken (getPublicProfile johnDoc)
                "|||.64b7f3a2c9e1d4f5a6b7c8db") }
          = [getPublicProfile u]
        ∧ (getPublicProfile u).get "role" = some (Val.str (johnBody.role.getD "user")))
    ∧ (handle refLib (envAt 3 "64b7f3a2c9e1d4f5a6b7c8db") [] Route.register
        { body := { johnBody with role := some "admin" } }).2
      = [{ johnDoc with role := "admin" }] :=
  ⟨(created_role refLib (envAt 3 "64b7f3a2c9e1d4f5a6b7c8db") [] { body := johnBody }).1
      { code := 201, status := "success", message := some "User registered successfully"
        data := some (Data.userToken (getPublicProfile johnDoc) "|||.64b7f3a2c9e1d4f5a6b7c8db") }
      [johnDoc] (by decide) rfl,
   by decide⟩

/-! ## C24: the strings the email pattern accepts -/

theorem matches_nil_of_nullable (r : Rx) (h : r.nullable = true) : Rx.Matches r [] := by
  induction r with
  | none => simp [Rx.nullable] at h
  | eps => exact Rx.Matches.eps
  | cls p => simp [Rx.nullable] at h
  | seq a b iha ihb =>
    simp only [Rx.nullable, Bool.and_eq_true] at h
    exact Rx.Matches.seq a b [] [] (iha h.1) (ihb h.2)
  | alt a b iha ihb =>
    simp only [Rx.nullable, Bool.or_eq_true] at h
    rcases h with h | h
    · exact Rx.Matches.altL a b [] (iha h)
    · exact Rx.Matches.altR a b [] (ihb h)
  | star a _ => exact Rx.Matches.starNil a

theorem matches_cons_of_deriv (r : Rx) (c : Char) (s : List Char)
    (h : Rx.Matches (r.deriv c) s) : Rx.Matches r (c :: s) := by
  induction r generalizing s with
  | none => simp only [Rx.deriv] at h; cases h
  | eps => simp only [Rx.deriv] at h; cases h
  | cls p =>
    simp only [Rx.deriv] at h
    by_cases hp : p c = true
    · rw [if_pos hp] at h
      cases h
      exact Rx.Matches.cls p c hp
    · rw [if_neg hp] at h
      cases h
  | seq a b iha ihb =>
    simp only [Rx.deriv] at h
    by_cases hn : a.nullable = true
    · rw [if_pos hn] at h
      cases h with
      | altL _ _ _ h1 =>
        cases h1 with
        | seq _ _ s1 s2 h2 h3 => exact Rx.Matches.seq a b (c :: s1) s2 (iha s1 h2) h3
      | altR _ _ _ h1 =>
        exact Rx.Matches.seq a b [] (c :: s) (matches_nil_of_nullable a hn) (ihb s h1)
    · rw [if_neg hn] at h
      cases h with
      | seq _ _ s1 s2 h2 h3 => exact Rx.Matches.seq a b (c :: s1) s2 (iha s1 h2) h3
  | alt a b iha ihb =>
    simp only [Rx.deriv] at h
    cases h with
    | altL _ _ _ h1 => exact Rx.Matches.altL a b _ (iha s h1)
    | altR _ _ _ h1 => exact Rx.Matches.altR a b _ (ihb s h1)
  | star a iha =>
    simp only [Rx.deriv] at h
    cases h with
    | seq _ _ s1 s2 h2 h3 => exact Rx.Matches.starCons a (c :: s1) s2 (iha s1 h2) h3

/-- The matcher accepts only strings of the language of the expression. -/
theorem matches_of_test (r : Rx) (s : List Char) (h : r.test s = true) : Rx.Matches r s := by
  induction s generalizing r with
  | nil => exact matches_nil_of_nullable r h
  | cons c cs ih => exact matches_cons_of_deriv r c cs (ih (r.deriv c) h)

theorem matches_seq (a b : Rx) (s : List Char) (h : Rx.Matches (Rx.seq a b) s) :
    ∃ s1 s2, s = s1 ++ s2 ∧ Rx.Matches a s1 ∧ Rx.Matches b s2 := by
  cases h with
  | seq _ _ s1 s2 h1 h2 => exact ⟨s1, s2, rfl, h1, h2⟩

theorem matches_cls (p : Char → Bool) (s : List Char) (h : Rx.Matches (Rx.cls p) s) :
    ∃ c, s = [c] ∧ p c = true := by
  cases h with
  | cls _ c hc => exact ⟨c, rfl, hc⟩

theorem matches_opt (a : Rx) (s : List Char) (h : Rx.Matches (Rx.opt a) s) :
    Rx.Matches a s ∨ s = [] := by
  unfold Rx.opt at h
  cases h with
  | altL _ _ _ h1 => exact Or.inl h1
  | altR _ _ _ h1 => cases h1; exact Or.inr rfl

/-- Induction over the repetitions of a starred expression. -/
theorem matches_star_induction (a : Rx) (P : List Char → Prop) (hnil : P [])
    (hcons : ∀ s t, Rx.Matches a s → P t → P (s ++ t)) (m : List Char)
    (h : Rx.Matches (Rx.star a) m) : P m := by
  generalize hr : Rx.star a = r at h
  induction h with
  | eps => exact hnil
  | cls p c hc => cases hr
  | seq a1 b1 s t _ _ _ _ => cases hr
  | altL a1 b1 s _ _ => cases hr
  | altR a1 b1 s _ _ => cases hr
  | starNil a1 => exact hnil
  | starCons a1 s t h1 _ _ ih2 =>
    cases hr
    exact hcons s t h1 (ih2 rfl)

theorem emailPattern_eq :
    emailPattern
      = Rx.seq partRx (Rx.seq (Rx.cls (fun c => c == '@')) (Rx.seq partRx (Rx.plus tldRx))) :=
  rfl

theorem word_not_sep (c : Char) (h : isWordChar c = true) : isSep c = false := by
  cases hs : isSep c with
  | false => rfl
  | true =>
    simp only [isSep, Bool.or_eq_true, beq_iff_eq] at hs
    rcases hs with hs | hs <;> subst hs <;> simp [isWordChar] at h

theorem word_ne_at (c : Char) (h : isWordChar c = true ∨ isSep c = true) : c ≠ '@' := by
  intro hc
  subst hc
  rcases h with h | h
  · simp [isWordChar] at h
  · simp [isSep] at h

theorem chain_of_words (l : List Char) (h : ∀ c ∈ l, isWordChar c = true) :
    l.Chain' (fun a b => ¬ (isSep a = true ∧ isSep b = true)) := by
  induction l with
  | nil => exact List.chain'_nil
  | cons x xs ih =>
    cases xs with
    | nil => exact List.chain'_singleton x
    | cons y ys =>
      rw [List.chain'_cons]
      refine ⟨?_, ih (fun c hc => h c (List.mem_cons_of_mem _ hc))⟩
      intro hxy
      have := word_not_sep x (h x (List.mem_cons_self _ _))
      rw [this] at hxy
      exact Bool.noConfusion hxy.1

theorem wellSeparated_words (l : List Char) (hne : l ≠ [])
    (h : ∀ c ∈ l, isWordChar c = true) : WellSeparated l := by
  refine ⟨hne, fun c hc => Or.inl (h c hc), ?_, ?_, chain_of_words l h⟩
  · cases l with
    | nil => exact absurd rfl hne
    | cons x xs => exact ⟨x, rfl, h x (List.mem_cons_self _ _)⟩
  · exact ⟨l.getLast hne, List.getLast?_eq_getLast l hne, h _ (List.getLast_mem hne)⟩

theorem wellSeparated_append (a b : List Char) (ha : WellSeparated a) (hb : WellSeparated b) :
    WellSeparated (a ++ b) := by
  obtain ⟨ha0, ha1, ⟨x, hx, hxw⟩, ⟨y, hy, hyw⟩, ha4⟩ := ha
  obtain ⟨hb0, hb1, ⟨z, hz, hzw⟩, ⟨w, hw, hww⟩, hb4⟩ := hb
  refine ⟨by simp [ha0], ?_, ?_, ?_, ?_⟩
  · intro c hc
    rcases List.mem_append.mp hc with hc | hc
    · exact ha1 c hc
    · exact hb1 c hc
  · exact ⟨x, by rw [List.head?_append_of_ne_nil _ ha0, hx], hxw⟩
  · exact ⟨w, by rw [List.getLast?_append_of_ne_nil _ hb0, hw], hww⟩
  · rw [List.chain'_append]
    refine ⟨ha4, hb4, ?_⟩
    intro p hp q _ hpq
    rw [hy] at hp
    cases hp
    rw [word_not_sep _ hyw] at hpq
    exact Bool.noConfusion hpq.1

theorem wellSeparated_sep_cons (c : Char) (b : List Char) (hb : WellSeparated b) :
    (c :: b).Chain' (fun x y => ¬ (isSep x = true ∧ isSep y = true)) := by
  obtain ⟨hb0, -, ⟨z, hz, hzw⟩, -, hb4⟩ := hb
  cases b with
  | nil => exact absurd rfl hb0
  | cons d ds =>
    rw [List.chain'_cons]
    refine ⟨?_, hb4⟩
    simp only [List.head?_cons, Option.some.injEq] at hz
    subst hz
    intro hcd
    rw [word_not_sep d hzw] at hcd
    exact Bool.noConfusion hcd.2

theorem wellSeparated_append_sep (a b : List Char) (c : Char) (ha : WellSeparated a)
    (hc : isSep c = true) (hb : WellSeparated b) : WellSeparated (a ++ c :: b) := by
  have hchain := wellSeparated_sep_cons c b hb
  obtain ⟨ha0, ha1, ⟨x, hx, hxw⟩, ⟨y, hy, hyw⟩, ha4⟩ := ha
  obtain ⟨hb0, hb1, ⟨z, hz, hzw⟩, ⟨w, hw, hww⟩, hb4⟩ := hb
  refine ⟨by simp [ha0], ?_, ?_, ?_, ?_⟩
  · intro d hd
    rcases List.mem_append.mp hd with hd | hd
    · exact ha1 d hd
    · rcases List.mem_cons.mp hd with hd | hd
      · rw [hd]; exact Or.inr hc
      · exact hb1 d hd
  · exact ⟨x, by rw [List.head?_append_of_ne_nil _ ha0, hx], hxw⟩
  · refine ⟨w, ?_, hww⟩
    rw [List.getLast?_append_of_ne_nil _ (List.cons_ne_nil c b)]
    have : c :: b = [c] ++ b := rfl
    rw [this, List.getLast?_append_of_ne_nil _ hb0, hw]
  · rw [List.chain'_append]
    refine ⟨ha4, hchain, ?_⟩
    intro p hp q _ hpq
    rw [hy] at hp
    cases hp
    rw [word_not_sep _ hyw] at hpq
    exact Bool.noConfusion hpq.1

theorem matches_words (s : List Char) (h : Rx.Matches wordsRx s) :
    s ≠ [] ∧ ∀ c ∈ s, isWordChar c = true := by
  unfold wordsRx Rx.plus at h
  obtain ⟨s1, s2, hs, h1, h2⟩ := matches_seq _ _ s h
  obtain ⟨c, hc, hcw⟩ := matches_cls _ s1 h1
  have hall : ∀ d ∈ s2, isWordChar d = true := by
    refine matches_star_induction (Rx.cls isWordChar) (fun t => ∀ d ∈ t, isWordChar d = true)
      (by simp) ?_ s2 h2
    intro u t hu ht d hd
    obtain ⟨e, he, hew⟩ := matches_cls _ u hu
    rcases List.mem_append.mp hd with hd | hd
    · rw [he] at hd
      rw [List.mem_singleton.mp hd]; exact hew
    · exact ht d hd
  subst hs hc
  refine ⟨by simp, ?_⟩
  intro d hd
  rcases List.mem_append.mp hd with hd | hd
  · rw [List.mem_singleton.mp hd]; exact hcw
  · exact hall d hd

theorem matches_part (s : List Char) (h : Rx.Matches partRx s) : WellSeparated s := by
  unfold partRx at h
  obtain ⟨s1, s2, hs, h1, h2⟩ := matches_seq _ _ s h
  obtain ⟨h1n, h1w⟩ := matches_words s1 h1
  have hP : ∀ a, WellSeparated a → WellSeparated (a ++ s2) := by
    refine matches_star_induction (Rx.seq (Rx.opt (Rx.cls isSep)) wordsRx)
      (fun t => ∀ a, WellSeparated a → WellSeparated (a ++ t)) ?_ ?_ s2 h2
    · intro a ha; simpa using ha
    · intro u t hu ht a ha
      obtain ⟨o, w, huw, ho, hw⟩ := matches_seq _ _ u hu
      obtain ⟨hwn, hww⟩ := matches_words w hw
      have hws := wellSeparated_words w hwn hww
      rw [← List.append_assoc]
      apply ht
      subst huw
      rcases matches_opt _ o ho with ho | ho
      · obtain ⟨c, hc, hcs⟩ := matches_cls _ o ho
        subst hc
        exact wellSeparated_append_sep a w c ha hcs hws
      · subst ho
        exact wellSeparated_append a w ha hws
  rw [hs]
  exact hP s1 (wellSeparated_words s1 h1n h1w)

theorem matches_tld (x : List Char) (h : Rx.Matches tldRx x) :
    ∃ t, x = '.' :: t ∧ (∀ c ∈ t, isWordChar c = true) ∧ (t.length = 2 ∨ t.length = 3) := by
  unfold tldRx at h
  obtain ⟨d, r1, hx, hd, hr1⟩ := matches_seq _ _ x h
  obtain ⟨c0, hc0, hdot⟩ := matches_cls _ d hd
  obtain ⟨w1, r2, h1, hw1, hr2⟩ := matches_seq _ _ r1 hr1
  obtain ⟨c1, hc1, hcw1⟩ := matches_cls _ w1 hw1
  obtain ⟨w2, r3, h2, hw2, hr3⟩ := matches_seq _ _ r2 hr2
  obtain ⟨c2, hc2, hcw2⟩ := matches_cls _ w2 hw2
  have hdot2 : c0 = '.' := by simpa using hdot
  subst hx hc0 h1 hc1 h2 hc2 hdot2
  rcases matches_opt _ r3 hr3 with h3 | h3
  · obtain ⟨c3, hc3, hcw3⟩ := matches_cls _ r3 h3
    subst hc3
    refine ⟨[c1, c2, c3], rfl, ?_, Or.inr rfl⟩
    intro c hc
    simp only [List.mem_cons, List.mem_singleton, List.not_mem_nil, or_false] at hc
    rcases hc with hc | hc | hc <;> rw [hc] <;> assumption
  · subst h3
    refine ⟨[c1, c2], rfl, ?_, Or.inl rfl⟩
    intro c hc
    simp only [List.mem_cons, List.mem_singleton, List.not_mem_nil, or_false] at hc
    rcases hc with hc | hc <;> rw [hc] <;> assumption

theorem append_tld (a x : List Char) (ha : WellSeparated a) (hx : Rx.Matches tldRx x) :
    WellSeparated (a ++ x) ∧ EndsWithLabel (a ++ x) := by
  obtain ⟨t, hxt, htw, htl⟩ := matches_tld x hx
  subst hxt
  have htne : t ≠ [] := by
    intro h0; rw [h0] at htl; simp at htl
  exact ⟨wellSeparated_append_sep a t '.' ha (by decide) (wellSeparated_words t htne htw),
    a, t, rfl, htw, htl⟩

theorem matches_domain (d : List Char) (h : Rx.Matches (Rx.seq partRx (Rx.plus tldRx)) d) :
    WellSeparated d ∧ EndsWithLabel d := by
  obtain ⟨a, m0, hd, ha, hm0⟩ := matches_seq _ _ d h
  unfold Rx.plus at hm0
  obtain ⟨x, m, hm, hx, hstar⟩ := matches_seq _ _ m0 hm0
  have hP : ∀ b, WellSeparated b ∧ EndsWithLabel b →
      WellSeparated (b ++ m) ∧ EndsWithLabel (b ++ m) := by
    refine matches_star_induction tldRx
      (fun t => ∀ b, WellSeparated b ∧ EndsWithLabel b →
        WellSeparated (b ++ t) ∧ EndsWithLabel (b ++ t)) ?_ ?_ m hstar
    · intro b hb; simpa using hb
    · intro u t hu ht b hb
      rw [← List.append_assoc]
      exact ht (b ++ u) (append_tld b u hb.1 hu)
  rw [hd, hm, ← List.append_assoc]
  exact hP (a ++ x) (append_tld a x (matches_part a ha) hx)

theorem last_label_unique (a b x y : List Char) (h : a ++ '.' :: x = b ++ '.' :: y)
    (hx : '.' ∉ x) (hy : '.' ∉ y) : x = y := by
  rcases List.append_eq_append_iff.mp h with ⟨c, -, hc⟩ | ⟨c, -, hc⟩
  · cases c with
    | nil => simpa using hc
    | cons e es =>
      simp only [List.cons_append, List.cons.injEq] at hc
      exfalso; apply hx; rw [hc.2]; simp
  · cases c with
    | nil => simpa using hc.symm
    | cons e es =>
      simp only [List.cons_append, List.cons.injEq] at hc
      exfalso; apply hy; rw [hc.2]; simp

/-- What every string the matcher accepts for the email pattern looks like. -/
theorem emailMatch_parts (s : String) (h : emailMatch s = true) :
    ∃ loc dom : List Char, s.data = loc ++ '@' :: dom ∧ WellSeparated loc ∧ WellSeparated dom
      ∧ EndsWithLabel dom := by
  unfold emailMatch at h
  have hm := matches_of_test emailPattern s.data h
  rw [emailPattern_eq] at hm
  obtain ⟨loc, r1, hs, hloc, hr1⟩ := matches_seq _ _ _ hm
  obtain ⟨at1, dom, h1, hat, hdom⟩ := matches_seq _ _ _ hr1
  obtain ⟨c, hc, hcat⟩ := matches_cls _ at1 hat
  have hc2 : c = '@' := by simpa using hcat
  subst h1 hc hc2
  obtain ⟨hd1, hd2⟩ := matches_domain dom hdom
  exact ⟨loc, dom, hs, matches_part loc hloc, hd1, hd2⟩

/-- C24: every string the email pattern of the model accepts is `local@domain`
where the local part and the domain are not empty, are made of word
characters, `.` and `-`, begin and end with a word character and have no two
separators next to each other; it has exactly one `@` and no other character,
and it ends with a `.` followed by exactly 2 or 3 word characters.  So a
string whose final label, after its last `.`, has 4 or more characters is
rejected, as `a@example.info` is. -/
theorem email_pattern_shape (s : String) :
    (emailMatch s = true →
      ∃ loc dom front t : List Char, s.data = loc ++ '@' :: dom
        ∧ WellSeparated loc ∧ WellSeparated dom
        ∧ s.data.count '@' = 1
        ∧ (∀ c ∈ s.data, isWordChar c = true ∨ c = '.' ∨ c = '-' ∨ c = '@')
        ∧ s.data = front ++ '.' :: t ∧ (∀ c ∈ t, isWordChar c = true)
        ∧ (t.length = 2 ∨ t.length = 3))
    ∧ (∀ pre lab : List Char, s.data = pre ++ '.' :: lab → '.' ∉ lab → 4 ≤ lab.length →
        emailMatch s = false)
    ∧ emailMatch "a@example.info" = false := by
  refine ⟨?_, ?_, by decide⟩
  · intro h
    obtain ⟨loc, dom, hs, hloc, hdom, pre, t, hd, htw, htl⟩ := emailMatch_parts s h
    have hnoat : ∀ l : List Char, WellSeparated l → List.count '@' l = 0 := by
      intro l hl
      rw [List.count_eq_zero]
      intro hmem
      exact word_ne_at '@' (hl.2.1 '@' hmem) rfl
    have hchars : ∀ l : List Char, WellSeparated l →
        ∀ c ∈ l, isWordChar c = true ∨ c = '.' ∨ c = '-' ∨ c = '@' := by
      intro l hl c hc
      rcases hl.2.1 c hc with hw | hsep
      · exact Or.inl hw
      · simp only [isSep, Bool.or_eq_true, beq_iff_eq] at hsep
        rcases hsep with hsep | hsep
        · exact Or.inr (Or.inl hsep)
        · exact Or.inr (Or.inr (Or.inl hsep))
    refine ⟨loc, dom, loc ++ '@' :: pre, t, hs, hloc, hdom, ?_, ?_, ?_, htw, htl⟩
    · rw [hs, List.count_append, List.count_cons, hnoat loc hloc, hnoat dom hdom]
      simp
    · intro c hc
      rw [hs] at hc
      rcases List.mem_append.mp hc with hc | hc
      · exact hchars loc hloc c hc
      · rcases List.mem_cons.mp hc with hc | hc
        · exact Or.inr (Or.inr (Or.inr hc))
        · exact hchars dom hdom c hc
    · rw [hs, hd]; simp
  · intro pre lab hs hdot hlen
    cases hm : emailMatch s with
    | false => rfl
    | true =>
      exfalso
      obtain ⟨loc, dom, hs2, -, -, pre2, t, hd, htw, htl⟩ := emailMatch_parts s hm
      have hnd : '.' ∉ t := by
        intro hmem
        have := htw '.' hmem
        simp [isWordChar] at this
      have heq : (loc ++ '@' :: pre2) ++ '.' :: t = pre ++ '.' :: lab := by
        rw [← hs, hs2, hd]; simp
      have := last_label_unique _ _ _ _ heq hnd hdot
      rw [← this] at hlen
      omega

theorem email_pattern_shape_witness :
    emailMatch "john.doe@example.com" = true
      ∧ ∃ loc dom front t : List Char, "john.doe@example.com".data = loc ++ '@' :: dom
        ∧ WellSeparated loc ∧ WellSeparated dom
        ∧ "john.doe@example.com".data.count '@' = 1
        ∧ (∀ c ∈ "john.doe@example.com".data,
            isWordChar c = true ∨ c = '.' ∨ c = '-' ∨ c = '@')
        ∧ "john.doe@example.com".data = front ++ '.' :: t ∧ (∀ c ∈ t, isWordChar c = true)
        ∧ (t.length = 2 ∨ t.length = 3) :=
  ⟨by decide, (email_pattern_shape "john.doe@example.com").1 (by decide)⟩

/-! ## Strings outside ASCII

How the model answers requests whose strings have characters outside ASCII,
with the small instance of the library interface. -/

/-- The `length` of a string counts UTF-16 code units: a password of three
characters outside the Basic Multilingual Plane has length 6 and passes the
registration schema, a first name of 26 such characters has length 52 and is
refused. -/
theorem length_in_code_units :
    strLength (astral 3) = 6
      ∧ validate (userRegistrationSchema refLib) { johnBody with password := some (astral 3) }
        = none
      ∧ (handle refLib (envAt 3 "64b7f3a2c9e1d4f5a6b7c8db") sampleDb Route.register
          { body := { johnBody with password := some (astral 3) } }).1.code = 201
      ∧ strLength (astral 26) = 52
      ∧ handle refLib (envAt 3 "64b7f3a2c9e1d4f5a6b7c8db") sampleDb Route.register
          { body := { johnBody with firstName := some (astral 26) } }
        = (errorResponse 400 "First name cannot exceed 50 characters", sampleDb) := by
  decide

/-- The Kelvin sign is lowered to `k`: an address written with it finds the
user whose address is `kim@example.com` at login, and is refused as taken at
registration and in an update of another record. -/
theorem kelvin_sign_lowered :
    toLowerCase refLib kelvinAddress = "kim@example.com"
      ∧ (handle refLib (envAt 3 "64b7f3a2c9e1d4f5a6b7c8db") kimDb Route.login
          { body := { email := some kelvinAddress, password := some "password123" } }).1.code
        = 200
      ∧ handle refLib (envAt 3 "64b7f3a2c9e1d4f5a6b7c8db") kimDb Route.register
          { body := { johnBody with email := some kelvinAddress } }
        = (errorResponse 400 "User with this email already exists", kimDb)
      ∧ handle refLib (envAt 3 "64b7f3a2c9e1d4f5a6b7c8db") kimDb Route.updateUser
          { authorization := adminAuth, id := "64b7f3a2c9e1d4f5a6b7c8d9"
            body := { email := some kelvinAddress } }
        = (errorResponse 400 "Email already exists", kimDb) := by
  decide

end UserApi
